import Mathlib

set_option maxHeartbeats 1000000
set_option linter.unusedVariables false

/-!
Verification of the reconciliation engine in scripts/sync-bugs-kernel.py of
ubuntu-cve-tracker.

The script keeps a local flat-file vulnerability record store in sync with a
remote bug tracker.  We embed the relevant data model and the sync functions
(the change-application primitives, the provisioner refresh_task_packages, the
reconciler phases sync_new_bug / sync_to_bug_phase1 / sync_from_bug_phase2 /
sync_to_bug_phase3, and the per-bug driver sync_kernel_bug) as pure functions
over an explicit world state.  Remote-tracker and record-store writes are
additionally recorded in an event log so that write-freedom (dry-run purity)
is directly statable.

Conventions of the embedding:
* Python dicts become association lists; iteration over a dict iterates the
  key list, and value reads always go through the current world, exactly as
  the script reads the shared mutable dicts.
* The task objects of the remote tracker are aliased between bug.bug_tasks
  and the projection produced by generate_task_map; the embedding keeps the
  projected map (package -> release -> task) as the single authoritative
  store, so generate_task_map is the identity of this embedding and status,
  importance and delete writes act on the map directly.
* Functions of cve_lib that are not under src/ are either configuration data
  (kernel_srcs, releases, eol_releases, devel_release) carried in a Config
  structure, or are modelled from the spec where marked.
* An unhandled Python exception is modelled as an Option-valued result
  (none = the run aborts).
-/

namespace SyncBugsKernel

/-- Local record states (the string literals of the script and spec section 3). -/
inductive State
  | needed | needsTriage | pending | released | notAffected | ignored | DNE | deferred
  deriving DecidableEq, Fintype

/-- Remote task statuses of the tracker. -/
inductive Status
  | New | Confirmed | Triaged | InProgress | FixCommitted | FixReleased | Invalid | WontFix
  deriving DecidableEq, Fintype

/-- Remote task importances; Undecided is the tracker default on freshly created tasks. -/
inductive Importance
  | Critical | High | Medium | Low | Wishlist | Undecided
  deriving DecidableEq, Fintype

/-- Record-store priorities (cve_lib). -/
inductive Priority
  | critical | high | medium | low | negligible
  deriving DecidableEq, Fintype

/-- The priority_to_importance table at the top of the script. -/
def priority_to_importance : Priority → Importance
  | .critical => .Critical
  | .high => .High
  | .medium => .Medium
  | .low => .Low
  | .negligible => .Wishlist

/-! ### Association lists (Python dicts) -/

/-- Lookup of the first binding of a key (a Python dict read). -/
def alookup {α : Type} : List (String × α) → String → Option α
  | [], _ => none
  | (k, v) :: t, k' => if k = k' then some v else alookup t k'

/-- Modification of the first binding of a key; absent key, no change. -/
def amodify {α : Type} : List (String × α) → String → (α → α) → List (String × α)
  | [], _, _ => []
  | (k, v) :: t, k', f => if k = k' then (k, f v) :: t else (k, v) :: amodify t k' f

/-- Removal of the first binding of a key. -/
def aerase {α : Type} : List (String × α) → String → List (String × α)
  | [], _ => []
  | (k, v) :: t, k' => if k = k' then t else (k, v) :: aerase t k'

/-! ### The data model -/

/-- A remote task as read and written by the script: (package, release) identity is the
    map position, the mutable fields are status and importance. -/
structure Task where
  status : Status
  importance : Importance
  deriving DecidableEq

/-- The bug envelope plus its task map.  tasks is the projection produced by
    generate_task_map (package -> release -> task); noms maps a release name to its
    nomination approval flag. -/
structure Bug where
  title : String
  description : String
  tags : List String
  tasks : List (String × List (String × Task))
  noms : List (String × Bool)
  deriving DecidableEq

/-- A vulnerability record: pkgs maps package -> release -> (state, note); patches maps
    package -> list of (field, value) patch lines; the remaining fields are the
    free-text fields the script reads.  defaultPriority/relOverrides/srcOverrides model
    the priority information consumed by cve_lib.contextual_priority. -/
structure Record where
  candidate : String
  pkgs : List (String × List (String × (State × String)))
  patches : List (String × List (String × String))
  description : String
  ubuntuDescription : String
  bugsField : String
  defaultPriority : Priority
  relOverrides : List ((String × String) × Priority)
  srcOverrides : List (String × Priority)
  deriving DecidableEq

/-- Configuration data provided by cve_lib. -/
structure Config where
  kernelSrcs : List String
  releases : List String
  eolReleases : List String
  develRelease : String
  deriving DecidableEq

/-- The option flags of the script that the sync logic reads. -/
structure Opt where
  update : Bool
  allowEolTasks : Bool
  allowMissingTasks : Bool
  allowMissingNominations : Bool
  deriving DecidableEq

/-- One write issued to the remote tracker adapter or to the record store adapter. -/
inductive Event
  | SaveTaskStatus (src rel : String) (st : Status)
  | SaveTaskImportance (src rel : String) (imp : Importance)
  | DeleteTask (src rel : String)
  | SaveBugDescription (text : String)
  | AddTask (src : String)
  | AddNomination (rel : String)
  | ApproveNomination (rel : String)
  | UpdateState (src rel : String) (st : State) (note : String)
  | UpdateMultilineField (field : String) (text : String)
  deriving DecidableEq

/-- The whole mutable state a single sync_kernel_bug invocation touches, plus the
    write log. -/
structure World where
  cfg : Config
  opt : Opt
  bug : Bug
  data : Record
  log : List Event
  deriving DecidableEq

def getTask (w : World) (src rel : String) : Option Task :=
  (alookup w.bug.tasks src).bind (fun m => alookup m rel)

def getState (w : World) (src rel : String) : Option (State × String) :=
  (alookup w.data.pkgs src).bind (fun m => alookup m rel)

/-- Resolution of the logical release name devel (the release = rel / devel dance of the
    phase loops). -/
def develMap (cfg : Config) (rel : String) : String :=
  if rel = "devel" then cfg.develRelease else rel

def modifyTask (w : World) (src rel : String) (f : Task → Task) : World :=
  { w with bug := { w.bug with tasks := amodify w.bug.tasks src (fun m => amodify m rel f) } }

def modifyState (w : World) (src rel : String) (st : State) : World :=
  { w with data := { w.data with
      pkgs := amodify w.data.pkgs src (fun m => amodify m rel (fun p => (st, p.2))) } }

def logEvent (w : World) (e : Event) : World := { w with log := w.log ++ [e] }

/-- The tag protecting a bug description from updates. -/
def UCT_DESC_IGNORE_TAG : String := "kernel-cve-skip-description"

/-! ### String helpers

The Python text operations strip, startswith, split, replace and the in operator on a
character, written over the character list of the string (String.data), with structural
recursion throughout. -/

/-- The ASCII whitespace str.strip removes. -/
def isSpaceChar (c : Char) : Bool := c = ' ' || c = '\t' || c = '\n' || c = '\r'

def trimChars (cs : List Char) : List Char :=
  ((cs.dropWhile isSpaceChar).reverse.dropWhile isSpaceChar).reverse

/-- str.strip() on ASCII whitespace. -/
def sTrim (s : String) : String := ⟨trimChars s.data⟩

def isPrefixChars : List Char → List Char → Bool
  | [], _ => true
  | _ :: _, [] => false
  | p :: ps, c :: cs => p = c && isPrefixChars ps cs

/-- str.startswith. -/
def sStartsWith (s p : String) : Bool := isPrefixChars p.data s.data

/-- The in operator on a single character. -/
def sContains (s : String) (c : Char) : Bool := s.data.contains c

/-- str slicing from a character offset (the strings sliced are ASCII). -/
def sDrop (s : String) (n : Nat) : String := ⟨s.data.drop n⟩

def splitOnCharGo (sep : Char) : List Char → List Char → List (List Char)
  | [], acc => [acc.reverse]
  | c :: rest, acc =>
    if c = sep then acc.reverse :: splitOnCharGo sep rest []
    else splitOnCharGo sep rest (c :: acc)

/-- str.split on a one-character separator (empty pieces kept, as in Python). -/
def sSplitOnChar (s : String) (sep : Char) : List String :=
  (splitOnCharGo sep s.data []).map String.mk

/-- str.replace on a one-character pattern and replacement. -/
def sReplaceChar (s : String) (a b : Char) : String :=
  ⟨s.data.map (fun c => if c = a then b else c)⟩

/-! ### Change-application primitives -/

/-- set_task_importance: compare, report in dry-run, write and save in live mode. -/
def set_task_importance (w : World) (src release : String) (importance : Importance) :
    World × Bool :=
  match getTask w src release with
  | some task =>
    if task.importance ≠ importance then
      if !w.opt.update then (w, true)
      else (logEvent (modifyTask w src release (fun t => { t with importance := importance }))
              (.SaveTaskImportance src release importance), true)
    else (w, false)
  | none => (w, false)  -- not reachable from the script: callers index an existing task

/-- set_task_status: compare, report in dry-run, write and save in live mode. -/
def set_task_status (w : World) (src release : String) (state : Status) : World × Bool :=
  match getTask w src release with
  | some task =>
    if task.status ≠ state then
      if !w.opt.update then (w, true)
      else (logEvent (modifyTask w src release (fun t => { t with status := state }))
              (.SaveTaskStatus src release state), true)
    else (w, false)
  | none => (w, false)  -- not reachable from the script: callers index an existing task

/-- set_task_status_iff_exists: like set_task_status, but a missing release key is only
    reported and returns False. -/
def set_task_status_iff_exists (w : World) (src release : String) (state : Status) :
    World × Bool :=
  match getTask w src release with
  | none => (w, false)
  | some task =>
    if task.status ≠ state then
      if !w.opt.update then (w, true)
      else (logEvent (modifyTask w src release (fun t => { t with status := state }))
              (.SaveTaskStatus src release state), true)
    else (w, false)

/-- delete_task: touched is set unconditionally; the initial taskdict read raises
    KeyError when the task is absent (modelled as none); in live mode the task is
    removed via task.lp_delete(). -/
def delete_task (w : World) (src release : String) (reason : String) :
    Option (World × Bool) :=
  match getTask w src release with
  | none => none
  | some _ =>
    if !w.opt.update then some (w, true)
    else some
      (logEvent
        { w with bug := { w.bug with
            tasks := amodify w.bug.tasks src (fun m => aerase m release) } }
        (.DeleteTask src release), true)

/-- set_task_eol: delegates to delete_task with reason EoL (the Fix Released special
    case is commented out in the script). -/
def set_task_eol (w : World) (src release : String) : Option (World × Bool) :=
  delete_task w src release "EoL"

/-- set_bug_description with its two refusal guards. -/
def set_bug_description (w : World) (description : String) : World × Bool :=
  let description := sTrim description
  -- Do not blow away a non-New description with the useless fallback description
  if w.bug.description ≠ "Placeholder" ∧ description = "Description needed" then (w, false)
  -- a bug marked to not have its description overwritten is skipped
  else if UCT_DESC_IGNORE_TAG ∈ w.bug.tags then (w, false)
  else if w.bug.description ≠ description then
    if !w.opt.update then (w, true)
    else (logEvent { w with bug := { w.bug with description := description } }
            (.SaveBugDescription description), true)
  else (w, false)

/-- set_uct_state: compare the in-memory record state, report in dry-run, and in live
    mode update the record in memory and persist via cve_lib.update_state (the note is
    left alone). -/
def set_uct_state (w : World) (src rel : String) (state : State) : World × Bool :=
  match getState w src rel with
  | none => (w, false)  -- not reachable: callers iterate existing entries
  | some cur =>
    if cur.1 ≠ state then
      if !w.opt.update then (w, true)
      else (logEvent (modifyState w src rel state) (.UpdateState src rel state cur.2), true)
    else (w, false)

/-- Modelled from the spec: cve_lib.contextual_priority is not under src/.  The spec
    documents it as a context-sensitive priority: a package/release-specific override
    over the vulnerability's default priority (the script consumes component [1] of its
    result, the priority value). -/
def contextual_priority (data : Record) (src rel : String) : Priority :=
  match data.relOverrides.lookup (src, rel) with
  | some p => p
  | none =>
    match alookup data.srcOverrides src with
    | some p => p
    | none => data.defaultPriority

/-! ### Loop skeletons

The phase loops all have the same shape: iterate the packages of the record, skip
packages that are not kernel sources or have no task, then iterate the releases of the
package entry.  touched is or-accumulated across every iteration. -/

def relLoopGo (cellF : World → String → String → World × Bool) (src : String) :
    List String → World → Bool → World × Bool
  | [], w, t => (w, t)
  | rel :: rest, w, t =>
    let p := cellF w src rel
    relLoopGo cellF src rest p.1 (t || p.2)

def pkgLoopGo (cellF : World → String → String → World × Bool) :
    List String → World → Bool → World × Bool
  | [], w, t => (w, t)
  | src :: rest, w, t =>
    if src ∈ w.cfg.kernelSrcs then
      if (alookup w.bug.tasks src).isSome then
        let rels := ((alookup w.data.pkgs src).getD []).map Prod.fst
        let p := relLoopGo cellF src rels w t
        pkgLoopGo cellF rest p.1 p.2
      else pkgLoopGo cellF rest w t  -- missing tasks were already handled, skip
    else pkgLoopGo cellF rest w t

def pkgLoop (cellF : World → String → String → World × Bool) (w : World) (t : Bool) :
    World × Bool :=
  pkgLoopGo cellF (w.data.pkgs.map Prod.fst) w t

/-! ### Phase 1: push local state to the bug -/

/-- Eligible current statuses for the pending to Fix Committed push. -/
def pendingEligible (st : Status) : Prop :=
  st = .Invalid ∨ st = .New ∨ st = .Confirmed ∨ st = .Triaged ∨ st = .InProgress

instance (st : Status) : Decidable (pendingEligible st) := by
  unfold pendingEligible; infer_instance

/-- The body of the phase-1 release loop: release-name resolution and skip guards, the
    status transition table, then the importance update (skipped by the deferred
    continue). -/
def phase1Rel (w : World) (src rel : String) : World × Bool :=
  let release := develMap w.cfg rel
  if release = "" ∨ release = "upstream" ∨ release ∈ w.cfg.eolReleases then (w, false)
  -- product kernels would be synced to a particular LP project
  else if release = "product" ∨ release = "snap" then (w, false)
  else
    match getTask w src release, getState w src rel with
    | some task, some st =>
      let state := st.1
      let withImp : World × Bool → World × Bool := fun p =>
        let q := set_task_importance p.1 src release
          (priority_to_importance (contextual_priority p.1.data src rel))
        (q.1, p.2 || q.2)
      if state = .DNE then
        -- replace with delete_task when deleting tasks is fixed
        withImp (set_task_status_iff_exists w src release .Invalid)
      else if state = .pending ∧ pendingEligible task.status then
        withImp (set_task_status w src release .FixCommitted)
      else if state = .released then
        withImp (set_task_status w src release .FixReleased)
      else if (state = .notAffected ∨ state = .ignored) ∧ task.status = .New then
        withImp (set_task_status w src release .Invalid)
      else if state = .deferred then (w, false)  -- continue: skips the importance update
      else withImp (w, false)
    | none, _ => (w, false)  -- release not in tasks[src]
    | some _, none => (w, false)  -- not reachable: rel is drawn from the keys of pkgs[src]

/-- The EOL sweep at the top of phase 1: for every kernel package task on an EOL
    release, delete the task unless allow-eol-tasks is set. -/
def eolSweepRels (src : String) : List String → World → Bool → World × Bool
  | [], w, t => (w, t)
  | rel :: rest, w, t =>
    if (getTask w src rel).isSome && !w.opt.allowEolTasks then
      match set_task_eol w src rel with
      | some p => eolSweepRels src rest p.1 (t || p.2)
      | none => eolSweepRels src rest w t  -- not reachable: guarded by the presence test
    else eolSweepRels src rest w t

def eolSweepGo : List String → World → Bool → World × Bool
  | [], w, t => (w, t)
  | src :: rest, w, t =>
    if src ∈ w.cfg.kernelSrcs then
      let p := eolSweepRels src w.cfg.eolReleases w t
      eolSweepGo rest p.1 p.2
    else eolSweepGo rest w t

def eolSweep (w : World) : World × Bool :=
  eolSweepGo (w.bug.tasks.map Prod.fst) w false

def sync_to_bug_phase1 (w : World) : World × Bool :=
  let p := eolSweep w
  pkgLoop phase1Rel p.1 p.2

/-! ### Phase 2: pull the bug status back into the record, scan Break-Fix directives -/

/-- The body of the phase-2 release loop (the pull rules). -/
def phase2Rel (w : World) (src rel : String) : World × Bool :=
  let release := develMap w.cfg rel
  if release = "" ∨ release = "upstream" ∨ release ∈ w.cfg.eolReleases then (w, false)
  else
    match getTask w src release, getState w src rel with
    | some task, some st =>
      let state := st.1
      let status := task.status
      if state = .deferred then (w, false)
      else if status = .Confirmed ∨ status = .Triaged ∨ status = .InProgress then
        set_uct_state w src rel .needed
      else if status = .New ∧ state ≠ .needed then
        set_uct_state w src rel .needsTriage
      else if status = .Invalid ∧ ¬(state = .DNE ∨ state = .ignored) then
        set_uct_state w src rel .notAffected
      else (w, false)
    | none, _ => (w, false)
    | some _, none => (w, false)  -- not reachable

/-- The value parse of an Add-Break-Fix/Del-Break-Fix line: everything after the first
    colon (both directive tags are 14 characters up to and including it), split on
    spaces, with a dash standing in for the missing broken reference. -/
def breakFixShas (line : String) : List String :=
  let value := sTrim (sDrop line 14)
  if sContains value ' ' then sSplitOnChar value ' ' else ["-", value]

/-- The description scan of phase 2.  Every directive line sets touched and parses its
    value, but the subsequent calls del_uct_sha(data, shas) and add_uct_sha(data, shas)
    pass two arguments to three-parameter functions, so the first directive line raises
    TypeError in both modes (and the bodies themselves raise ValueError TODO in live
    mode before ever writing).  The run aborts: result none. -/
def scanBreakFix (w : World) (touched : Bool) : List String → World × Option Bool
  | [] => (w, some touched)
  | l :: rest =>
    let line := sTrim l
    if sStartsWith line "Add-Break-Fix:" || sStartsWith line "Del-Break-Fix:" then
      let shas := breakFixShas line
      if shas.length > 0 then (w, none)
      else scanBreakFix w true rest
    else scanBreakFix w touched rest

def sync_from_bug_phase2 (w : World) : World × Option Bool :=
  let p := pkgLoop phase2Rel w false
  scanBreakFix p.1 p.2 (sSplitOnChar p.1.bug.description '\n')

/-! ### Phase 3: second local-to-remote push and the description rewrite -/

def phase3Rel (w : World) (src rel : String) : World × Bool :=
  let release := develMap w.cfg rel
  if release = "" ∨ release = "upstream" ∨ release ∈ w.cfg.eolReleases then (w, false)
  else
    match getTask w src release, getState w src rel with
    | some _, some st =>
      if st.1 = .needsTriage then set_task_status w src release .New else (w, false)
    | none, _ => (w, false)
    | some _, none => (w, false)  -- not reachable

/-- The _extract_sha normalization: last path component, then last =-component. -/
def extract_sha (sha : String) : String :=
  let sha := if sContains sha '/' then (sSplitOnChar sha '/').getLastD sha else sha
  if sContains sha '=' then (sSplitOnChar sha '=').getLastD sha else sha

/-- Python value.split(space, 1). -/
def splitFirstSpace (s : String) : String × String :=
  match sSplitOnChar s ' ' with
  | [] => (s, "")
  | a :: rest => (a, String.intercalate " " rest)

/-- The (broken, sha) pairs contributed by one package's patch lines.  The record
    loader provides a patches entry for every package of the record. -/
def srcPatchPairs (data : Record) (src : String) : List (String × String) :=
  ((alookup data.patches src).getD []).foldl (fun acc fv =>
    if fv.1 ≠ "upstream" ∧ fv.1 ≠ "break-fix" then acc
    else
      let pair : Option (String × String) :=
        if fv.1 = "upstream" then
          let sha := extract_sha fv.2
          if sha ≠ "" then some ("-", sha) else none
        else if sContains fv.2 ' ' then
          let parts := splitFirstSpace fv.2
          let sha := extract_sha parts.2
          if sha ≠ "" then some (extract_sha parts.1, sha) else none
        else none
      match pair with
      | some p => acc ++ [p]
      | none => acc) []

/-- The deterministic description regenerated from the record (the body of
    _update_description_from_uct before the set_bug_description call). -/
def genDescription (cfg : Config) (data : Record) (taskSrcs : List (String × List (String × Task)))
    (pkgSrcs : List String) : String :=
  let shas := pkgSrcs.foldl (fun acc src =>
    if src ∈ cfg.kernelSrcs then
      if (alookup taskSrcs src).isSome then acc ++ srcPatchPairs data src else acc
    else acc) []
  let description := sTrim (sReplaceChar (sTrim data.description) '\n' ' ')
  let description :=
    if description = "" then
      let d2 := sTrim (sReplaceChar (sTrim data.ubuntuDescription) '\n' ' ')
      if d2 = "" then "Description needed" else d2
    else description
  description ++ "\n\n" ++
    String.join (shas.map (fun bs => "Break-Fix: " ++ bs.1 ++ " " ++ bs.2 ++ "\n"))

def _update_description_from_uct (w : World) : World × Bool :=
  set_bug_description w
    (genDescription w.cfg w.data w.bug.tasks (w.data.pkgs.map Prod.fst))

def sync_to_bug_phase3 (w : World) : World × Bool :=
  let p := pkgLoop phase3Rel w false
  let q := _update_description_from_uct p.1
  (q.1, p.2 || q.2)

/-! ### The bootstrap pass for new bugs -/

def newBugRel (w : World) (src rel : String) : World × Bool :=
  let release := develMap w.cfg rel
  if release = "" ∨ release = "upstream" ∨ release ∈ w.cfg.eolReleases then (w, false)
  else
    match getTask w src release, getState w src rel with
    | some task, some st =>
      let state := st.1
      if task.status ≠ .New then (w, false)
      else if state = .DNE then set_task_status_iff_exists w src release .Invalid
      else if state = .notAffected then set_task_status w src release .Invalid
      else if state = .pending then set_task_status w src release .FixCommitted
      else if state = .released then set_task_status w src release .FixReleased
      else (w, false)
    | none, _ => (w, false)
    | some _, none => (w, false)  -- not reachable

def sync_new_bug (w : World) : World × Bool :=
  let p := pkgLoop newBugRel w false
  let q := _update_description_from_uct p.1
  (q.1, p.2 || q.2)

/-! ### The provisioner: refresh_task_packages -/

def brokenNominationList : List String :=
  ["CVE-2010-3448", "CVE-2011-1833", "CVE-2012-4398"]

def brokenApprovalList : List String :=
  ["CVE-2010-3448", "CVE-2011-1833", "CVE-2012-4398", "CVE-2015-8709"]

/-- uct_src_all_nominations_DNE: a source whose record entries are all DNE across the
    supported releases needs no task. -/
def uct_src_all_nominations_DNE (cfg : Config) (src : String) (data : Record) : Bool :=
  cfg.releases.all (fun rel =>
    match (alookup data.pkgs src).bind (fun m => alookup m rel) with
    | some st => st.1 == .DNE
    | none => true)

/-- bug.addTask(target=source package): a fresh package task; the tracker also
    materializes a release task for every already approved nomination of the bug. -/
def addTask (w : World) (src : String) : World :=
  let rels := (w.bug.noms.filter (fun n => n.2)).map Prod.fst
  logEvent
    { w with bug := { w.bug with
        tasks := w.bug.tasks ++ [(src, rels.map (fun r => (r, Task.mk .New .Undecided)))] } }
    (.AddTask src)

/-- bug.addNomination(target=series): a new pending nomination for the release. -/
def addNomination (w : World) (rel : String) : World :=
  logEvent { w with bug := { w.bug with noms := w.bug.noms ++ [(rel, false)] } }
    (.AddNomination rel)

/-- nomination.approve(): marks the nomination approved and materializes a release task
    on every package task of the bug that does not already carry one. -/
def approveNomination (w : World) (rel : String) : World :=
  let noms := amodify w.bug.noms rel (fun _ => true)
  let tasks := w.bug.tasks.map (fun p =>
    if (alookup p.2 rel).isSome then p else (p.1, p.2 ++ [(rel, Task.mk .New .Undecided)]))
  logEvent { w with bug := { w.bug with noms := noms, tasks := tasks } }
    (.ApproveNomination rel)

/-- The DNE / not-affected skip test of the nomination loop: releases whose record
    entry is missing, DNE or not-affected need no nomination. -/
def nominationUnneeded (st : Option (State × String)) : Bool :=
  match st with
  | none => true
  | some st => st.1 == .DNE || st.1 == .notAffected

/-- The nomination part of refresh_task_packages for one source: walk the supported
    releases, skipping EOL releases, already verified releases, releases already
    nominated for this source, DNE/not-affected entries, and policy-suppressed ones;
    otherwise find or create a nomination and approve it, honouring the two known-broken
    exception lists (their continue skips the verified marker). -/
def refreshRelsGo (src : String) :
    List String → World → List String → Bool → World × List String × Bool
  | [], w, verified, refresh => (w, verified, refresh)
  | rel :: rest, w, verified, refresh =>
    -- EOL releases should not have nominations added
    if rel ∈ w.cfg.eolReleases then refreshRelsGo src rest w verified refresh
    else
      let data_rel := if rel = w.cfg.develRelease then "devel" else rel
      if rel ∈ verified then refreshRelsGo src rest w verified refresh
      else if (getTask w src rel).isSome then
        refreshRelsGo src rest w (rel :: verified) refresh
      else if nominationUnneeded (getState w src data_rel) then
        refreshRelsGo src rest w verified refresh
      else if w.opt.allowMissingNominations then refreshRelsGo src rest w verified refresh
      else
        let step : World × Bool :=
          if w.opt.update then
            match alookup w.bug.noms rel with
            | some _ =>  -- getNominationFor succeeded
              if w.bug.title ∈ brokenApprovalList then (w, false)
              else (approveNomination w rel, true)
            | none =>  -- getNominationFor raised: add the nomination
              if w.bug.title ∈ brokenNominationList then (w, false)
              else
                let w := addNomination w rel
                if w.bug.title ∈ brokenApprovalList then (w, false)
                else (approveNomination w rel, true)
          else (w, true)
        refreshRelsGo src rest step.1 (if step.2 then rel :: verified else verified) true

/-- The package part of refresh_task_packages: create missing tasks (policy-gated,
    best-effort), then ensure nominations release by release. -/
def refreshSrcsGo : List String → World → List String → Bool → World × Bool
  | [], w, _, refresh => (w, refresh)
  | src :: rest, w, verified, refresh =>
    if (alookup w.bug.tasks src).isNone then
      -- srcs that only have DNE for all releases do not need tasks
      if uct_src_all_nominations_DNE w.cfg src w.data then
        refreshSrcsGo rest w verified refresh
      else if w.opt.allowMissingTasks then refreshSrcsGo rest w verified refresh
      else
        let w' := if w.opt.update then addTask w src else w
        refreshSrcsGo rest w' verified true
    else if (alookup w.data.pkgs src).isNone then
      -- the tracker has no entry for this source package: move on
      refreshSrcsGo rest w verified refresh
    else
      let p := refreshRelsGo src w.cfg.releases w verified refresh
      refreshSrcsGo rest p.1 p.2.1 p.2.2

def refresh_task_packages (w : World) : World × Bool :=
  refreshSrcsGo w.cfg.kernelSrcs w [] false

/-! ### The per-bug driver -/

/-- sync_kernel_bug: rebuild the Bugs field, provision tasks and nominations
    (regenerating the task map, the identity of this embedding), run the bootstrap pass
    on a placeholder bug, then the three phases.  A phase-2 TypeError aborts the run
    (result none). -/
def sync_kernel_bug (w : World) (bugs_field : String) : World × Option Bool :=
  let w :=
    if bugs_field ≠ sTrim w.data.bugsField then
      if w.opt.update then logEvent w (.UpdateMultilineField "Bugs" bugs_field) else w
    else w
  let r := refresh_task_packages w
  let w := r.1
  let touched := r.2
  let p :=
    if w.bug.description = "Placeholder" then
      let q := sync_new_bug w
      (q.1, touched || q.2)
    else (w, touched)
  let w := p.1
  let touched := p.2
  let p1 := sync_to_bug_phase1 w
  let w := p1.1
  let touched := touched || p1.2
  match sync_from_bug_phase2 w with
  | (w, none) => (w, none)
  | (w, some t2) =>
    let p3 := sync_to_bug_phase3 w
    (p3.1, some (touched || t2 || p3.2))

/-- Two consecutive live runs with no intervening external change; none when a run
    aborts on an unhandled exception. -/
def runTwice (w : World) (bugs_field : String) : Option Bool :=
  match sync_kernel_bug w bugs_field with
  | (_, none) => none
  | (w1, some _) =>
    match sync_kernel_bug w1 bugs_field with
    | (_, none) => none
    | (_, some t2) => some t2

/-- A small concrete world used to exercise the phase functions on closed inputs: one
    kernel source package linux, one supported release noble (not the devel release),
    one task and one record entry for it, with the local state and the remote status
    as given. -/
def cW (s1 : State) (st : Status) : World :=
  { cfg := { kernelSrcs := ["linux"], releases := ["noble"], eolReleases := [],
             develRelease := "oracular" }
    opt := { update := true, allowEolTasks := false, allowMissingTasks := false,
             allowMissingNominations := false }
    bug := { title := "CVE-2024-0001 in linux", description := "d", tags := [],
             tasks := [("linux", [("noble", { status := st, importance := .Medium })])],
             noms := [] }
    data := { candidate := "CVE-2024-0001",
              pkgs := [("linux", [("noble", (s1, "note"))])],
              patches := [], description := "d", ubuntuDescription := "",
              bugsField := "", defaultPriority := .medium, relOverrides := [],
              srcOverrides := [] }
    log := [] }

/-- The concrete world with the noble task removed from the task map. -/
def cWnoTask (s1 : State) : World :=
  { cW s1 .New with bug := { (cW s1 .New).bug with tasks := [("linux", [])] } }

/-- The concrete world with the do-not-touch tag on the bug. -/
def cWtagged : World :=
  { cW .needed .New with
    bug := { (cW .needed .New).bug with tags := [UCT_DESC_IGNORE_TAG] } }

/-- An event that is not a nomination creation or approval for any of the given
    releases. -/
def eolNomFree (eol : List String) : Event → Prop
  | .AddNomination rel => rel ∉ eol
  | .ApproveNomination rel => rel ∉ eol
  | _ => True

instance (eol : List String) (e : Event) : Decidable (eolNomFree eol e) := by
  cases e <;> simp only [eolNomFree] <;> infer_instance

/-- The concrete world in dry-run mode. -/
def cWdry : World :=
  { cW .needed .New with
    opt := { update := false, allowEolTasks := false, allowMissingTasks := false,
             allowMissingNominations := false } }

/-- The concrete world with an Add-Break-Fix directive in the bug description. -/
def cWdirective : World :=
  { cW .needed .New with
    bug := { (cW .needed .New).bug with description := "Add-Break-Fix: deadbeef" } }

/-- The concrete world with one extra task on the EOL release lucid. -/
def cWeol : World :=
  { cW .needed .New with
    cfg := { kernelSrcs := ["linux"], releases := ["noble"], eolReleases := ["lucid"],
             develRelease := "oracular" }
    bug := { (cW .needed .New).bug with
      tasks := [("linux", [("noble", { status := .New, importance := .Medium }),
                           ("lucid", { status := .New, importance := .Medium })])] } }

/-- A world whose bug is fully provisioned: every kernel source either carries a task
    binding or legitimately needs none, and every supported non-EOL release of it is
    either already tasked, needs no nomination, or is policy-suppressed.  On such a
    world refresh_task_packages is a no-op. -/
def Provisioned (w : World) : Prop :=
  ∀ src ∈ w.cfg.kernelSrcs,
    ((alookup w.bug.tasks src).isSome = true ∨
      uct_src_all_nominations_DNE w.cfg src w.data = true ∨
      w.opt.allowMissingTasks = true) ∧
    (∀ rel ∈ w.cfg.releases, rel ∉ w.cfg.eolReleases →
      (getTask w src rel).isSome = true ∨
      nominationUnneeded (getState w src
        (if rel = w.cfg.develRelease then "devel" else rel)) = true ∨
      w.opt.allowMissingNominations = true)

instance (w : World) : Decidable (Provisioned w) := by
  unfold Provisioned; infer_instance

/-- The phase-1 status transition table as a pure function. -/
def t1Status (s : State) (st : Status) : Status :=
  if s = .DNE then .Invalid
  else if s = .pending ∧ pendingEligible st then .FixCommitted
  else if s = .released then .FixReleased
  else if (s = .notAffected ∨ s = .ignored) ∧ st = .New then .Invalid
  else st

/-- The phase-2 pull rules as a pure function. -/
def pullState (st : Status) (s : State) : State :=
  if st = .Confirmed ∨ st = .Triaged ∨ st = .InProgress then .needed
  else if st = .New ∧ s ≠ .needed then .needsTriage
  else if st = .Invalid ∧ ¬(s = .DNE ∨ s = .ignored) then .notAffected
  else s

/-- The phase-3 reset as a pure function. -/
def t3Status (s : State) (st : Status) : Status :=
  if s = .needsTriage then .New else st

/-! ## Lemmas about the association-list operations -/

theorem alookup_amodify {α : Type} (l : List (String × α)) (k : String) (f : α → α)
    (k' : String) :
    alookup (amodify l k f) k' = if k = k' then (alookup l k').map f else alookup l k' := by
  induction l with
  | nil => simp only [amodify, alookup]; split <;> rfl
  | cons p t ih =>
    obtain ⟨a, b⟩ := p
    by_cases hak : a = k
    · subst hak
      simp only [amodify, if_pos rfl, alookup]
      by_cases hk' : a = k'
      · simp only [if_pos hk', Option.map]
      · simp only [if_neg hk']
    · simp only [amodify, if_neg hak, alookup]
      by_cases hk' : a = k'
      · have hkk : ¬ k = k' := fun h => hak (hk'.trans h.symm)
        simp only [if_pos hk', if_neg hkk]
      · simp only [if_neg hk']
        exact ih

theorem amodify_map_fst {α : Type} (l : List (String × α)) (k : String) (f : α → α) :
    (amodify l k f).map Prod.fst = l.map Prod.fst := by
  induction l with
  | nil => rfl
  | cons p t ih =>
    obtain ⟨a, b⟩ := p
    by_cases hak : a = k <;> simp [amodify, hak, ih]

theorem alookup_eq_none {α : Type} (l : List (String × α)) (k : String)
    (h : k ∉ l.map Prod.fst) : alookup l k = none := by
  induction l with
  | nil => rfl
  | cons p t ih =>
    obtain ⟨a, b⟩ := p
    simp only [List.map_cons, List.mem_cons] at h
    push_neg at h
    simp only [alookup, if_neg (fun hh : a = k => h.1 hh.symm)]
    exact ih h.2

theorem alookup_aerase {α : Type} (l : List (String × α)) (k : String)
    (hnd : (l.map Prod.fst).Nodup) (k' : String) :
    alookup (aerase l k) k' = if k = k' then none else alookup l k' := by
  induction l with
  | nil => simp only [aerase, alookup]; split <;> rfl
  | cons p t ih =>
    obtain ⟨a, b⟩ := p
    simp only [List.map_cons, List.nodup_cons] at hnd
    by_cases hak : a = k
    · subst hak
      simp only [aerase, if_pos rfl]
      by_cases hk' : a = k'
      · subst hk'
        rw [if_pos rfl]
        exact alookup_eq_none t a hnd.1
      · rw [if_neg hk']
        simp [alookup, hk']
    · simp only [aerase, if_neg hak, alookup]
      by_cases hk' : a = k'
      · have hkk : ¬ k = k' := fun h => hak (hk'.trans h.symm)
        simp only [if_pos hk', if_neg hkk]
      · simp only [if_neg hk']
        exact ih hnd.2

theorem aerase_map_fst_sublist {α : Type} (l : List (String × α)) (k : String) :
    List.Sublist ((aerase l k).map Prod.fst) (l.map Prod.fst) := by
  induction l with
  | nil => simp [aerase]
  | cons p t ih =>
    obtain ⟨a, b⟩ := p
    by_cases hak : a = k
    · simp only [aerase, if_pos hak, List.map_cons]
      exact List.sublist_cons_of_sublist _ (List.Sublist.refl _)
    · simp only [aerase, if_neg hak, List.map_cons]
      exact ih.cons₂ _

theorem alookup_isSome_iff {α : Type} (l : List (String × α)) (k : String) :
    (alookup l k).isSome = true ↔ k ∈ l.map Prod.fst := by
  induction l with
  | nil => simp [alookup]
  | cons p t ih =>
    obtain ⟨a, b⟩ := p
    by_cases hak : a = k
    · subst hak; simp [alookup]
    · simp only [alookup, if_neg hak, List.map_cons, List.mem_cons]
      rw [ih]
      constructor
      · exact fun h => Or.inr h
      · rintro (h | h)
        · exact absurd h.symm hak
        · exact h

theorem alookup_map_shape {α β : Type} (l : List (String × α)) (g : α → β) (k : String) :
    alookup (l.map (fun p => (p.1, g p.2))) k = (alookup l k).map g := by
  induction l with
  | nil => rfl
  | cons p t ih =>
    obtain ⟨a, b⟩ := p
    by_cases hak : a = k <;> simp [alookup, hak, ih]

/-! ## World accessor lemmas -/

theorem getTask_modifyTask (w : World) (src rel : String) (f : Task → Task)
    (s r : String) :
    getTask (modifyTask w src rel f) s r =
      if src = s ∧ rel = r then (getTask w s r).map f else getTask w s r := by
  unfold getTask modifyTask
  simp only
  rw [alookup_amodify]
  by_cases hs : src = s
  · subst hs
    rw [if_pos rfl]
    cases h : alookup w.bug.tasks src with
    | none =>
      by_cases hr : rel = r <;> simp [hr]
    | some m =>
      simp only [Option.map_some', Option.some_bind]
      rw [alookup_amodify]
      by_cases hr : rel = r <;> simp [hr]
  · rw [if_neg hs, if_neg (fun h : src = s ∧ rel = r => hs h.1)]

theorem getState_modifyState (w : World) (src rel : String) (st : State)
    (s r : String) :
    getState (modifyState w src rel st) s r =
      if src = s ∧ rel = r then (getState w s r).map (fun p => (st, p.2))
      else getState w s r := by
  unfold getState modifyState
  simp only
  rw [alookup_amodify]
  by_cases hs : src = s
  · subst hs
    rw [if_pos rfl]
    cases h : alookup w.data.pkgs src with
    | none =>
      by_cases hr : rel = r <;> simp [hr]
    | some m =>
      simp only [Option.map_some', Option.some_bind]
      rw [alookup_amodify]
      by_cases hr : rel = r <;> simp [hr]
  · rw [if_neg hs, if_neg (fun h : src = s ∧ rel = r => hs h.1)]

theorem amodify_map_shape {α β : Type} (l : List (String × α)) (k : String)
    (g : α → α) (h : α → β) (hpres : ∀ x, h (g x) = h x) :
    (amodify l k g).map (fun p => (p.1, h p.2)) = l.map (fun p => (p.1, h p.2)) := by
  induction l with
  | nil => rfl
  | cons p t ih =>
    obtain ⟨a, b⟩ := p
    by_cases hak : a = k <;> simp [amodify, hak, ih, hpres]

/-! ## The constants preserved by the per-cell loop bodies -/

def taskShape (w : World) : List (String × List String) :=
  w.bug.tasks.map (fun p => (p.1, p.2.map Prod.fst))

def pkgShape (w : World) : List (String × List String) :=
  w.data.pkgs.map (fun p => (p.1, p.2.map Prod.fst))

/-- Everything the phase loop bodies can read but never write: configuration, flags,
    the bug envelope except the task values, the key structure of both maps, and the
    non-pkgs record fields.  The event log is deliberately excluded. -/
structure SameC (w₀ w : World) : Prop where
  cfg : w.cfg = w₀.cfg
  opt : w.opt = w₀.opt
  title : w.bug.title = w₀.bug.title
  tags : w.bug.tags = w₀.bug.tags
  desc : w.bug.description = w₀.bug.description
  noms : w.bug.noms = w₀.bug.noms
  tshape : taskShape w = taskShape w₀
  pshape : pkgShape w = pkgShape w₀
  candidate : w.data.candidate = w₀.data.candidate
  ddesc : w.data.description = w₀.data.description
  dudesc : w.data.ubuntuDescription = w₀.data.ubuntuDescription
  dbugs : w.data.bugsField = w₀.data.bugsField
  patches : w.data.patches = w₀.data.patches
  dprio : w.data.defaultPriority = w₀.data.defaultPriority
  drel : w.data.relOverrides = w₀.data.relOverrides
  dsrc : w.data.srcOverrides = w₀.data.srcOverrides

theorem SameC.refl (w : World) : SameC w w :=
  ⟨rfl, rfl, rfl, rfl, rfl, rfl, rfl, rfl, rfl, rfl, rfl, rfl, rfl, rfl, rfl, rfl⟩

theorem SameC.comp {w₁ w₂ w₃ : World} (h₁ : SameC w₁ w₂) (h₂ : SameC w₂ w₃) :
    SameC w₁ w₃ :=
  ⟨h₂.cfg.trans h₁.cfg, h₂.opt.trans h₁.opt, h₂.title.trans h₁.title,
   h₂.tags.trans h₁.tags, h₂.desc.trans h₁.desc, h₂.noms.trans h₁.noms,
   h₂.tshape.trans h₁.tshape, h₂.pshape.trans h₁.pshape,
   h₂.candidate.trans h₁.candidate, h₂.ddesc.trans h₁.ddesc,
   h₂.dudesc.trans h₁.dudesc, h₂.dbugs.trans h₁.dbugs,
   h₂.patches.trans h₁.patches, h₂.dprio.trans h₁.dprio,
   h₂.drel.trans h₁.drel, h₂.dsrc.trans h₁.dsrc⟩

theorem taskShape_modifyTask (w : World) (s r : String) (f : Task → Task) :
    taskShape (modifyTask w s r f) = taskShape w := by
  unfold taskShape modifyTask
  simp only
  exact amodify_map_shape _ _ _ _ (fun m => amodify_map_fst m r f)

theorem pkgShape_modifyState (w : World) (s r : String) (st : State) :
    pkgShape (modifyState w s r st) = pkgShape w := by
  unfold pkgShape modifyState
  simp only
  exact amodify_map_shape _ _ _ _ (fun m => amodify_map_fst m r _)

theorem SameC_modifyTask (w : World) (s r : String) (f : Task → Task) :
    SameC w (modifyTask w s r f) :=
  ⟨rfl, rfl, rfl, rfl, rfl, rfl, taskShape_modifyTask w s r f, rfl,
   rfl, rfl, rfl, rfl, rfl, rfl, rfl, rfl⟩

theorem SameC_modifyState (w : World) (s r : String) (st : State) :
    SameC w (modifyState w s r st) :=
  ⟨rfl, rfl, rfl, rfl, rfl, rfl, rfl, pkgShape_modifyState w s r st,
   rfl, rfl, rfl, rfl, rfl, rfl, rfl, rfl⟩

theorem SameC_logEvent (w : World) (e : Event) : SameC w (logEvent w e) :=
  ⟨rfl, rfl, rfl, rfl, rfl, rfl, rfl, rfl, rfl, rfl, rfl, rfl, rfl, rfl, rfl, rfl⟩

/-- The outer key lists of both maps are determined by the shapes. -/
theorem pkgsKeys_of_SameC {w₀ w : World} (h : SameC w₀ w) :
    w.data.pkgs.map Prod.fst = w₀.data.pkgs.map Prod.fst := by
  have := congrArg (List.map Prod.fst) h.pshape
  simpa [pkgShape, List.map_map, Function.comp] using this

theorem tasksKeys_of_SameC {w₀ w : World} (h : SameC w₀ w) :
    w.bug.tasks.map Prod.fst = w₀.bug.tasks.map Prod.fst := by
  have := congrArg (List.map Prod.fst) h.tshape
  simpa [taskShape, List.map_map, Function.comp] using this

theorem pkgRels_of_SameC {w₀ w : World} (h : SameC w₀ w) (src : String) :
    ((alookup w.data.pkgs src).getD []).map Prod.fst =
      ((alookup w₀.data.pkgs src).getD []).map Prod.fst := by
  have h1 : alookup (pkgShape w) src = alookup (pkgShape w₀) src := by rw [h.pshape]
  unfold pkgShape at h1
  rw [alookup_map_shape, alookup_map_shape] at h1
  cases h2 : alookup w.data.pkgs src with
  | none =>
    cases h3 : alookup w₀.data.pkgs src with
    | none => rfl
    | some m => rw [h2, h3] at h1; simp at h1
  | some m =>
    cases h3 : alookup w₀.data.pkgs src with
    | none => rw [h2, h3] at h1; simp at h1
    | some m' =>
      rw [h2, h3] at h1
      simpa using h1

theorem taskPresent_of_SameC {w₀ w : World} (h : SameC w₀ w) (src : String) :
    (alookup w.bug.tasks src).isSome = (alookup w₀.bug.tasks src).isSome := by
  have h1 : alookup (taskShape w) src = alookup (taskShape w₀) src := by rw [h.tshape]
  unfold taskShape at h1
  rw [alookup_map_shape, alookup_map_shape] at h1
  cases h2 : alookup w.bug.tasks src with
  | none =>
    cases h3 : alookup w₀.bug.tasks src with
    | none => rfl
    | some m => rw [h2, h3] at h1; simp at h1
  | some m =>
    cases h3 : alookup w₀.bug.tasks src with
    | none => rw [h2, h3] at h1; simp at h1
    | some m' => rfl

theorem contextual_priority_of_SameC {w₀ w : World} (h : SameC w₀ w) (s r : String) :
    contextual_priority w.data s r = contextual_priority w₀.data s r := by
  unfold contextual_priority
  rw [h.drel, h.dsrc, h.dprio]

/-! ## Equation lemmas for the change-application primitives -/

theorem set_task_status_of_none {w : World} {s r : String} (st : Status)
    (h : getTask w s r = none) : set_task_status w s r st = (w, false) := by
  unfold set_task_status
  rw [h]

theorem set_task_status_of_some {w : World} {s r : String} {tk : Task} (st : Status)
    (h : getTask w s r = some tk) :
    set_task_status w s r st =
      if tk.status = st then (w, false)
      else if w.opt.update then
        (logEvent (modifyTask w s r (fun t => { t with status := st }))
          (.SaveTaskStatus s r st), true)
      else (w, true) := by
  unfold set_task_status
  rw [h]
  by_cases hst : tk.status = st
  · simp [hst]
  · cases hu : w.opt.update <;> simp [hst, hu]

theorem set_task_status_iff_exists_of_none {w : World} {s r : String} (st : Status)
    (h : getTask w s r = none) : set_task_status_iff_exists w s r st = (w, false) := by
  unfold set_task_status_iff_exists
  rw [h]

theorem set_task_status_iff_exists_of_some {w : World} {s r : String} {tk : Task}
    (st : Status) (h : getTask w s r = some tk) :
    set_task_status_iff_exists w s r st =
      if tk.status = st then (w, false)
      else if w.opt.update then
        (logEvent (modifyTask w s r (fun t => { t with status := st }))
          (.SaveTaskStatus s r st), true)
      else (w, true) := by
  unfold set_task_status_iff_exists
  rw [h]
  by_cases hst : tk.status = st
  · simp [hst]
  · cases hu : w.opt.update <;> simp [hst, hu]

theorem set_task_importance_of_none {w : World} {s r : String} (imp : Importance)
    (h : getTask w s r = none) : set_task_importance w s r imp = (w, false) := by
  unfold set_task_importance
  rw [h]

theorem set_task_importance_of_some {w : World} {s r : String} {tk : Task}
    (imp : Importance) (h : getTask w s r = some tk) :
    set_task_importance w s r imp =
      if tk.importance = imp then (w, false)
      else if w.opt.update then
        (logEvent (modifyTask w s r (fun t => { t with importance := imp }))
          (.SaveTaskImportance s r imp), true)
      else (w, true) := by
  unfold set_task_importance
  rw [h]
  by_cases hst : tk.importance = imp
  · simp [hst]
  · cases hu : w.opt.update <;> simp [hst, hu]

theorem set_uct_state_of_none {w : World} {s r : String} (st : State)
    (h : getState w s r = none) : set_uct_state w s r st = (w, false) := by
  unfold set_uct_state
  rw [h]

theorem set_uct_state_of_some {w : World} {s r : String} {cur : State × String}
    (st : State) (h : getState w s r = some cur) :
    set_uct_state w s r st =
      if cur.1 = st then (w, false)
      else if w.opt.update then
        (logEvent (modifyState w s r st) (.UpdateState s r st cur.2), true)
      else (w, true) := by
  unfold set_uct_state
  rw [h]
  by_cases hst : cur.1 = st
  · simp [hst]
  · cases hu : w.opt.update <;> simp [hst, hu]

/-- The world coming out of a status write keeps all loop constants. -/
theorem SameC_set_task_status (w : World) (s r : String) (st : Status) :
    SameC w (set_task_status w s r st).1 := by
  cases h : getTask w s r with
  | none => rw [set_task_status_of_none st h]; exact SameC.refl w
  | some tk =>
    rw [set_task_status_of_some st h]
    by_cases hst : tk.status = st
    · rw [if_pos hst]; exact SameC.refl w
    · rw [if_neg hst]
      by_cases hu : w.opt.update
      · rw [if_pos hu]
        exact (SameC_modifyTask w s r _).comp (SameC_logEvent _ _)
      · rw [if_neg hu]; exact SameC.refl w

theorem SameC_set_task_status_iff_exists (w : World) (s r : String) (st : Status) :
    SameC w (set_task_status_iff_exists w s r st).1 := by
  cases h : getTask w s r with
  | none => rw [set_task_status_iff_exists_of_none st h]; exact SameC.refl w
  | some tk =>
    rw [set_task_status_iff_exists_of_some st h]
    by_cases hst : tk.status = st
    · rw [if_pos hst]; exact SameC.refl w
    · rw [if_neg hst]
      by_cases hu : w.opt.update
      · rw [if_pos hu]
        exact (SameC_modifyTask w s r _).comp (SameC_logEvent _ _)
      · rw [if_neg hu]; exact SameC.refl w

theorem SameC_set_task_importance (w : World) (s r : String) (imp : Importance) :
    SameC w (set_task_importance w s r imp).1 := by
  cases h : getTask w s r with
  | none => rw [set_task_importance_of_none imp h]; exact SameC.refl w
  | some tk =>
    rw [set_task_importance_of_some imp h]
    by_cases hst : tk.importance = imp
    · rw [if_pos hst]; exact SameC.refl w
    · rw [if_neg hst]
      by_cases hu : w.opt.update
      · rw [if_pos hu]
        exact (SameC_modifyTask w s r _).comp (SameC_logEvent _ _)
      · rw [if_neg hu]; exact SameC.refl w

theorem SameC_set_uct_state (w : World) (s r : String) (st : State) :
    SameC w (set_uct_state w s r st).1 := by
  cases h : getState w s r with
  | none => rw [set_uct_state_of_none st h]; exact SameC.refl w
  | some cur =>
    rw [set_uct_state_of_some st h]
    by_cases hst : cur.1 = st
    · rw [if_pos hst]; exact SameC.refl w
    · rw [if_neg hst]
      by_cases hu : w.opt.update
      · rw [if_pos hu]
        exact (SameC_modifyState w s r st).comp (SameC_logEvent _ _)
      · rw [if_neg hu]; exact SameC.refl w

/-- Status and importance writes leave the record store untouched. -/
theorem data_set_task_status (w : World) (s r : String) (st : Status) :
    ((set_task_status w s r st).1).data = w.data := by
  cases h : getTask w s r with
  | none => rw [set_task_status_of_none st h]
  | some tk =>
    rw [set_task_status_of_some st h]
    split <;> [rfl; (split <;> rfl)]

theorem data_set_task_status_iff_exists (w : World) (s r : String) (st : Status) :
    ((set_task_status_iff_exists w s r st).1).data = w.data := by
  cases h : getTask w s r with
  | none => rw [set_task_status_iff_exists_of_none st h]
  | some tk =>
    rw [set_task_status_iff_exists_of_some st h]
    split <;> [rfl; (split <;> rfl)]

theorem data_set_task_importance (w : World) (s r : String) (imp : Importance) :
    ((set_task_importance w s r imp).1).data = w.data := by
  cases h : getTask w s r with
  | none => rw [set_task_importance_of_none imp h]
  | some tk =>
    rw [set_task_importance_of_some imp h]
    split <;> [rfl; (split <;> rfl)]

/-- A local-state write leaves the bug untouched. -/
theorem bug_set_uct_state (w : World) (s r : String) (st : State) :
    ((set_uct_state w s r st).1).bug = w.bug := by
  cases h : getState w s r with
  | none => rw [set_uct_state_of_none st h]
  | some cur =>
    rw [set_uct_state_of_some st h]
    split <;> [rfl; (split <;> rfl)]

/-! ## Cell views

A phase loop body for (src, rel) reads and writes only the record entry at (src, rel)
and the task at (src, develMap rel), besides the loop constants and the log.  The pair
of those two slots is the cell view; each loop body acts on it by a pure transformer. -/

abbrev CellView := Option (State × String) × Option Task

def view (cfg : Config) (w : World) (src rel : String) : CellView :=
  (getState w src rel, getTask w src (develMap cfg rel))

/-- The view-level effect of a status write. -/
def vSetStatus (update : Bool) (v : Option Task) (st : Status) : Option Task × Bool :=
  match v with
  | some tk =>
    if tk.status = st then (some tk, false)
    else if update then (some { tk with status := st }, true)
    else (some tk, true)
  | none => (none, false)

/-- The view-level effect of an importance write. -/
def vSetImportance (update : Bool) (v : Option Task) (imp : Importance) :
    Option Task × Bool :=
  match v with
  | some tk =>
    if tk.importance = imp then (some tk, false)
    else if update then (some { tk with importance := imp }, true)
    else (some tk, true)
  | none => (none, false)

/-- The view-level effect of a local-state write. -/
def vSetState (update : Bool) (v : Option (State × String)) (st : State) :
    Option (State × String) × Bool :=
  match v with
  | some cur =>
    if cur.1 = st then (some cur, false)
    else if update then (some (st, cur.2), true)
    else (some cur, true)
  | none => (none, false)

theorem getState_congr {w w' : World} (h : w'.data = w.data) (s r : String) :
    getState w' s r = getState w s r := by
  unfold getState; rw [h]

theorem getTask_congr {w w' : World} (h : w'.bug.tasks = w.bug.tasks) (s r : String) :
    getTask w' s r = getTask w s r := by
  unfold getTask; rw [h]

/-- logEvent changes only the log. -/
theorem getTask_logEvent (w : World) (e : Event) (s r : String) :
    getTask (logEvent w e) s r = getTask w s r := rfl

theorem getState_logEvent (w : World) (e : Event) (s r : String) :
    getState (logEvent w e) s r = getState w s r := rfl

theorem getState_modifyTask (w : World) (src rel : String) (f : Task → Task)
    (s r : String) : getState (modifyTask w src rel f) s r = getState w s r := rfl

theorem getTask_modifyState (w : World) (src rel : String) (st : State)
    (s r : String) : getTask (modifyState w src rel st) s r = getTask w s r := rfl

theorem set_task_status_view (w : World) (s r : String) (x : Status) :
    getTask (set_task_status w s r x).1 s r =
      (vSetStatus w.opt.update (getTask w s r) x).1 ∧
    (set_task_status w s r x).2 = (vSetStatus w.opt.update (getTask w s r) x).2 := by
  cases h : getTask w s r with
  | none => rw [set_task_status_of_none x h]; exact ⟨h, by trivial⟩
  | some tk =>
    rw [set_task_status_of_some x h]
    by_cases hst : tk.status = x
    · rw [if_pos hst]
      simp only [vSetStatus, if_pos hst]
      exact ⟨h, by trivial⟩
    · rw [if_neg hst]
      by_cases hu : w.opt.update
      · rw [if_pos hu]
        dsimp only
        simp only [vSetStatus, if_neg hst, if_pos hu]
        refine ⟨?_, by trivial⟩
        rw [getTask_logEvent, getTask_modifyTask, if_pos ⟨rfl, rfl⟩, h]
        rfl
      · rw [if_neg hu]
        simp only [vSetStatus, if_neg hst, if_neg hu]
        exact ⟨h, by trivial⟩

theorem set_task_status_frame (w : World) (s r : String) (x : Status)
    (s2 r2 : String) (hne : ¬(s = s2 ∧ r = r2)) :
    getTask (set_task_status w s r x).1 s2 r2 = getTask w s2 r2 := by
  cases h : getTask w s r with
  | none => rw [set_task_status_of_none x h]
  | some tk =>
    rw [set_task_status_of_some x h]
    by_cases hst : tk.status = x
    · rw [if_pos hst]
    · rw [if_neg hst]
      by_cases hu : w.opt.update
      · rw [if_pos hu]
        dsimp only
        rw [getTask_logEvent, getTask_modifyTask, if_neg hne]
      · rw [if_neg hu]

/-- The record store is untouched by set_task_status. -/
theorem set_task_status_state (w : World) (s r : String) (x : Status) (s2 r2 : String) :
    getState (set_task_status w s r x).1 s2 r2 = getState w s2 r2 := by
  rw [getState_congr (data_set_task_status w s r x) s2 r2]

theorem set_task_status_iff_exists_view (w : World) (s r : String) (x : Status) :
    getTask (set_task_status_iff_exists w s r x).1 s r =
      (vSetStatus w.opt.update (getTask w s r) x).1 ∧
    (set_task_status_iff_exists w s r x).2 = (vSetStatus w.opt.update (getTask w s r) x).2 := by
  cases h : getTask w s r with
  | none => rw [set_task_status_iff_exists_of_none x h]; exact ⟨h, by trivial⟩
  | some tk =>
    rw [set_task_status_iff_exists_of_some x h]
    by_cases hst : tk.status = x
    · rw [if_pos hst]
      simp only [vSetStatus, if_pos hst]
      exact ⟨h, by trivial⟩
    · rw [if_neg hst]
      by_cases hu : w.opt.update
      · rw [if_pos hu]
        dsimp only
        simp only [vSetStatus, if_neg hst, if_pos hu]
        refine ⟨?_, by trivial⟩
        rw [getTask_logEvent, getTask_modifyTask, if_pos ⟨rfl, rfl⟩, h]
        rfl
      · rw [if_neg hu]
        simp only [vSetStatus, if_neg hst, if_neg hu]
        exact ⟨h, by trivial⟩

theorem set_task_status_iff_exists_frame (w : World) (s r : String) (x : Status)
    (s2 r2 : String) (hne : ¬(s = s2 ∧ r = r2)) :
    getTask (set_task_status_iff_exists w s r x).1 s2 r2 = getTask w s2 r2 := by
  cases h : getTask w s r with
  | none => rw [set_task_status_iff_exists_of_none x h]
  | some tk =>
    rw [set_task_status_iff_exists_of_some x h]
    by_cases hst : tk.status = x
    · rw [if_pos hst]
    · rw [if_neg hst]
      by_cases hu : w.opt.update
      · rw [if_pos hu]
        dsimp only
        rw [getTask_logEvent, getTask_modifyTask, if_neg hne]
      · rw [if_neg hu]

/-- The record store is untouched by set_task_status_iff_exists. -/
theorem set_task_status_iff_exists_state (w : World) (s r : String) (x : Status) (s2 r2 : String) :
    getState (set_task_status_iff_exists w s r x).1 s2 r2 = getState w s2 r2 := by
  rw [getState_congr (data_set_task_status_iff_exists w s r x) s2 r2]

theorem set_task_importance_view (w : World) (s r : String) (x : Importance) :
    getTask (set_task_importance w s r x).1 s r =
      (vSetImportance w.opt.update (getTask w s r) x).1 ∧
    (set_task_importance w s r x).2 = (vSetImportance w.opt.update (getTask w s r) x).2 := by
  cases h : getTask w s r with
  | none => rw [set_task_importance_of_none x h]; exact ⟨h, by trivial⟩
  | some tk =>
    rw [set_task_importance_of_some x h]
    by_cases hst : tk.importance = x
    · rw [if_pos hst]
      simp only [vSetImportance, if_pos hst]
      exact ⟨h, by trivial⟩
    · rw [if_neg hst]
      by_cases hu : w.opt.update
      · rw [if_pos hu]
        dsimp only
        simp only [vSetImportance, if_neg hst, if_pos hu]
        refine ⟨?_, by trivial⟩
        rw [getTask_logEvent, getTask_modifyTask, if_pos ⟨rfl, rfl⟩, h]
        rfl
      · rw [if_neg hu]
        simp only [vSetImportance, if_neg hst, if_neg hu]
        exact ⟨h, by trivial⟩

theorem set_task_importance_frame (w : World) (s r : String) (x : Importance)
    (s2 r2 : String) (hne : ¬(s = s2 ∧ r = r2)) :
    getTask (set_task_importance w s r x).1 s2 r2 = getTask w s2 r2 := by
  cases h : getTask w s r with
  | none => rw [set_task_importance_of_none x h]
  | some tk =>
    rw [set_task_importance_of_some x h]
    by_cases hst : tk.importance = x
    · rw [if_pos hst]
    · rw [if_neg hst]
      by_cases hu : w.opt.update
      · rw [if_pos hu]
        dsimp only
        rw [getTask_logEvent, getTask_modifyTask, if_neg hne]
      · rw [if_neg hu]

/-- The record store is untouched by set_task_importance. -/
theorem set_task_importance_state (w : World) (s r : String) (x : Importance) (s2 r2 : String) :
    getState (set_task_importance w s r x).1 s2 r2 = getState w s2 r2 := by
  rw [getState_congr (data_set_task_importance w s r x) s2 r2]

theorem set_uct_state_view (w : World) (s r : String) (x : State) :
    getState (set_uct_state w s r x).1 s r =
      (vSetState w.opt.update (getState w s r) x).1 ∧
    (set_uct_state w s r x).2 = (vSetState w.opt.update (getState w s r) x).2 := by
  cases h : getState w s r with
  | none => rw [set_uct_state_of_none x h]; exact ⟨h, by trivial⟩
  | some cur =>
    rw [set_uct_state_of_some x h]
    by_cases hst : cur.1 = x
    · rw [if_pos hst]
      simp only [vSetState, if_pos hst]
      exact ⟨h, by trivial⟩
    · rw [if_neg hst]
      by_cases hu : w.opt.update
      · rw [if_pos hu]
        dsimp only
        simp only [vSetState, if_neg hst, if_pos hu]
        refine ⟨?_, by trivial⟩
        rw [getState_logEvent, getState_modifyState, if_pos ⟨rfl, rfl⟩, h]
        rfl
      · rw [if_neg hu]
        simp only [vSetState, if_neg hst, if_neg hu]
        exact ⟨h, by trivial⟩

theorem set_uct_state_frame (w : World) (s r : String) (x : State)
    (s2 r2 : String) (hne : ¬(s = s2 ∧ r = r2)) :
    getState (set_uct_state w s r x).1 s2 r2 = getState w s2 r2 := by
  cases h : getState w s r with
  | none => rw [set_uct_state_of_none x h]
  | some cur =>
    rw [set_uct_state_of_some x h]
    by_cases hst : cur.1 = x
    · rw [if_pos hst]
    · rw [if_neg hst]
      by_cases hu : w.opt.update
      · rw [if_pos hu]
        dsimp only
        rw [getState_logEvent, getState_modifyState, if_neg hne]
      · rw [if_neg hu]

/-- The bug is untouched by set_uct_state. -/
theorem set_uct_state_task (w : World) (s r : String) (x : State) (s2 r2 : String) :
    getTask (set_uct_state w s r x).1 s2 r2 = getTask w s2 r2 := by
  rw [getTask_congr (congrArg Bug.tasks (bug_set_uct_state w s r x)) s2 r2]

/-! ## Phase-2 cell lemmas -/

/-- The view-level transformer of the phase-2 loop body, specialized to the loop
    constants. -/
def phase2RelV (cfg : Config) (opt : Opt) (src rel : String) (v : CellView) :
    CellView × Bool :=
  let release := develMap cfg rel
  if release = "" ∨ release = "upstream" ∨ release ∈ cfg.eolReleases then (v, false)
  else
    match v with
    | (some st, some task) =>
      let vset : State → CellView × Bool := fun x =>
        let q := vSetState opt.update (some st) x
        ((q.1, some task), q.2)
      if st.1 = .deferred then ((some st, some task), false)
      else if task.status = .Confirmed ∨ task.status = .Triaged ∨ task.status = .InProgress then
        vset .needed
      else if task.status = .New ∧ st.1 ≠ .needed then vset .needsTriage
      else if task.status = .Invalid ∧ ¬(st.1 = .DNE ∨ st.1 = .ignored) then vset .notAffected
      else ((some st, some task), false)
    | (some st, none) => (v, false)
    | (none, _) => (v, false)

/-- A set_uct_state call inside a loop body, seen at the cell view level. -/
theorem set_uct_state_branch (w₀ w : World) (hw : SameC w₀ w) (s r R : String)
    (st : State × String) (task : Task) (x : State)
    (hS : getState w s r = some st) (hT : getTask w s R = some task) :
    (getState (set_uct_state w s r x).1 s r, getTask (set_uct_state w s r x).1 s R) =
      ((vSetState w₀.opt.update (some st) x).1, some task) ∧
    (set_uct_state w s r x).2 = (vSetState w₀.opt.update (some st) x).2 ∧
    ((vSetState w₀.opt.update (some st) x).2 = false → (set_uct_state w s r x).1 = w) := by
  refine ⟨?_, ?_, ?_⟩
  · refine Prod.ext ?_ ?_
    · show getState (set_uct_state w s r x).1 s r = _
      rw [(set_uct_state_view w s r x).1, hS, hw.opt]
    · show getTask (set_uct_state w s r x).1 s R = _
      rw [set_uct_state_task, hT]
  · rw [(set_uct_state_view w s r x).2, hS, hw.opt]
  · intro hfalse
    by_cases hx : st.1 = x
    · rw [set_uct_state_of_some x hS, if_pos hx]
    · exfalso
      cases hu : w₀.opt.update <;> simp [vSetState, hx, hu] at hfalse

theorem phase2Rel_cell (w₀ w : World) (hw : SameC w₀ w) (s r : String) :
    view w₀.cfg (phase2Rel w s r).1 s r =
      (phase2RelV w₀.cfg w₀.opt s r (view w₀.cfg w s r)).1 ∧
    (phase2Rel w s r).2 = (phase2RelV w₀.cfg w₀.opt s r (view w₀.cfg w s r)).2 ∧
    ((phase2RelV w₀.cfg w₀.opt s r (view w₀.cfg w s r)).2 = false →
      (phase2Rel w s r).1 = w) := by
  have hcfg := hw.cfg
  unfold phase2Rel phase2RelV view
  rw [hcfg]
  by_cases hg : develMap w₀.cfg r = "" ∨ develMap w₀.cfg r = "upstream" ∨
      develMap w₀.cfg r ∈ w₀.cfg.eolReleases
  · rw [if_pos hg, if_pos hg]
    exact ⟨rfl, rfl, fun _ => rfl⟩
  · rw [if_neg hg, if_neg hg]
    cases hT : getTask w s (develMap w₀.cfg r) with
    | none =>
      cases hS : getState w s r with
      | none => refine ⟨Prod.ext ?_ ?_, rfl, fun _ => rfl⟩ <;> first | rfl | exact hS | exact hT
      | some st => refine ⟨Prod.ext ?_ ?_, rfl, fun _ => rfl⟩ <;> first | rfl | exact hS | exact hT
    | some task =>
      cases hS : getState w s r with
      | none => refine ⟨Prod.ext ?_ ?_, rfl, fun _ => rfl⟩ <;> first | rfl | exact hS | exact hT
      | some st =>
        dsimp only
        by_cases h1 : st.1 = State.deferred
        · rw [if_pos h1, if_pos h1]
          refine ⟨Prod.ext ?_ ?_, rfl, fun _ => rfl⟩ <;> first | rfl | exact hS | exact hT
        · rw [if_neg h1, if_neg h1]
          by_cases h2 : task.status = Status.Confirmed ∨ task.status = Status.Triaged ∨
              task.status = Status.InProgress
          · rw [if_pos h2, if_pos h2]
            exact set_uct_state_branch w₀ w hw s r _ st task .needed hS hT
          · rw [if_neg h2, if_neg h2]
            by_cases h3 : task.status = Status.New ∧ st.1 ≠ State.needed
            · rw [if_pos h3, if_pos h3]
              exact set_uct_state_branch w₀ w hw s r _ st task .needsTriage hS hT
            · rw [if_neg h3, if_neg h3]
              by_cases h4 : task.status = Status.Invalid ∧
                  ¬(st.1 = State.DNE ∨ st.1 = State.ignored)
              · rw [if_pos h4, if_pos h4]
                exact set_uct_state_branch w₀ w hw s r _ st task .notAffected hS hT
              · rw [if_neg h4, if_neg h4]
                refine ⟨Prod.ext ?_ ?_, rfl, fun _ => rfl⟩ <;> first | rfl | exact hS | exact hT

theorem phase2Rel_same (w : World) (s r : String) : SameC w (phase2Rel w s r).1 := by
  unfold phase2Rel
  by_cases hg : develMap w.cfg r = "" ∨ develMap w.cfg r = "upstream" ∨
      develMap w.cfg r ∈ w.cfg.eolReleases
  · rw [if_pos hg]; exact SameC.refl w
  · rw [if_neg hg]
    cases hT : getTask w s (develMap w.cfg r) with
    | none =>
      cases hS : getState w s r with
      | none => exact SameC.refl w
      | some st => exact SameC.refl w
    | some task =>
      cases hS : getState w s r with
      | none => exact SameC.refl w
      | some st =>
        dsimp only
        by_cases h1 : st.1 = State.deferred
        · rw [if_pos h1]; exact SameC.refl w
        · rw [if_neg h1]
          by_cases h2 : task.status = Status.Confirmed ∨ task.status = Status.Triaged ∨
              task.status = Status.InProgress
          · rw [if_pos h2]; exact SameC_set_uct_state w s r _
          · rw [if_neg h2]
            by_cases h3 : task.status = Status.New ∧ st.1 ≠ State.needed
            · rw [if_pos h3]; exact SameC_set_uct_state w s r _
            · rw [if_neg h3]
              by_cases h4 : task.status = Status.Invalid ∧
                  ¬(st.1 = State.DNE ∨ st.1 = State.ignored)
              · rw [if_pos h4]; exact SameC_set_uct_state w s r _
              · rw [if_neg h4]; exact SameC.refl w

theorem phase2Rel_frame (cfg : Config) (w : World) (s r s2 r2 : String)
    (hcond : s ≠ s2 ∨ (r ≠ r2 ∧ develMap cfg r ≠ develMap cfg r2))
    (hcfg : w.cfg = cfg) :
    view cfg (phase2Rel w s r).1 s2 r2 = view cfg w s2 r2 := by
  have hcond2 : ¬(s = s2 ∧ r = r2) := by
    rcases hcond with h | h
    · exact fun hh => h hh.1
    · exact fun hh => h.1 hh.2
  unfold phase2Rel view
  rw [hcfg]
  by_cases hg : develMap cfg r = "" ∨ develMap cfg r = "upstream" ∨
      develMap cfg r ∈ cfg.eolReleases
  · rw [if_pos hg]
  · rw [if_neg hg]
    cases hT : getTask w s (develMap cfg r) with
    | none =>
      cases hS : getState w s r with
      | none => rfl
      | some st => rfl
    | some task =>
      cases hS : getState w s r with
      | none => rfl
      | some st =>
        dsimp only
        by_cases h1 : st.1 = State.deferred
        · rw [if_pos h1]
        · rw [if_neg h1]
          by_cases h2 : task.status = Status.Confirmed ∨ task.status = Status.Triaged ∨
              task.status = Status.InProgress
          · rw [if_pos h2]
            rw [set_uct_state_frame w s r _ s2 r2 hcond2, set_uct_state_task]
          · rw [if_neg h2]
            by_cases h3 : task.status = Status.New ∧ st.1 ≠ State.needed
            · rw [if_pos h3]
              rw [set_uct_state_frame w s r _ s2 r2 hcond2, set_uct_state_task]
            · rw [if_neg h3]
              by_cases h4 : task.status = Status.Invalid ∧
                  ¬(st.1 = State.DNE ∨ st.1 = State.ignored)
              · rw [if_pos h4]
                rw [set_uct_state_frame w s r _ s2 r2 hcond2, set_uct_state_task]
              · rw [if_neg h4]



/-! ## Phase-3 cell lemmas -/

def phase3RelV (cfg : Config) (opt : Opt) (src rel : String) (v : CellView) :
    CellView × Bool :=
  let release := develMap cfg rel
  if release = "" ∨ release = "upstream" ∨ release ∈ cfg.eolReleases then (v, false)
  else
    match v with
    | (some st, some task) =>
      if st.1 = .needsTriage then
        let q := vSetStatus opt.update (some task) .New
        ((some st, q.1), q.2)
      else ((some st, some task), false)
    | (some st, none) => (v, false)
    | (none, _) => (v, false)

/-- A set_task_status call inside a loop body, seen at the cell view level: the status
    write happens at the devel-mapped release R while the record entry sits at rel. -/
theorem set_task_status_branch (w₀ w : World) (hw : SameC w₀ w) (s r R : String)
    (st : State × String) (task : Task) (x : Status)
    (hS : getState w s r = some st) (hT : getTask w s R = some task) :
    (getState (set_task_status w s R x).1 s r, getTask (set_task_status w s R x).1 s R) =
      (some st, (vSetStatus w₀.opt.update (some task) x).1) ∧
    (set_task_status w s R x).2 = (vSetStatus w₀.opt.update (some task) x).2 ∧
    ((vSetStatus w₀.opt.update (some task) x).2 = false → (set_task_status w s R x).1 = w) := by
  refine ⟨?_, ?_, ?_⟩
  · refine Prod.ext ?_ ?_
    · show getState (set_task_status w s R x).1 s r = _
      rw [set_task_status_state, hS]
    · show getTask (set_task_status w s R x).1 s R = _
      rw [(set_task_status_view w s R x).1, hT, hw.opt]
  · rw [(set_task_status_view w s R x).2, hT, hw.opt]
  · intro hfalse
    by_cases hx : task.status = x
    · rw [set_task_status_of_some x hT, if_pos hx]
    · exfalso
      cases hu : w₀.opt.update <;> simp [vSetStatus, hx, hu] at hfalse

theorem phase3Rel_cell (w₀ w : World) (hw : SameC w₀ w) (s r : String) :
    view w₀.cfg (phase3Rel w s r).1 s r =
      (phase3RelV w₀.cfg w₀.opt s r (view w₀.cfg w s r)).1 ∧
    (phase3Rel w s r).2 = (phase3RelV w₀.cfg w₀.opt s r (view w₀.cfg w s r)).2 ∧
    ((phase3RelV w₀.cfg w₀.opt s r (view w₀.cfg w s r)).2 = false →
      (phase3Rel w s r).1 = w) := by
  have hcfg := hw.cfg
  unfold phase3Rel phase3RelV view
  rw [hcfg]
  by_cases hg : develMap w₀.cfg r = "" ∨ develMap w₀.cfg r = "upstream" ∨
      develMap w₀.cfg r ∈ w₀.cfg.eolReleases
  · rw [if_pos hg, if_pos hg]
    exact ⟨rfl, rfl, fun _ => rfl⟩
  · rw [if_neg hg, if_neg hg]
    cases hT : getTask w s (develMap w₀.cfg r) with
    | none =>
      cases hS : getState w s r with
      | none => refine ⟨Prod.ext ?_ ?_, rfl, fun _ => rfl⟩ <;> first | rfl | exact hS | exact hT
      | some st => refine ⟨Prod.ext ?_ ?_, rfl, fun _ => rfl⟩ <;> first | rfl | exact hS | exact hT
    | some task =>
      cases hS : getState w s r with
      | none => refine ⟨Prod.ext ?_ ?_, rfl, fun _ => rfl⟩ <;> first | rfl | exact hS | exact hT
      | some st =>
        dsimp only
        by_cases h1 : st.1 = State.needsTriage
        · rw [if_pos h1, if_pos h1]
          exact set_task_status_branch w₀ w hw s r _ st task .New hS hT
        · rw [if_neg h1, if_neg h1]
          refine ⟨Prod.ext ?_ ?_, rfl, fun _ => rfl⟩ <;> first | rfl | exact hS | exact hT

theorem phase3Rel_same (w : World) (s r : String) : SameC w (phase3Rel w s r).1 := by
  unfold phase3Rel
  by_cases hg : develMap w.cfg r = "" ∨ develMap w.cfg r = "upstream" ∨
      develMap w.cfg r ∈ w.cfg.eolReleases
  · rw [if_pos hg]; exact SameC.refl w
  · rw [if_neg hg]
    cases hT : getTask w s (develMap w.cfg r) with
    | none =>
      cases hS : getState w s r with
      | none => exact SameC.refl w
      | some st => exact SameC.refl w
    | some task =>
      cases hS : getState w s r with
      | none => exact SameC.refl w
      | some st =>
        dsimp only
        by_cases h1 : st.1 = State.needsTriage
        · rw [if_pos h1]; exact SameC_set_task_status w s _ _
        · rw [if_neg h1]; exact SameC.refl w

theorem phase3Rel_frame (cfg : Config) (w : World) (s r s2 r2 : String)
    (hcond : s ≠ s2 ∨ (r ≠ r2 ∧ develMap cfg r ≠ develMap cfg r2))
    (hcfg : w.cfg = cfg) :
    view cfg (phase3Rel w s r).1 s2 r2 = view cfg w s2 r2 := by
  have hne : ¬(s = s2 ∧ develMap cfg r = develMap cfg r2) := by
    rcases hcond with h | h
    · exact fun hh => h hh.1
    · exact fun hh => h.2 hh.2
  unfold phase3Rel view
  rw [hcfg]
  by_cases hg : develMap cfg r = "" ∨ develMap cfg r = "upstream" ∨
      develMap cfg r ∈ cfg.eolReleases
  · rw [if_pos hg]
  · rw [if_neg hg]
    cases hT : getTask w s (develMap cfg r) with
    | none =>
      cases hS : getState w s r with
      | none => rfl
      | some st => rfl
    | some task =>
      cases hS : getState w s r with
      | none => rfl
      | some st =>
        dsimp only
        by_cases h1 : st.1 = State.needsTriage
        · rw [if_pos h1]
          rw [set_task_status_state]
          rw [set_task_status_frame w s (develMap cfg r) Status.New s2 (develMap cfg r2) hne]
        · rw [if_neg h1]



/-! ## Bootstrap-pass cell lemmas -/

def newBugRelV (cfg : Config) (opt : Opt) (src rel : String) (v : CellView) :
    CellView × Bool :=
  let release := develMap cfg rel
  if release = "" ∨ release = "upstream" ∨ release ∈ cfg.eolReleases then (v, false)
  else
    match v with
    | (some st, some task) =>
      let vset : Status → CellView × Bool := fun x =>
        let q := vSetStatus opt.update (some task) x
        ((some st, q.1), q.2)
      if task.status ≠ .New then ((some st, some task), false)
      else if st.1 = .DNE then vset .Invalid
      else if st.1 = .notAffected then vset .Invalid
      else if st.1 = .pending then vset .FixCommitted
      else if st.1 = .released then vset .FixReleased
      else ((some st, some task), false)
    | (some st, none) => (v, false)
    | (none, _) => (v, false)

theorem set_task_status_iff_exists_branch (w₀ w : World) (hw : SameC w₀ w)
    (s r R : String) (st : State × String) (task : Task) (x : Status)
    (hS : getState w s r = some st) (hT : getTask w s R = some task) :
    (getState (set_task_status_iff_exists w s R x).1 s r,
      getTask (set_task_status_iff_exists w s R x).1 s R) =
      (some st, (vSetStatus w₀.opt.update (some task) x).1) ∧
    (set_task_status_iff_exists w s R x).2 = (vSetStatus w₀.opt.update (some task) x).2 ∧
    ((vSetStatus w₀.opt.update (some task) x).2 = false →
      (set_task_status_iff_exists w s R x).1 = w) := by
  refine ⟨?_, ?_, ?_⟩
  · refine Prod.ext ?_ ?_
    · show getState (set_task_status_iff_exists w s R x).1 s r = _
      rw [set_task_status_iff_exists_state, hS]
    · show getTask (set_task_status_iff_exists w s R x).1 s R = _
      rw [(set_task_status_iff_exists_view w s R x).1, hT, hw.opt]
  · rw [(set_task_status_iff_exists_view w s R x).2, hT, hw.opt]
  · intro hfalse
    by_cases hx : task.status = x
    · rw [set_task_status_iff_exists_of_some x hT, if_pos hx]
    · exfalso
      cases hu : w₀.opt.update <;> simp [vSetStatus, hx, hu] at hfalse

theorem newBugRel_cell (w₀ w : World) (hw : SameC w₀ w) (s r : String) :
    view w₀.cfg (newBugRel w s r).1 s r =
      (newBugRelV w₀.cfg w₀.opt s r (view w₀.cfg w s r)).1 ∧
    (newBugRel w s r).2 = (newBugRelV w₀.cfg w₀.opt s r (view w₀.cfg w s r)).2 ∧
    ((newBugRelV w₀.cfg w₀.opt s r (view w₀.cfg w s r)).2 = false →
      (newBugRel w s r).1 = w) := by
  have hcfg := hw.cfg
  unfold newBugRel newBugRelV view
  rw [hcfg]
  by_cases hg : develMap w₀.cfg r = "" ∨ develMap w₀.cfg r = "upstream" ∨
      develMap w₀.cfg r ∈ w₀.cfg.eolReleases
  · rw [if_pos hg, if_pos hg]
    exact ⟨rfl, rfl, fun _ => rfl⟩
  · rw [if_neg hg, if_neg hg]
    cases hT : getTask w s (develMap w₀.cfg r) with
    | none =>
      cases hS : getState w s r with
      | none => refine ⟨Prod.ext ?_ ?_, rfl, fun _ => rfl⟩ <;> first | rfl | exact hS | exact hT
      | some st => refine ⟨Prod.ext ?_ ?_, rfl, fun _ => rfl⟩ <;> first | rfl | exact hS | exact hT
    | some task =>
      cases hS : getState w s r with
      | none => refine ⟨Prod.ext ?_ ?_, rfl, fun _ => rfl⟩ <;> first | rfl | exact hS | exact hT
      | some st =>
        dsimp only
        by_cases h0 : task.status ≠ Status.New
        · rw [if_pos h0, if_pos h0]
          refine ⟨Prod.ext ?_ ?_, rfl, fun _ => rfl⟩ <;> first | rfl | exact hS | exact hT
        · rw [if_neg h0, if_neg h0]
          by_cases h1 : st.1 = State.DNE
          · rw [if_pos h1, if_pos h1]
            exact set_task_status_iff_exists_branch w₀ w hw s r _ st task .Invalid hS hT
          · rw [if_neg h1, if_neg h1]
            by_cases h2 : st.1 = State.notAffected
            · rw [if_pos h2, if_pos h2]
              exact set_task_status_branch w₀ w hw s r _ st task .Invalid hS hT
            · rw [if_neg h2, if_neg h2]
              by_cases h3 : st.1 = State.pending
              · rw [if_pos h3, if_pos h3]
                exact set_task_status_branch w₀ w hw s r _ st task .FixCommitted hS hT
              · rw [if_neg h3, if_neg h3]
                by_cases h4 : st.1 = State.released
                · rw [if_pos h4, if_pos h4]
                  exact set_task_status_branch w₀ w hw s r _ st task .FixReleased hS hT
                · rw [if_neg h4, if_neg h4]
                  refine ⟨Prod.ext ?_ ?_, rfl, fun _ => rfl⟩ <;>
                    first | rfl | exact hS | exact hT

theorem newBugRel_same (w : World) (s r : String) : SameC w (newBugRel w s r).1 := by
  unfold newBugRel
  by_cases hg : develMap w.cfg r = "" ∨ develMap w.cfg r = "upstream" ∨
      develMap w.cfg r ∈ w.cfg.eolReleases
  · rw [if_pos hg]; exact SameC.refl w
  · rw [if_neg hg]
    cases hT : getTask w s (develMap w.cfg r) with
    | none =>
      cases hS : getState w s r with
      | none => exact SameC.refl w
      | some st => exact SameC.refl w
    | some task =>
      cases hS : getState w s r with
      | none => exact SameC.refl w
      | some st =>
        dsimp only
        by_cases h0 : task.status ≠ Status.New
        · rw [if_pos h0]; exact SameC.refl w
        · rw [if_neg h0]
          by_cases h1 : st.1 = State.DNE
          · rw [if_pos h1]; exact SameC_set_task_status_iff_exists w s _ _
          · rw [if_neg h1]
            by_cases h2 : st.1 = State.notAffected
            · rw [if_pos h2]; exact SameC_set_task_status w s _ _
            · rw [if_neg h2]
              by_cases h3 : st.1 = State.pending
              · rw [if_pos h3]; exact SameC_set_task_status w s _ _
              · rw [if_neg h3]
                by_cases h4 : st.1 = State.released
                · rw [if_pos h4]; exact SameC_set_task_status w s _ _
                · rw [if_neg h4]; exact SameC.refl w

theorem newBugRel_frame (cfg : Config) (w : World) (s r s2 r2 : String)
    (hcond : s ≠ s2 ∨ (r ≠ r2 ∧ develMap cfg r ≠ develMap cfg r2))
    (hcfg : w.cfg = cfg) :
    view cfg (newBugRel w s r).1 s2 r2 = view cfg w s2 r2 := by
  have hne : ¬(s = s2 ∧ develMap cfg r = develMap cfg r2) := by
    rcases hcond with h | h
    · exact fun hh => h hh.1
    · exact fun hh => h.2 hh.2
  unfold newBugRel view
  rw [hcfg]
  by_cases hg : develMap cfg r = "" ∨ develMap cfg r = "upstream" ∨
      develMap cfg r ∈ cfg.eolReleases
  · rw [if_pos hg]
  · rw [if_neg hg]
    cases hT : getTask w s (develMap cfg r) with
    | none =>
      cases hS : getState w s r with
      | none => rfl
      | some st => rfl
    | some task =>
      cases hS : getState w s r with
      | none => rfl
      | some st =>
        dsimp only
        by_cases h0 : task.status ≠ Status.New
        · rw [if_pos h0]
        · rw [if_neg h0]
          by_cases h1 : st.1 = State.DNE
          · rw [if_pos h1]
            rw [set_task_status_iff_exists_state]
            rw [set_task_status_iff_exists_frame w s (develMap cfg r) Status.Invalid
              s2 (develMap cfg r2) hne]
          · rw [if_neg h1]
            by_cases h2 : st.1 = State.notAffected
            · rw [if_pos h2]
              rw [set_task_status_state]
              rw [set_task_status_frame w s (develMap cfg r) Status.Invalid
                s2 (develMap cfg r2) hne]
            · rw [if_neg h2]
              by_cases h3 : st.1 = State.pending
              · rw [if_pos h3]
                rw [set_task_status_state]
                rw [set_task_status_frame w s (develMap cfg r) Status.FixCommitted
                  s2 (develMap cfg r2) hne]
              · rw [if_neg h3]
                by_cases h4 : st.1 = State.released
                · rw [if_pos h4]
                  rw [set_task_status_state]
                  rw [set_task_status_frame w s (develMap cfg r) Status.FixReleased
                    s2 (develMap cfg r2) hne]
                · rw [if_neg h4]



/-! ## Phase-1 cell lemmas -/

def phase1RelV (cfg : Config) (opt : Opt) (data : Record) (src rel : String)
    (v : CellView) : CellView × Bool :=
  let release := develMap cfg rel
  if release = "" ∨ release = "upstream" ∨ release ∈ cfg.eolReleases then (v, false)
  else if release = "product" ∨ release = "snap" then (v, false)
  else
    match v with
    | (some st, some task) =>
      let withImp : Option Task × Bool → CellView × Bool := fun p =>
        let q := vSetImportance opt.update p.1
          (priority_to_importance (contextual_priority data src rel))
        ((some st, q.1), p.2 || q.2)
      if st.1 = .DNE then withImp (vSetStatus opt.update (some task) .Invalid)
      else if st.1 = .pending ∧ pendingEligible task.status then
        withImp (vSetStatus opt.update (some task) .FixCommitted)
      else if st.1 = .released then withImp (vSetStatus opt.update (some task) .FixReleased)
      else if (st.1 = .notAffected ∨ st.1 = .ignored) ∧ task.status = .New then
        withImp (vSetStatus opt.update (some task) .Invalid)
      else if st.1 = .deferred then ((some st, some task), false)
      else withImp (some task, false)
    | (some st, none) => (v, false)
    | (none, _) => (v, false)

/-- A cell view on which the three phase bodies are all no-ops. -/
def cellOK (cfg : Config) (opt : Opt) (data : Record) (src rel : String)
    (v : CellView) : Prop :=
  phase1RelV cfg opt data src rel v = (v, false) ∧
  phase2RelV cfg opt src rel v = (v, false) ∧
  phase3RelV cfg opt src rel v = (v, false)

/-- A world all of whose iterated cells are no-ops for the three phase loops. -/
def Converged (w : World) : Prop :=
  ∀ src ∈ w.data.pkgs.map Prod.fst, src ∈ w.cfg.kernelSrcs →
    (alookup w.bug.tasks src).isSome = true →
    ∀ rel ∈ ((alookup w.data.pkgs src).getD []).map Prod.fst,
      cellOK w.cfg w.opt w.data src rel (view w.cfg w src rel)

/-- The importance update chained after a status step, at the view level. -/
theorem phase1_withImp (w₀ w : World) (hw : SameC w₀ w) (s r R : String)
    (st : State × String) (hS : getState w s r = some st)
    (P : World × Bool) (q : Option Task × Bool)
    (hview : getTask P.1 s R = q.1) (htouch : P.2 = q.2)
    (hnoop : q.2 = false → P.1 = w)
    (hsame : SameC w P.1)
    (hstate : getState P.1 s r = getState w s r) :
    (getState (set_task_importance P.1 s R
        (priority_to_importance (contextual_priority P.1.data s r))).1 s r,
      getTask (set_task_importance P.1 s R
        (priority_to_importance (contextual_priority P.1.data s r))).1 s R) =
      (some st, (vSetImportance w₀.opt.update q.1
        (priority_to_importance (contextual_priority w₀.data s r))).1) ∧
    (P.2 || (set_task_importance P.1 s R
        (priority_to_importance (contextual_priority P.1.data s r))).2) =
      (q.2 || (vSetImportance w₀.opt.update q.1
        (priority_to_importance (contextual_priority w₀.data s r))).2) ∧
    ((q.2 || (vSetImportance w₀.opt.update q.1
        (priority_to_importance (contextual_priority w₀.data s r))).2) = false →
      (set_task_importance P.1 s R
        (priority_to_importance (contextual_priority P.1.data s r))).1 = w) := by
  have hws : SameC w₀ P.1 := hw.comp hsame
  have himp : contextual_priority P.1.data s r = contextual_priority w₀.data s r :=
    contextual_priority_of_SameC hws s r
  rw [himp]
  refine ⟨Prod.ext ?_ ?_, ?_, ?_⟩
  · show getState _ s r = _
    rw [set_task_importance_state, hstate, hS]
  · show getTask _ s R = _
    rw [(set_task_importance_view P.1 s R _).1, hview, hws.opt]
  · rw [(set_task_importance_view P.1 s R _).2, hview, hws.opt, htouch]
  · intro hf
    rw [Bool.or_eq_false_iff] at hf
    have hP : P.1 = w := hnoop hf.1
    cases hq : q.1 with
    | none =>
      rw [set_task_importance_of_none _ (by rw [hview, hq])]
      exact hP
    | some tk =>
      by_cases hi : tk.importance =
          priority_to_importance (contextual_priority w₀.data s r)
      · rw [set_task_importance_of_some _ (by rw [hview, hq]), if_pos hi]
        exact hP
      · exfalso
        have h2 := hf.2
        rw [hq] at h2
        cases hu : w₀.opt.update <;> simp [vSetImportance, hi, hu] at h2

theorem phase1Rel_cell (w₀ w : World) (hw : SameC w₀ w) (s r : String) :
    view w₀.cfg (phase1Rel w s r).1 s r =
      (phase1RelV w₀.cfg w₀.opt w₀.data s r (view w₀.cfg w s r)).1 ∧
    (phase1Rel w s r).2 = (phase1RelV w₀.cfg w₀.opt w₀.data s r (view w₀.cfg w s r)).2 ∧
    ((phase1RelV w₀.cfg w₀.opt w₀.data s r (view w₀.cfg w s r)).2 = false →
      (phase1Rel w s r).1 = w) := by
  have hcfg := hw.cfg
  unfold phase1Rel phase1RelV view
  rw [hcfg]
  by_cases hg : develMap w₀.cfg r = "" ∨ develMap w₀.cfg r = "upstream" ∨
      develMap w₀.cfg r ∈ w₀.cfg.eolReleases
  · rw [if_pos hg, if_pos hg]
    exact ⟨rfl, rfl, fun _ => rfl⟩
  · rw [if_neg hg, if_neg hg]
    by_cases hp : develMap w₀.cfg r = "product" ∨ develMap w₀.cfg r = "snap"
    · rw [if_pos hp, if_pos hp]
      exact ⟨rfl, rfl, fun _ => rfl⟩
    · rw [if_neg hp, if_neg hp]
      cases hT : getTask w s (develMap w₀.cfg r) with
      | none =>
        cases hS : getState w s r with
        | none => refine ⟨Prod.ext ?_ ?_, rfl, fun _ => rfl⟩ <;> first | rfl | exact hS | exact hT
        | some st => refine ⟨Prod.ext ?_ ?_, rfl, fun _ => rfl⟩ <;> first | rfl | exact hS | exact hT
      | some task =>
        cases hS : getState w s r with
        | none => refine ⟨Prod.ext ?_ ?_, rfl, fun _ => rfl⟩ <;> first | rfl | exact hS | exact hT
        | some st =>
          dsimp only
          by_cases h1 : st.1 = State.DNE
          · rw [if_pos h1, if_pos h1]
            refine phase1_withImp w₀ w hw s r _ st hS
              (set_task_status_iff_exists w s (develMap w₀.cfg r) .Invalid)
              (vSetStatus w₀.opt.update (some task) .Invalid) ?_ ?_ ?_ ?_ ?_
            · rw [(set_task_status_iff_exists_view w s _ .Invalid).1, hT, hw.opt]
            · rw [(set_task_status_iff_exists_view w s _ .Invalid).2, hT, hw.opt]
            · exact (set_task_status_iff_exists_branch w₀ w hw s r _ st task .Invalid hS hT).2.2
            · exact SameC_set_task_status_iff_exists w s _ _
            · exact set_task_status_iff_exists_state w s _ _ s r
          · rw [if_neg h1, if_neg h1]
            by_cases h2 : st.1 = State.pending ∧ pendingEligible task.status
            · rw [if_pos h2, if_pos h2]
              refine phase1_withImp w₀ w hw s r _ st hS
                (set_task_status w s (develMap w₀.cfg r) .FixCommitted)
                (vSetStatus w₀.opt.update (some task) .FixCommitted) ?_ ?_ ?_ ?_ ?_
              · rw [(set_task_status_view w s _ .FixCommitted).1, hT, hw.opt]
              · rw [(set_task_status_view w s _ .FixCommitted).2, hT, hw.opt]
              · exact (set_task_status_branch w₀ w hw s r _ st task .FixCommitted hS hT).2.2
              · exact SameC_set_task_status w s _ _
              · exact set_task_status_state w s _ _ s r
            · rw [if_neg h2, if_neg h2]
              by_cases h3 : st.1 = State.released
              · rw [if_pos h3, if_pos h3]
                refine phase1_withImp w₀ w hw s r _ st hS
                  (set_task_status w s (develMap w₀.cfg r) .FixReleased)
                  (vSetStatus w₀.opt.update (some task) .FixReleased) ?_ ?_ ?_ ?_ ?_
                · rw [(set_task_status_view w s _ .FixReleased).1, hT, hw.opt]
                · rw [(set_task_status_view w s _ .FixReleased).2, hT, hw.opt]
                · exact (set_task_status_branch w₀ w hw s r _ st task .FixReleased hS hT).2.2
                · exact SameC_set_task_status w s _ _
                · exact set_task_status_state w s _ _ s r
              · rw [if_neg h3, if_neg h3]
                by_cases h4 : (st.1 = State.notAffected ∨ st.1 = State.ignored) ∧
                    task.status = Status.New
                · rw [if_pos h4, if_pos h4]
                  refine phase1_withImp w₀ w hw s r _ st hS
                    (set_task_status w s (develMap w₀.cfg r) .Invalid)
                    (vSetStatus w₀.opt.update (some task) .Invalid) ?_ ?_ ?_ ?_ ?_
                  · rw [(set_task_status_view w s _ .Invalid).1, hT, hw.opt]
                  · rw [(set_task_status_view w s _ .Invalid).2, hT, hw.opt]
                  · exact (set_task_status_branch w₀ w hw s r _ st task .Invalid hS hT).2.2
                  · exact SameC_set_task_status w s _ _
                  · exact set_task_status_state w s _ _ s r
                · rw [if_neg h4, if_neg h4]
                  by_cases h5 : st.1 = State.deferred
                  · rw [if_pos h5, if_pos h5]
                    refine ⟨Prod.ext ?_ ?_, rfl, fun _ => rfl⟩ <;>
                      first | rfl | exact hS | exact hT
                  · rw [if_neg h5, if_neg h5]
                    exact phase1_withImp w₀ w hw s r _ st hS
                      (w, false) (some task, false) hT rfl (fun _ => rfl)
                      (SameC.refl w) rfl

theorem phase1Rel_same (w : World) (s r : String) : SameC w (phase1Rel w s r).1 := by
  unfold phase1Rel
  by_cases hg : develMap w.cfg r = "" ∨ develMap w.cfg r = "upstream" ∨
      develMap w.cfg r ∈ w.cfg.eolReleases
  · rw [if_pos hg]; exact SameC.refl w
  · rw [if_neg hg]
    by_cases hp : develMap w.cfg r = "product" ∨ develMap w.cfg r = "snap"
    · rw [if_pos hp]; exact SameC.refl w
    · rw [if_neg hp]
      cases hT : getTask w s (develMap w.cfg r) with
      | none =>
        cases hS : getState w s r with
        | none => exact SameC.refl w
        | some st => exact SameC.refl w
      | some task =>
        cases hS : getState w s r with
        | none => exact SameC.refl w
        | some st =>
          dsimp only
          by_cases h1 : st.1 = State.DNE
          · rw [if_pos h1]
            exact (SameC_set_task_status_iff_exists w s _ _).comp
              (SameC_set_task_importance _ s _ _)
          · rw [if_neg h1]
            by_cases h2 : st.1 = State.pending ∧ pendingEligible task.status
            · rw [if_pos h2]
              exact (SameC_set_task_status w s _ _).comp (SameC_set_task_importance _ s _ _)
            · rw [if_neg h2]
              by_cases h3 : st.1 = State.released
              · rw [if_pos h3]
                exact (SameC_set_task_status w s _ _).comp (SameC_set_task_importance _ s _ _)
              · rw [if_neg h3]
                by_cases h4 : (st.1 = State.notAffected ∨ st.1 = State.ignored) ∧
                    task.status = Status.New
                · rw [if_pos h4]
                  exact (SameC_set_task_status w s _ _).comp (SameC_set_task_importance _ s _ _)
                · rw [if_neg h4]
                  by_cases h5 : st.1 = State.deferred
                  · rw [if_pos h5]; exact SameC.refl w
                  · rw [if_neg h5]
                    exact SameC_set_task_importance w s _ _

theorem phase1Rel_frame (cfg : Config) (w : World) (s r s2 r2 : String)
    (hcond : s ≠ s2 ∨ (r ≠ r2 ∧ develMap cfg r ≠ develMap cfg r2))
    (hcfg : w.cfg = cfg) :
    view cfg (phase1Rel w s r).1 s2 r2 = view cfg w s2 r2 := by
  have hne : ¬(s = s2 ∧ develMap cfg r = develMap cfg r2) := by
    rcases hcond with h | h
    · exact fun hh => h hh.1
    · exact fun hh => h.2 hh.2
  unfold phase1Rel view
  rw [hcfg]
  by_cases hg : develMap cfg r = "" ∨ develMap cfg r = "upstream" ∨
      develMap cfg r ∈ cfg.eolReleases
  · rw [if_pos hg]
  · rw [if_neg hg]
    by_cases hp : develMap cfg r = "product" ∨ develMap cfg r = "snap"
    · rw [if_pos hp]
    · rw [if_neg hp]
      cases hT : getTask w s (develMap cfg r) with
      | none =>
        cases hS : getState w s r with
        | none => rfl
        | some st => rfl
      | some task =>
        cases hS : getState w s r with
        | none => rfl
        | some st =>
          dsimp only
          by_cases h1 : st.1 = State.DNE
          · rw [if_pos h1]
            rw [set_task_importance_state, set_task_status_iff_exists_state]
            rw [set_task_importance_frame _ s (develMap cfg r) _ s2 (develMap cfg r2) hne]
            rw [set_task_status_iff_exists_frame w s (develMap cfg r) _
              s2 (develMap cfg r2) hne]
          · rw [if_neg h1]
            by_cases h2 : st.1 = State.pending ∧ pendingEligible task.status
            · rw [if_pos h2]
              rw [set_task_importance_state, set_task_status_state]
              rw [set_task_importance_frame _ s (develMap cfg r) _ s2 (develMap cfg r2) hne]
              rw [set_task_status_frame w s (develMap cfg r) _ s2 (develMap cfg r2) hne]
            · rw [if_neg h2]
              by_cases h3 : st.1 = State.released
              · rw [if_pos h3]
                rw [set_task_importance_state, set_task_status_state]
                rw [set_task_importance_frame _ s (develMap cfg r) _ s2 (develMap cfg r2) hne]
                rw [set_task_status_frame w s (develMap cfg r) _ s2 (develMap cfg r2) hne]
              · rw [if_neg h3]
                by_cases h4 : (st.1 = State.notAffected ∨ st.1 = State.ignored) ∧
                    task.status = Status.New
                · rw [if_pos h4]
                  rw [set_task_importance_state, set_task_status_state]
                  rw [set_task_importance_frame _ s (develMap cfg r) _ s2 (develMap cfg r2) hne]
                  rw [set_task_status_frame w s (develMap cfg r) _ s2 (develMap cfg r2) hne]
                · rw [if_neg h4]
                  by_cases h5 : st.1 = State.deferred
                  · rw [if_pos h5]
                  · rw [if_neg h5]
                    rw [set_task_importance_state]
                    rw [set_task_importance_frame _ s (develMap cfg r) _
                      s2 (develMap cfg r2) hne]

/-! ## Generic loop lemmas

Every phase loop instantiates pkgLoop with one of the four cell bodies.  These lemmas
are stated for an abstract cell body cellF together with its view transformer fV and
the three facts proved about each body: constants preservation (hsame), the frame
property (hframe), and the local view transformation with its no-op case (hlocal). -/

section LoopLemmas

variable (cellF : World → String → String → World × Bool)
variable (fV : String → String → CellView → CellView × Bool)
variable (w₀ : World)

/-- Touched only accumulates. -/
theorem relLoopGo_touched (s : String) :
    ∀ (rels : List String) (w : World), (relLoopGo cellF s rels w true).2 = true := by
  intro rels
  induction rels with
  | nil => intro w; rfl
  | cons r rest ih =>
    intro w
    show (relLoopGo cellF s rest (cellF w s r).1 (true || (cellF w s r).2)).2 = true
    rw [Bool.true_or]
    exact ih _

theorem relLoopGo_same (hsame : ∀ w s r, SameC w (cellF w s r).1) (s : String) :
    ∀ (rels : List String) (w : World) (t : Bool),
      SameC w (relLoopGo cellF s rels w t).1 := by
  intro rels
  induction rels with
  | nil => intro w t; exact SameC.refl w
  | cons r rest ih =>
    intro w t
    exact (hsame w s r).comp (ih _ _)

theorem relLoopGo_frame
    (hsame : ∀ w s r, SameC w (cellF w s r).1)
    (hframe : ∀ w s r s2 r2,
      (s ≠ s2 ∨ (r ≠ r2 ∧ develMap w₀.cfg r ≠ develMap w₀.cfg r2)) → w.cfg = w₀.cfg →
      view w₀.cfg (cellF w s r).1 s2 r2 = view w₀.cfg w s2 r2)
    (s s₀ r₀ : String) :
    ∀ (rels : List String) (w : World) (t : Bool), SameC w₀ w →
      (∀ r ∈ rels, s ≠ s₀ ∨ (r ≠ r₀ ∧ develMap w₀.cfg r ≠ develMap w₀.cfg r₀)) →
      view w₀.cfg (relLoopGo cellF s rels w t).1 s₀ r₀ = view w₀.cfg w s₀ r₀ := by
  intro rels
  induction rels with
  | nil => intro w t hw hc; rfl
  | cons r rest ih =>
    intro w t hw hc
    show view w₀.cfg (relLoopGo cellF s rest (cellF w s r).1 _).1 s₀ r₀ = _
    rw [ih (cellF w s r).1 _ (hw.comp (hsame w s r))
        (fun r' hr' => hc r' (List.mem_cons_of_mem _ hr'))]
    exact hframe w s r s₀ r₀ (hc r (List.mem_cons_self _ _)) hw.cfg

theorem relLoopGo_target
    (hsame : ∀ w s r, SameC w (cellF w s r).1)
    (hframe : ∀ w s r s2 r2,
      (s ≠ s2 ∨ (r ≠ r2 ∧ develMap w₀.cfg r ≠ develMap w₀.cfg r2)) → w.cfg = w₀.cfg →
      view w₀.cfg (cellF w s r).1 s2 r2 = view w₀.cfg w s2 r2)
    (hlocal : ∀ w, SameC w₀ w → ∀ s r,
      view w₀.cfg (cellF w s r).1 s r = (fV s r (view w₀.cfg w s r)).1 ∧
      (cellF w s r).2 = (fV s r (view w₀.cfg w s r)).2 ∧
      ((fV s r (view w₀.cfg w s r)).2 = false → (cellF w s r).1 = w))
    (s₀ r₀ : String) :
    ∀ (rels : List String) (w : World) (t : Bool), SameC w₀ w →
      rels.Nodup → r₀ ∈ rels →
      (∀ r ∈ rels, r ≠ r₀ → develMap w₀.cfg r ≠ develMap w₀.cfg r₀) →
      view w₀.cfg (relLoopGo cellF s₀ rels w t).1 s₀ r₀ =
        (fV s₀ r₀ (view w₀.cfg w s₀ r₀)).1 ∧
      ((fV s₀ r₀ (view w₀.cfg w s₀ r₀)).2 = true →
        (relLoopGo cellF s₀ rels w t).2 = true) := by
  intro rels
  induction rels with
  | nil => intro w t hw hnd hmem hdev; cases hmem
  | cons r rest ih =>
    intro w t hw hnd hmem hdev
    rw [List.nodup_cons] at hnd
    by_cases hr : r = r₀
    · have hr0rest : r₀ ∉ rest := hr ▸ hnd.1
      have hloc := hlocal w hw s₀ r
      have hw' : SameC w₀ (cellF w s₀ r).1 := hw.comp (hsame w s₀ r)
      have hfr : view w₀.cfg (relLoopGo cellF s₀ rest (cellF w s₀ r).1
            (t || (cellF w s₀ r).2)).1 s₀ r₀ = view w₀.cfg (cellF w s₀ r).1 s₀ r₀ := by
        apply relLoopGo_frame cellF w₀ hsame hframe s₀ s₀ r₀ rest _ _ hw'
        intro r' hr'
        have hne : r' ≠ r₀ := fun h => hr0rest (h ▸ hr')
        exact Or.inr ⟨hne, hdev r' (List.mem_cons_of_mem _ hr') hne⟩
      constructor
      · show view w₀.cfg (relLoopGo cellF s₀ rest (cellF w s₀ r).1 _).1 s₀ r₀ = _
        rw [hfr, hr] at *
        exact hloc.1
      · intro htv
        show (relLoopGo cellF s₀ rest (cellF w s₀ r).1 (t || (cellF w s₀ r).2)).2 = true
        have : (cellF w s₀ r).2 = true := by
          rw [hloc.2.1, hr]; exact htv
        rw [this, Bool.or_true]
        exact relLoopGo_touched cellF s₀ rest _
    · have hdevr : develMap w₀.cfg r ≠ develMap w₀.cfg r₀ :=
        hdev r (List.mem_cons_self _ _) hr
      have hmem' : r₀ ∈ rest := by
        cases hmem with
        | head => exact absurd rfl hr
        | tail _ h => exact h
      have hw' : SameC w₀ (cellF w s₀ r).1 := hw.comp (hsame w s₀ r)
      have hstep : view w₀.cfg (cellF w s₀ r).1 s₀ r₀ = view w₀.cfg w s₀ r₀ :=
        hframe w s₀ r s₀ r₀ (Or.inr ⟨hr, hdevr⟩) hw.cfg
      have := ih (cellF w s₀ r).1 (t || (cellF w s₀ r).2) hw' hnd.2 hmem'
        (fun r' hr' hne => hdev r' (List.mem_cons_of_mem _ hr') hne)
      rw [hstep] at this
      exact this

/-- The no-op lemma: a loop whose every processed cell leaves the world unchanged with
    touched false is the identity. -/
theorem relLoopGo_noop (s : String) :
    ∀ (rels : List String) (w : World) (t : Bool),
      (∀ r ∈ rels, cellF w s r = (w, false)) →
      relLoopGo cellF s rels w t = (w, t) := by
  intro rels
  induction rels with
  | nil => intro w t h; rfl
  | cons r rest ih =>
    intro w t h
    show relLoopGo cellF s rest (cellF w s r).1 (t || (cellF w s r).2) = (w, t)
    rw [h r (List.mem_cons_self _ _)]
    rw [Bool.or_false]
    exact ih w t (fun r' hr' => h r' (List.mem_cons_of_mem _ hr'))

theorem pkgLoopGo_touched :
    ∀ (srcs : List String) (w : World), (pkgLoopGo cellF srcs w true).2 = true := by
  intro srcs
  induction srcs with
  | nil => intro w; rfl
  | cons src rest ih =>
    intro w
    show (if src ∈ w.cfg.kernelSrcs then _ else _ : World × Bool).2 = true
    by_cases h1 : src ∈ w.cfg.kernelSrcs
    · rw [if_pos h1]
      by_cases h2 : (alookup w.bug.tasks src).isSome
      · rw [if_pos h2]
        dsimp only
        have hrt : (relLoopGo cellF src (((alookup w.data.pkgs src).getD []).map Prod.fst)
            w true).2 = true := relLoopGo_touched cellF src _ w
        rw [show (relLoopGo cellF src (((alookup w.data.pkgs src).getD []).map Prod.fst)
            w true) = ((relLoopGo cellF src (((alookup w.data.pkgs src).getD []).map
            Prod.fst) w true).1, (relLoopGo cellF src (((alookup w.data.pkgs src).getD
            []).map Prod.fst) w true).2) from rfl, hrt]
        exact ih _
      · rw [if_neg h2]; exact ih w
    · rw [if_neg h1]; exact ih w

theorem pkgLoopGo_same (hsame : ∀ w s r, SameC w (cellF w s r).1) :
    ∀ (srcs : List String) (w : World) (t : Bool),
      SameC w (pkgLoopGo cellF srcs w t).1 := by
  intro srcs
  induction srcs with
  | nil => intro w t; exact SameC.refl w
  | cons src rest ih =>
    intro w t
    show SameC w (if src ∈ w.cfg.kernelSrcs then _ else _ : World × Bool).1
    by_cases h1 : src ∈ w.cfg.kernelSrcs
    · rw [if_pos h1]
      by_cases h2 : (alookup w.bug.tasks src).isSome
      · rw [if_pos h2]
        dsimp only
        exact (relLoopGo_same cellF hsame src _ w t).comp (ih _ _)
      · rw [if_neg h2]; exact ih w t
    · rw [if_neg h1]; exact ih w t

theorem pkgLoopGo_frame
    (hsame : ∀ w s r, SameC w (cellF w s r).1)
    (hframe : ∀ w s r s2 r2,
      (s ≠ s2 ∨ (r ≠ r2 ∧ develMap w₀.cfg r ≠ develMap w₀.cfg r2)) → w.cfg = w₀.cfg →
      view w₀.cfg (cellF w s r).1 s2 r2 = view w₀.cfg w s2 r2)
    (s₀ r₀ : String) :
    ∀ (srcs : List String) (w : World) (t : Bool), SameC w₀ w → s₀ ∉ srcs →
      view w₀.cfg (pkgLoopGo cellF srcs w t).1 s₀ r₀ = view w₀.cfg w s₀ r₀ := by
  intro srcs
  induction srcs with
  | nil => intro w t hw hmem; rfl
  | cons src rest ih =>
    intro w t hw hmem
    have hsrc : src ≠ s₀ := fun h => hmem (h ▸ List.mem_cons_self _ _)
    have hrest : s₀ ∉ rest := fun h => hmem (List.mem_cons_of_mem _ h)
    show view w₀.cfg ((if src ∈ w.cfg.kernelSrcs then _ else _ : World × Bool)).1 s₀ r₀ = _
    by_cases h1 : src ∈ w.cfg.kernelSrcs
    · rw [if_pos h1]
      by_cases h2 : (alookup w.bug.tasks src).isSome
      · rw [if_pos h2]
        dsimp only
        rw [ih _ _ (hw.comp (relLoopGo_same cellF hsame src _ w t)) hrest]
        exact relLoopGo_frame cellF w₀ hsame hframe src s₀ r₀ _ w t hw
          (fun r hr => Or.inl hsrc)
      · rw [if_neg h2]; exact ih w t hw hrest
    · rw [if_neg h1]; exact ih w t hw hrest

theorem pkgLoopGo_touched_of (srcs : List String) (q : World × Bool)
    (h : q.2 = true) : (pkgLoopGo cellF srcs q.1 q.2).2 = true := by
  rw [h]
  exact pkgLoopGo_touched cellF srcs q.1

theorem pkgLoopGo_target
    (hsame : ∀ w s r, SameC w (cellF w s r).1)
    (hframe : ∀ w s r s2 r2,
      (s ≠ s2 ∨ (r ≠ r2 ∧ develMap w₀.cfg r ≠ develMap w₀.cfg r2)) → w.cfg = w₀.cfg →
      view w₀.cfg (cellF w s r).1 s2 r2 = view w₀.cfg w s2 r2)
    (hlocal : ∀ w, SameC w₀ w → ∀ s r,
      view w₀.cfg (cellF w s r).1 s r = (fV s r (view w₀.cfg w s r)).1 ∧
      (cellF w s r).2 = (fV s r (view w₀.cfg w s r)).2 ∧
      ((fV s r (view w₀.cfg w s r)).2 = false → (cellF w s r).1 = w))
    (s₀ r₀ : String)
    (hker : s₀ ∈ w₀.cfg.kernelSrcs)
    (htask : (alookup w₀.bug.tasks s₀).isSome = true)
    (hrnd : (((alookup w₀.data.pkgs s₀).getD []).map Prod.fst).Nodup)
    (hrmem : r₀ ∈ ((alookup w₀.data.pkgs s₀).getD []).map Prod.fst)
    (hrdev : ∀ r ∈ ((alookup w₀.data.pkgs s₀).getD []).map Prod.fst, r ≠ r₀ →
      develMap w₀.cfg r ≠ develMap w₀.cfg r₀) :
    ∀ (srcs : List String) (w : World) (t : Bool), SameC w₀ w →
      srcs.Nodup → s₀ ∈ srcs →
      view w₀.cfg (pkgLoopGo cellF srcs w t).1 s₀ r₀ =
        (fV s₀ r₀ (view w₀.cfg w s₀ r₀)).1 ∧
      ((fV s₀ r₀ (view w₀.cfg w s₀ r₀)).2 = true →
        (pkgLoopGo cellF srcs w t).2 = true) := by
  intro srcs
  induction srcs with
  | nil => intro w t hw hnd hmem; cases hmem
  | cons src rest ih =>
    intro w t hw hnd hmem
    rw [List.nodup_cons] at hnd
    by_cases hsrc : src = s₀
    · have hs0rest : s₀ ∉ rest := hsrc ▸ hnd.1
      have hker2 : src ∈ w.cfg.kernelSrcs := by rw [hw.cfg, hsrc]; exact hker
      have htask2 : (alookup w.bug.tasks src).isSome = true := by
        rw [hsrc, taskPresent_of_SameC hw]; exact htask
      simp only [pkgLoopGo]
      rw [if_pos hker2, if_pos htask2]
      have hrels : ((alookup w.data.pkgs src).getD []).map Prod.fst =
          ((alookup w₀.data.pkgs s₀).getD []).map Prod.fst := by
        rw [hsrc]; exact pkgRels_of_SameC hw s₀
      rw [hrels, hsrc]
      have hrt := relLoopGo_target cellF fV w₀ hsame hframe hlocal s₀ r₀
        (((alookup w₀.data.pkgs s₀).getD []).map Prod.fst) w t hw hrnd hrmem hrdev
      have hw2 : SameC w₀ (relLoopGo cellF s₀
          (((alookup w₀.data.pkgs s₀).getD []).map Prod.fst) w t).1 :=
        hw.comp (relLoopGo_same cellF hsame s₀ _ w t)
      constructor
      · rw [pkgLoopGo_frame cellF w₀ hsame hframe s₀ r₀ rest _ _ hw2 hs0rest]
        exact hrt.1
      · intro htv
        exact pkgLoopGo_touched_of cellF rest _ (hrt.2 htv)
    · have hmem2 : s₀ ∈ rest := by
        cases hmem with
        | head => exact absurd rfl hsrc
        | tail _ h => exact h
      simp only [pkgLoopGo]
      by_cases h1 : src ∈ w.cfg.kernelSrcs
      · rw [if_pos h1]
        by_cases h2 : (alookup w.bug.tasks src).isSome
        · rw [if_pos h2]
          have hw2 : SameC w₀ (relLoopGo cellF src
              (((alookup w.data.pkgs src).getD []).map Prod.fst) w t).1 :=
            hw.comp (relLoopGo_same cellF hsame src _ w t)
          have hstep : view w₀.cfg (relLoopGo cellF src
              (((alookup w.data.pkgs src).getD []).map Prod.fst) w t).1 s₀ r₀ =
              view w₀.cfg w s₀ r₀ :=
            relLoopGo_frame cellF w₀ hsame hframe src s₀ r₀ _ w t hw
              (fun r hr => Or.inl hsrc)
          have := ih (relLoopGo cellF src
              (((alookup w.data.pkgs src).getD []).map Prod.fst) w t).1
            (relLoopGo cellF src
              (((alookup w.data.pkgs src).getD []).map Prod.fst) w t).2
            hw2 hnd.2 hmem2
          rw [hstep] at this
          exact this
        · rw [if_neg h2]; exact ih w t hw hnd.2 hmem2
      · rw [if_neg h1]; exact ih w t hw hnd.2 hmem2

theorem pkgLoopGo_noop :
    ∀ (srcs : List String) (w : World) (t : Bool),
      (∀ s ∈ srcs, s ∈ w.cfg.kernelSrcs → (alookup w.bug.tasks s).isSome = true →
        ∀ r ∈ ((alookup w.data.pkgs s).getD []).map Prod.fst, cellF w s r = (w, false)) →
      pkgLoopGo cellF srcs w t = (w, t) := by
  intro srcs
  induction srcs with
  | nil => intro w t h; rfl
  | cons src rest ih =>
    intro w t h
    show (if src ∈ w.cfg.kernelSrcs then _ else _ : World × Bool) = (w, t)
    by_cases h1 : src ∈ w.cfg.kernelSrcs
    · rw [if_pos h1]
      by_cases h2 : (alookup w.bug.tasks src).isSome
      · rw [if_pos h2]
        dsimp only
        rw [relLoopGo_noop cellF src _ w t
          (fun r hr => h src (List.mem_cons_self _ _) h1 h2 r hr)]
        exact ih w t (fun s hs => h s (List.mem_cons_of_mem _ hs))
      · rw [if_neg h2]; exact ih w t (fun s hs => h s (List.mem_cons_of_mem _ hs))
    · rw [if_neg h1]; exact ih w t (fun s hs => h s (List.mem_cons_of_mem _ hs))

end LoopLemmas

/-! ## Deletion lemmas and the EOL sweep -/

theorem alookup_aerase_ne {α : Type} (l : List (String × α)) (k k' : String)
    (hne : k ≠ k') : alookup (aerase l k) k' = alookup l k' := by
  induction l with
  | nil => rfl
  | cons p t ih =>
    obtain ⟨a, b⟩ := p
    by_cases hak : a = k
    · subst hak
      simp only [aerase, if_true, eq_self_iff_true]
      simp only [alookup]
      rw [if_neg hne]
    · simp only [aerase, if_neg hak, alookup]
      by_cases hk' : a = k'
      · simp only [if_pos hk']
      · simp only [if_neg hk']
        exact ih

theorem alookup_mem {α : Type} {l : List (String × α)} {k : String} {v : α}
    (h : alookup l k = some v) : (k, v) ∈ l := by
  induction l with
  | nil => simp [alookup] at h
  | cons p t ih =>
    obtain ⟨a, b⟩ := p
    by_cases hak : a = k
    · subst hak
      simp only [alookup, if_true, eq_self_iff_true] at h
      injection h with h
      subst h
      exact List.mem_cons_self _ _
    · simp only [alookup, if_neg hak] at h
      exact List.mem_cons_of_mem _ (ih h)

theorem amodify_mem {α : Type} {l : List (String × α)} {k : String} {g : α → α}
    {p : String × α} (h : p ∈ amodify l k g) :
    p ∈ l ∨ ∃ v, (p.1, v) ∈ l ∧ p.2 = g v := by
  induction l with
  | nil => simp [amodify] at h
  | cons q t ih =>
    obtain ⟨a, b⟩ := q
    by_cases hak : a = k
    · subst hak
      simp only [amodify, if_true, eq_self_iff_true] at h
      simp only [List.mem_cons] at h
      rcases h with h | h
      · right
        exact ⟨b, by simp [h], by simp [h]⟩
      · left
        exact List.mem_cons_of_mem _ h
    · simp only [amodify, if_neg hak, List.mem_cons] at h
      rcases h with h | h
      · left
        simp [h]
      · rcases ih h with h2 | ⟨v, hv1, hv2⟩
        · left
          exact List.mem_cons_of_mem _ h2
        · right
          exact ⟨v, List.mem_cons_of_mem _ hv1, hv2⟩

/-- The world a live delete produces. -/
def deleteWorld (w : World) (src release : String) : World :=
  { w with bug := { w.bug with
      tasks := amodify w.bug.tasks src (fun m => aerase m release) } }

theorem delete_task_of_none {w : World} {s rel : String} (reason : String)
    (h : getTask w s rel = none) : delete_task w s rel reason = none := by
  unfold delete_task
  rw [h]

theorem delete_task_of_some {w : World} {s rel : String} {tk : Task} (reason : String)
    (h : getTask w s rel = some tk) :
    delete_task w s rel reason =
      some (if w.opt.update then (logEvent (deleteWorld w s rel) (.DeleteTask s rel), true)
            else (w, true)) := by
  unfold delete_task deleteWorld
  rw [h]
  cases hu : w.opt.update <;> simp [hu]

theorem getTask_deleteWorld_ne (w : World) (src rel s2 r2 : String)
    (hne : ¬(src = s2 ∧ rel = r2)) :
    getTask (deleteWorld w src rel) s2 r2 = getTask w s2 r2 := by
  unfold getTask deleteWorld
  simp only
  rw [alookup_amodify]
  by_cases hs : src = s2
  · subst hs
    rw [if_pos rfl]
    cases h : alookup w.bug.tasks src with
    | none => rfl
    | some m =>
      simp only [Option.map_some', Option.some_bind]
      exact alookup_aerase_ne m rel r2 (fun h2 => hne ⟨rfl, h2⟩)
  · rw [if_neg hs]

theorem getTask_deleteWorld_self (w : World) (src rel : String)
    (hnd : ∀ m, alookup w.bug.tasks src = some m → (m.map Prod.fst).Nodup) :
    getTask (deleteWorld w src rel) src rel = none := by
  unfold getTask deleteWorld
  simp only
  rw [alookup_amodify, if_pos rfl]
  cases h : alookup w.bug.tasks src with
  | none => rfl
  | some m =>
    simp only [Option.map_some', Option.some_bind]
    rw [alookup_aerase m rel (hnd m h) rel, if_pos rfl]

theorem getState_deleteWorld (w : World) (src rel s2 r2 : String) :
    getState (deleteWorld w src rel) s2 r2 = getState w s2 r2 := rfl

theorem deleteWorld_keys (w : World) (src rel : String) :
    (deleteWorld w src rel).bug.tasks.map Prod.fst = w.bug.tasks.map Prod.fst :=
  amodify_map_fst _ _ _

/-- Everything except the task map and the log. -/
def remTasks (w : World) :=
  (w.cfg, w.opt, w.bug.title, w.bug.tags, w.bug.description, w.bug.noms, w.data)

theorem remTasks_deleteWorld (w : World) (src rel : String) :
    remTasks (deleteWorld w src rel) = remTasks w := rfl

theorem remTasks_logEvent (w : World) (e : Event) :
    remTasks (logEvent w e) = remTasks w := rfl

/-- One sweep delete step: set_task_eol on a present task. -/
theorem set_task_eol_of_some {w : World} {s rel : String} {tk : Task}
    (h : getTask w s rel = some tk) :
    set_task_eol w s rel =
      some (if w.opt.update then (logEvent (deleteWorld w s rel) (.DeleteTask s rel), true)
            else (w, true)) :=
  delete_task_of_some "EoL" h



/-! ## Well-formedness -/

/-- Well-formedness of a world: unique dictionary keys, the devel alias resolving
    without collision inside each package entry, and the devel alias not naming an EOL
    release. -/
def WFShape (cfg : Config) (pk tk : List (String × List String)) : Prop :=
  (pk.map Prod.fst).Nodup ∧
  (∀ p ∈ pk, p.2.Nodup ∧ (p.2.map (develMap cfg)).Nodup) ∧
  (tk.map Prod.fst).Nodup ∧
  (∀ p ∈ tk, p.2.Nodup) ∧
  "devel" ∉ cfg.eolReleases

def WF (w : World) : Prop := WFShape w.cfg (pkgShape w) (taskShape w)

instance (cfg : Config) (pk tk : List (String × List String)) :
    Decidable (WFShape cfg pk tk) := by
  unfold WFShape; infer_instance

instance (w : World) : Decidable (WF w) := by
  unfold WF; infer_instance

theorem shape_keys {α β : Type} (l : List (String × α)) (g : α → β) :
    (l.map (fun p => (p.1, g p.2))).map Prod.fst = l.map Prod.fst := by
  induction l with
  | nil => rfl
  | cons p t ih => simp [ih]

theorem WF_of_SameC {w₀ w : World} (hw : SameC w₀ w) (h : WF w₀) : WF w := by
  unfold WF
  rw [hw.cfg, hw.pshape, hw.tshape]
  exact h

theorem WF.pkgsKeysNodup {w : World} (h : WF w) : (w.data.pkgs.map Prod.fst).Nodup := by
  have := h.1
  unfold pkgShape at this
  rwa [shape_keys] at this

theorem WF.tasksKeysNodup {w : World} (h : WF w) : (w.bug.tasks.map Prod.fst).Nodup := by
  have := h.2.2.1
  unfold taskShape at this
  rwa [shape_keys] at this

theorem WF.relsNodup {w : World} (h : WF w) {src : String}
    {m : List (String × (State × String))} (hm : alookup w.data.pkgs src = some m) :
    (m.map Prod.fst).Nodup ∧ ((m.map Prod.fst).map (develMap w.cfg)).Nodup := by
  have hmem : (src, m.map Prod.fst) ∈ pkgShape w := by
    apply alookup_mem
    unfold pkgShape
    rw [alookup_map_shape, hm]
    rfl
  exact h.2.1 _ hmem

theorem WF.taskRelsNodup {w : World} (h : WF w) {src : String}
    {m : List (String × Task)} (hm : alookup w.bug.tasks src = some m) :
    (m.map Prod.fst).Nodup := by
  have hmem : (src, m.map Prod.fst) ∈ taskShape w := by
    apply alookup_mem
    unfold taskShape
    rw [alookup_map_shape, hm]
    rfl
  exact h.2.2.2.1 _ hmem

theorem WF.develNotEol {w : World} (h : WF w) : "devel" ∉ w.cfg.eolReleases :=
  h.2.2.2.2

theorem WF_deleteWorld {w : World} (h : WF w) (src rel : String) :
    WF (deleteWorld w src rel) := by
  obtain ⟨h1, h2, h3, h4, h5⟩ := h
  refine ⟨h1, h2, ?_, ?_, h5⟩
  · have heq : (taskShape (deleteWorld w src rel)).map Prod.fst =
        (taskShape w).map Prod.fst := by
      unfold taskShape deleteWorld
      simp only
      rw [shape_keys, shape_keys]
      exact amodify_map_fst w.bug.tasks src (fun m => aerase m rel)
    rw [heq]
    exact h3
  · intro p hp
    unfold taskShape deleteWorld at hp
    simp only [List.mem_map] at hp
    obtain ⟨q, hq, hpq⟩ := hp
    rcases amodify_mem hq with hq2 | ⟨v, hv, hveq⟩
    · apply h4
      rw [← hpq]
      unfold taskShape
      exact List.mem_map_of_mem _ hq2
    · have hv2 : (q.1, v.map Prod.fst) ∈ taskShape w :=
        List.mem_map_of_mem (fun p => (p.1, p.2.map Prod.fst)) hv
      have hnd := h4 _ hv2
      rw [← hpq]
      simp only
      rw [hveq]
      exact List.Nodup.sublist (aerase_map_fst_sublist v rel) hnd



/-! ## EOL sweep lemmas -/

theorem eolSweepRels_cons_live {w : World} {src rel : String} {tk : Task}
    (htk : getTask w src rel = some tk) (hall : w.opt.allowEolTasks = false)
    (hu : w.opt.update = true) (rest : List String) (t : Bool) :
    eolSweepRels src (rel :: rest) w t =
      eolSweepRels src rest (logEvent (deleteWorld w src rel) (.DeleteTask src rel))
        (t || true) := by
  show (if ((getTask w src rel).isSome && !w.opt.allowEolTasks) = true then _
      else _ : World × Bool) = _
  rw [if_pos (by rw [htk, hall]; rfl), set_task_eol_of_some htk, if_pos hu]

theorem eolSweepRels_cons_dry {w : World} {src rel : String} {tk : Task}
    (htk : getTask w src rel = some tk) (hall : w.opt.allowEolTasks = false)
    (hu : w.opt.update = false) (rest : List String) (t : Bool) :
    eolSweepRels src (rel :: rest) w t = eolSweepRels src rest w (t || true) := by
  show (if ((getTask w src rel).isSome && !w.opt.allowEolTasks) = true then _
      else _ : World × Bool) = _
  rw [if_pos (by rw [htk, hall]; rfl), set_task_eol_of_some htk, if_neg (by rw [hu]; simp)]

theorem eolSweepRels_cons_skip {w : World} {src rel : String}
    (hg : ¬(((getTask w src rel).isSome && !w.opt.allowEolTasks) = true))
    (rest : List String) (t : Bool) :
    eolSweepRels src (rel :: rest) w t = eolSweepRels src rest w t := by
  show (if ((getTask w src rel).isSome && !w.opt.allowEolTasks) = true then _
      else _ : World × Bool) = _
  rw [if_neg hg]

/-- The guard of one sweep step splits into four mutually exclusive situations. -/
theorem eolSweep_step_cases (w : World) (src rel : String) :
    (∃ tk, getTask w src rel = some tk ∧ w.opt.allowEolTasks = false ∧
      w.opt.update = true) ∨
    (∃ tk, getTask w src rel = some tk ∧ w.opt.allowEolTasks = false ∧
      w.opt.update = false) ∨
    ¬(((getTask w src rel).isSome && !w.opt.allowEolTasks) = true) := by
  cases htk : getTask w src rel with
  | none => right; right; simp
  | some tk =>
    cases hall : w.opt.allowEolTasks with
    | true => right; right; simp
    | false =>
      cases hu : w.opt.update with
      | true => left; exact ⟨tk, rfl, rfl, rfl⟩
      | false => right; left; exact ⟨tk, rfl, rfl, rfl⟩

theorem eolSweepRels_props (src : String) :
    ∀ (rels : List String) (w : World) (t : Bool),
      (eolSweepRels src rels w t).1.cfg = w.cfg ∧
      (eolSweepRels src rels w t).1.opt = w.opt ∧
      (eolSweepRels src rels w t).1.data = w.data ∧
      (eolSweepRels src rels w t).1.bug.title = w.bug.title ∧
      (eolSweepRels src rels w t).1.bug.tags = w.bug.tags ∧
      (eolSweepRels src rels w t).1.bug.description = w.bug.description ∧
      (eolSweepRels src rels w t).1.bug.noms = w.bug.noms ∧
      (eolSweepRels src rels w t).1.bug.tasks.map Prod.fst = w.bug.tasks.map Prod.fst := by
  intro rels
  induction rels with
  | nil => intro w t; exact ⟨rfl, rfl, rfl, rfl, rfl, rfl, rfl, rfl⟩
  | cons rel rest ih =>
    intro w t
    rcases eolSweep_step_cases w src rel with ⟨tk, htk, hall, hu⟩ | ⟨tk, htk, hall, hu⟩ | hg
    · rw [eolSweepRels_cons_live htk hall hu]
      have := ih (logEvent (deleteWorld w src rel) (.DeleteTask src rel)) (t || true)
      refine ⟨this.1.trans rfl, this.2.1.trans rfl, this.2.2.1.trans rfl,
        this.2.2.2.1.trans rfl, this.2.2.2.2.1.trans rfl,
        this.2.2.2.2.2.1.trans rfl, this.2.2.2.2.2.2.1.trans rfl, ?_⟩
      rw [this.2.2.2.2.2.2.2]
      exact deleteWorld_keys w src rel
    · rw [eolSweepRels_cons_dry htk hall hu]
      exact ih w (t || true)
    · rw [eolSweepRels_cons_skip hg]
      exact ih w t

theorem eolSweepRels_frame (src : String) :
    ∀ (rels : List String) (w : World) (t : Bool) (s2 R : String),
      ¬(s2 = src ∧ R ∈ rels) →
      getTask (eolSweepRels src rels w t).1 s2 R = getTask w s2 R := by
  intro rels
  induction rels with
  | nil => intro w t s2 R h; rfl
  | cons rel rest ih =>
    intro w t s2 R h
    have hrest : ¬(s2 = src ∧ R ∈ rest) :=
      fun hh => h ⟨hh.1, List.mem_cons_of_mem _ hh.2⟩
    rcases eolSweep_step_cases w src rel with ⟨tk, htk, hall, hu⟩ | ⟨tk, htk, hall, hu⟩ | hg
    · rw [eolSweepRels_cons_live htk hall hu]
      rw [ih _ _ s2 R hrest, getTask_logEvent]
      exact getTask_deleteWorld_ne w src rel s2 R
        (fun hh => h ⟨hh.1.symm, hh.2 ▸ List.mem_cons_self _ _⟩)
    · rw [eolSweepRels_cons_dry htk hall hu]
      exact ih _ _ s2 R hrest
    · rw [eolSweepRels_cons_skip hg]
      exact ih _ _ s2 R hrest

theorem eolSweepRels_mono_none (src : String) :
    ∀ (rels : List String) (w : World) (t : Bool) (s2 R : String),
      getTask w s2 R = none →
      getTask (eolSweepRels src rels w t).1 s2 R = none := by
  intro rels
  induction rels with
  | nil => intro w t s2 R h; exact h
  | cons rel rest ih =>
    intro w t s2 R h
    rcases eolSweep_step_cases w src rel with ⟨tk, htk, hall, hu⟩ | ⟨tk, htk, hall, hu⟩ | hg
    · rw [eolSweepRels_cons_live htk hall hu]
      apply ih
      rw [getTask_logEvent]
      by_cases hne : src = s2 ∧ rel = R
      · rw [← hne.1, ← hne.2] at h
        rw [htk] at h
        cases h
      · rw [getTask_deleteWorld_ne w src rel s2 R hne]
        exact h
    · rw [eolSweepRels_cons_dry htk hall hu]
      exact ih _ _ s2 R h
    · rw [eolSweepRels_cons_skip hg]
      exact ih _ _ s2 R h

theorem eolSweepRels_WF (src : String) :
    ∀ (rels : List String) (w : World) (t : Bool), WF w →
      WF (eolSweepRels src rels w t).1 := by
  intro rels
  induction rels with
  | nil => intro w t h; exact h
  | cons rel rest ih =>
    intro w t h
    rcases eolSweep_step_cases w src rel with ⟨tk, htk, hall, hu⟩ | ⟨tk, htk, hall, hu⟩ | hg
    · rw [eolSweepRels_cons_live htk hall hu]
      exact ih _ _ (WF_deleteWorld h src rel)
    · rw [eolSweepRels_cons_dry htk hall hu]
      exact ih _ _ h
    · rw [eolSweepRels_cons_skip hg]
      exact ih _ _ h

theorem eolSweepRels_deletes (src : String) :
    ∀ (rels : List String) (w : World) (t : Bool), WF w →
      w.opt.update = true → w.opt.allowEolTasks = false →
      ∀ R ∈ rels, getTask (eolSweepRels src rels w t).1 src R = none := by
  intro rels
  induction rels with
  | nil => intro w t hwf hu ha R hR; cases hR
  | cons rel rest ih =>
    intro w t hwf hu ha R hR
    cases htk : getTask w src rel with
    | some tk =>
      rw [eolSweepRels_cons_live htk ha hu]
      have hwf2 : WF (logEvent (deleteWorld w src rel) (.DeleteTask src rel)) :=
        WF_deleteWorld hwf src rel
      cases hR with
      | head =>
        apply eolSweepRels_mono_none
        rw [getTask_logEvent]
        exact getTask_deleteWorld_self w src rel (fun m hm => hwf.taskRelsNodup hm)
      | tail _ hR2 =>
        exact ih (logEvent (deleteWorld w src rel) (.DeleteTask src rel))
          (t || true) hwf2 hu ha R hR2
    | none =>
      have hg : ¬(((getTask w src rel).isSome && !w.opt.allowEolTasks) = true) := by
        rw [htk]; simp
      rw [eolSweepRels_cons_skip hg]
      cases hR with
      | head => exact eolSweepRels_mono_none src rest w t src rel htk
      | tail _ hR2 => exact ih w t hwf hu ha R hR2

theorem eolSweepRels_noop (src : String) :
    ∀ (rels : List String) (w : World) (t : Bool),
      (∀ R ∈ rels, (getTask w src R).isSome = true → w.opt.allowEolTasks = true) →
      eolSweepRels src rels w t = (w, t) := by
  intro rels
  induction rels with
  | nil => intro w t h; rfl
  | cons rel rest ih =>
    intro w t h
    have hg : ¬(((getTask w src rel).isSome && !w.opt.allowEolTasks) = true) := by
      intro hh
      rw [Bool.and_eq_true] at hh
      have := h rel (List.mem_cons_self _ _) hh.1
      rw [this] at hh
      simp at hh
    rw [eolSweepRels_cons_skip hg]
    exact ih w t (fun R hR => h R (List.mem_cons_of_mem _ hR))



theorem eolSweepGo_cons_pos {w : World} {src : String} (h1 : src ∈ w.cfg.kernelSrcs)
    (rest : List String) (t : Bool) :
    eolSweepGo (src :: rest) w t =
      eolSweepGo rest (eolSweepRels src w.cfg.eolReleases w t).1
        (eolSweepRels src w.cfg.eolReleases w t).2 := by
  show (if src ∈ w.cfg.kernelSrcs then _ else _ : World × Bool) = _
  rw [if_pos h1]

theorem eolSweepGo_cons_neg {w : World} {src : String} (h1 : src ∉ w.cfg.kernelSrcs)
    (rest : List String) (t : Bool) :
    eolSweepGo (src :: rest) w t = eolSweepGo rest w t := by
  show (if src ∈ w.cfg.kernelSrcs then _ else _ : World × Bool) = _
  rw [if_neg h1]

theorem eolSweepGo_props :
    ∀ (srcs : List String) (w : World) (t : Bool),
      (eolSweepGo srcs w t).1.cfg = w.cfg ∧
      (eolSweepGo srcs w t).1.opt = w.opt ∧
      (eolSweepGo srcs w t).1.data = w.data ∧
      (eolSweepGo srcs w t).1.bug.title = w.bug.title ∧
      (eolSweepGo srcs w t).1.bug.tags = w.bug.tags ∧
      (eolSweepGo srcs w t).1.bug.description = w.bug.description ∧
      (eolSweepGo srcs w t).1.bug.noms = w.bug.noms ∧
      (eolSweepGo srcs w t).1.bug.tasks.map Prod.fst = w.bug.tasks.map Prod.fst := by
  intro srcs
  induction srcs with
  | nil => intro w t; exact ⟨rfl, rfl, rfl, rfl, rfl, rfl, rfl, rfl⟩
  | cons src rest ih =>
    intro w t
    by_cases h1 : src ∈ w.cfg.kernelSrcs
    · rw [eolSweepGo_cons_pos h1]
      have hin := eolSweepRels_props src w.cfg.eolReleases w t
      have := ih (eolSweepRels src w.cfg.eolReleases w t).1
        (eolSweepRels src w.cfg.eolReleases w t).2
      exact ⟨this.1.trans hin.1, this.2.1.trans hin.2.1, this.2.2.1.trans hin.2.2.1,
        this.2.2.2.1.trans hin.2.2.2.1, this.2.2.2.2.1.trans hin.2.2.2.2.1,
        this.2.2.2.2.2.1.trans hin.2.2.2.2.2.1,
        this.2.2.2.2.2.2.1.trans hin.2.2.2.2.2.2.1,
        this.2.2.2.2.2.2.2.trans hin.2.2.2.2.2.2.2⟩
    · rw [eolSweepGo_cons_neg h1]
      exact ih w t

theorem eolSweepGo_mono_none :
    ∀ (srcs : List String) (w : World) (t : Bool) (s2 R : String),
      getTask w s2 R = none → getTask (eolSweepGo srcs w t).1 s2 R = none := by
  intro srcs
  induction srcs with
  | nil => intro w t s2 R h; exact h
  | cons src rest ih =>
    intro w t s2 R h
    show getTask ((if src ∈ w.cfg.kernelSrcs then _ else _ : World × Bool)).1 s2 R = none
    by_cases h1 : src ∈ w.cfg.kernelSrcs
    · rw [if_pos h1]
      dsimp only
      exact ih _ _ s2 R (eolSweepRels_mono_none src w.cfg.eolReleases w t s2 R h)
    · rw [if_neg h1]
      exact ih w t s2 R h

theorem eolSweepGo_frame_rel :
    ∀ (srcs : List String) (w : World) (t : Bool) (s2 R : String),
      R ∉ w.cfg.eolReleases →
      getTask (eolSweepGo srcs w t).1 s2 R = getTask w s2 R := by
  intro srcs
  induction srcs with
  | nil => intro w t s2 R h; rfl
  | cons src rest ih =>
    intro w t s2 R h
    show getTask ((if src ∈ w.cfg.kernelSrcs then _ else _ : World × Bool)).1 s2 R = _
    by_cases h1 : src ∈ w.cfg.kernelSrcs
    · rw [if_pos h1]
      dsimp only
      have hstep := eolSweepRels_frame src w.cfg.eolReleases w t s2 R
        (fun hh => h hh.2)
      have hcfg := (eolSweepRels_props src w.cfg.eolReleases w t).1
      rw [ih _ _ s2 R (by rw [hcfg]; exact h), hstep]
    · rw [if_neg h1]
      exact ih w t s2 R h

theorem eolSweepGo_WF :
    ∀ (srcs : List String) (w : World) (t : Bool), WF w → WF (eolSweepGo srcs w t).1 := by
  intro srcs
  induction srcs with
  | nil => intro w t h; exact h
  | cons src rest ih =>
    intro w t h
    show WF ((if src ∈ w.cfg.kernelSrcs then _ else _ : World × Bool)).1
    by_cases h1 : src ∈ w.cfg.kernelSrcs
    · rw [if_pos h1]
      dsimp only
      exact ih _ _ (eolSweepRels_WF src w.cfg.eolReleases w t h)
    · rw [if_neg h1]
      exact ih w t h

theorem eolSweepGo_deletes :
    ∀ (srcs : List String) (w : World) (t : Bool), WF w →
      w.opt.update = true → w.opt.allowEolTasks = false →
      ∀ src R, src ∈ w.cfg.kernelSrcs → R ∈ w.cfg.eolReleases →
      (src ∈ srcs ∨ getTask w src R = none) →
      getTask (eolSweepGo srcs w t).1 src R = none := by
  intro srcs
  induction srcs with
  | nil =>
    intro w t hwf hu ha src R hk hR hc
    rcases hc with hc | hc
    · cases hc
    · exact hc
  | cons s rest ih =>
    intro w t hwf hu ha src R hk hR hc
    show getTask ((if s ∈ w.cfg.kernelSrcs then _ else _ : World × Bool)).1 src R = none
    by_cases h1 : s ∈ w.cfg.kernelSrcs
    · rw [if_pos h1]
      dsimp only
      have hprops := eolSweepRels_props s w.cfg.eolReleases w t
      have hwf2 := eolSweepRels_WF s w.cfg.eolReleases w t hwf
      by_cases hs : src = s
      · apply eolSweepGo_mono_none
        rw [← hs] at *
        exact eolSweepRels_deletes src w.cfg.eolReleases w t hwf hu ha R hR
      · apply ih _ _ hwf2 (by rw [hprops.2.1]; exact hu) (by rw [hprops.2.1]; exact ha)
          src R (by rw [hprops.1]; exact hk) (by rw [hprops.1]; exact hR)
        rcases hc with hc | hc
        · cases hc with
          | head => exact absurd rfl hs
          | tail _ h2 => exact Or.inl h2
        · right
          rw [eolSweepRels_frame s w.cfg.eolReleases w t src R (fun hh => hs hh.1)]
          exact hc
    · rw [if_neg h1]
      by_cases hs : src = s
      · rcases hc with hc | hc
        · exact absurd (hs ▸ hk) h1
        · exact ih w t hwf hu ha src R hk hR (Or.inr hc)
      · apply ih w t hwf hu ha src R hk hR
        rcases hc with hc | hc
        · cases hc with
          | head => exact absurd rfl hs
          | tail _ h2 => exact Or.inl h2
        · exact Or.inr hc

theorem eolSweepGo_noop :
    ∀ (srcs : List String) (w : World) (t : Bool),
      (∀ src ∈ srcs, src ∈ w.cfg.kernelSrcs → ∀ R ∈ w.cfg.eolReleases,
        (getTask w src R).isSome = true → w.opt.allowEolTasks = true) →
      eolSweepGo srcs w t = (w, t) := by
  intro srcs
  induction srcs with
  | nil => intro w t h; rfl
  | cons src rest ih =>
    intro w t h
    show (if src ∈ w.cfg.kernelSrcs then _ else _ : World × Bool) = (w, t)
    by_cases h1 : src ∈ w.cfg.kernelSrcs
    · rw [if_pos h1]
      dsimp only
      rw [eolSweepRels_noop src w.cfg.eolReleases w t
        (fun R hR => h src (List.mem_cons_self _ _) h1 R hR)]
      exact ih w t (fun s hs => h s (List.mem_cons_of_mem _ hs))
    · rw [if_neg h1]
      exact ih w t (fun s hs => h s (List.mem_cons_of_mem _ hs))

/-! Top-level sweep facts. -/

theorem eolSweep_props (w : World) :
    (eolSweep w).1.cfg = w.cfg ∧
    (eolSweep w).1.opt = w.opt ∧
    (eolSweep w).1.data = w.data ∧
    (eolSweep w).1.bug.title = w.bug.title ∧
    (eolSweep w).1.bug.tags = w.bug.tags ∧
    (eolSweep w).1.bug.description = w.bug.description ∧
    (eolSweep w).1.bug.noms = w.bug.noms ∧
    (eolSweep w).1.bug.tasks.map Prod.fst = w.bug.tasks.map Prod.fst :=
  eolSweepGo_props (w.bug.tasks.map Prod.fst) w false

theorem eolSweep_frame_rel (w : World) (s2 R : String) (h : R ∉ w.cfg.eolReleases) :
    getTask (eolSweep w).1 s2 R = getTask w s2 R :=
  eolSweepGo_frame_rel (w.bug.tasks.map Prod.fst) w false s2 R h

theorem eolSweep_WF (w : World) (h : WF w) : WF (eolSweep w).1 :=
  eolSweepGo_WF (w.bug.tasks.map Prod.fst) w false h

theorem eolSweep_deletes (w : World) (hwf : WF w) (hu : w.opt.update = true)
    (ha : w.opt.allowEolTasks = false) (src R : String)
    (hk : src ∈ w.cfg.kernelSrcs) (hR : R ∈ w.cfg.eolReleases) :
    getTask (eolSweep w).1 src R = none := by
  apply eolSweepGo_deletes (w.bug.tasks.map Prod.fst) w false hwf hu ha src R hk hR
  cases hsrc : alookup w.bug.tasks src with
  | none =>
    right
    unfold getTask
    rw [hsrc]
    rfl
  | some m =>
    left
    rw [← alookup_isSome_iff]
    rw [hsrc]
    rfl

theorem eolSweep_noop (w : World)
    (h : ∀ src ∈ w.bug.tasks.map Prod.fst, src ∈ w.cfg.kernelSrcs →
      ∀ R ∈ w.cfg.eolReleases, (getTask w src R).isSome = true →
      w.opt.allowEolTasks = true) :
    eolSweep w = (w, false) :=
  eolSweepGo_noop (w.bug.tasks.map Prod.fst) w false h



/-! ## Phase-level effect lemmas -/

theorem getTask_outer_isSome {w : World} {s r : String} {tk : Task}
    (h : getTask w s r = some tk) : (alookup w.bug.tasks s).isSome = true := by
  unfold getTask at h
  cases hm : alookup w.bug.tasks s with
  | none => rw [hm] at h; cases h
  | some m => rfl

theorem getState_outer_isSome {w : World} {s r : String} {st : State × String}
    (h : getState w s r = some st) : (alookup w.data.pkgs s).isSome = true := by
  unfold getState at h
  cases hm : alookup w.data.pkgs s with
  | none => rw [hm] at h; cases h
  | some m => rfl

theorem nodup_map_ne {α β : Type} {l : List α} {f : α → β} (h : (l.map f).Nodup)
    {a b : α} (ha : a ∈ l) (hb : b ∈ l) (hne : a ≠ b) : f a ≠ f b := by
  induction l with
  | nil => cases ha
  | cons x t ih =>
    simp only [List.map_cons, List.nodup_cons] at h
    cases ha with
    | head =>
      cases hb with
      | head => exact absurd rfl hne
      | tail _ hb2 =>
        intro hf
        exact h.1 (hf ▸ List.mem_map_of_mem f hb2)
    | tail _ ha2 =>
      cases hb with
      | head =>
        intro hf
        exact h.1 (hf ▸ List.mem_map_of_mem f ha2)
      | tail _ hb2 => exact ih h.2 ha2 hb2

theorem getState_mem_rels {w : World} {s r : String} {st : State × String}
    (h : getState w s r = some st) :
    r ∈ ((alookup w.data.pkgs s).getD []).map Prod.fst := by
  unfold getState at h
  cases hm : alookup w.data.pkgs s with
  | none => rw [hm] at h; cases h
  | some m =>
    rw [hm] at h
    simp only [Option.some_bind] at h
    show r ∈ m.map Prod.fst
    rw [← alookup_isSome_iff, h]
    rfl

/-- The dictionary facts the loop lemmas need at a processed cell, extracted from
    well-formedness. -/
theorem cell_facts {w : World} (hwf : WF w) {src r : String} {st : State × String}
    (hS : getState w src r = some st) :
    (w.data.pkgs.map Prod.fst).Nodup ∧
    src ∈ w.data.pkgs.map Prod.fst ∧
    (((alookup w.data.pkgs src).getD []).map Prod.fst).Nodup ∧
    r ∈ ((alookup w.data.pkgs src).getD []).map Prod.fst ∧
    (∀ r2 ∈ ((alookup w.data.pkgs src).getD []).map Prod.fst, r2 ≠ r →
      develMap w.cfg r2 ≠ develMap w.cfg r) := by
  cases hm : alookup w.data.pkgs src with
  | none =>
    unfold getState at hS
    rw [hm] at hS
    cases hS
  | some m =>
    have hkeys : src ∈ w.data.pkgs.map Prod.fst := by
      rw [← alookup_isSome_iff, hm]; rfl
    have hnd := hwf.relsNodup hm
    have hrm : r ∈ m.map Prod.fst := by
      have := getState_mem_rels hS
      rwa [hm] at this
    refine ⟨hwf.pkgsKeysNodup, hkeys, ?_, ?_, ?_⟩
    · show (m.map Prod.fst).Nodup
      exact hnd.1
    · show r ∈ m.map Prod.fst
      exact hrm
    · intro r2 hr2 hne
      have hr2m : r2 ∈ m.map Prod.fst := hr2
      exact nodup_map_ne hnd.2 hr2m hrm hne

theorem vSetStatus_live_status (task : Task) (x : Status) :
    ∃ tk, vSetStatus true (some task) x = (some tk, decide (task.status ≠ x)) ∧
      tk.status = x := by
  unfold vSetStatus
  by_cases h : task.status = x
  · exact ⟨task, by simp [h], h⟩
  · exact ⟨{ task with status := x }, by simp [h], rfl⟩

theorem vSetImportance_keeps_status (u : Bool) (v : Option Task) (imp : Importance)
    {tk : Task} (hv : v = some tk) :
    ∃ tk2, (vSetImportance u v imp).1 = some tk2 ∧ tk2.status = tk.status := by
  subst hv
  unfold vSetImportance
  by_cases h : tk.importance = imp
  · exact ⟨tk, by simp [h], rfl⟩
  · cases u with
    | true => exact ⟨{ tk with importance := imp }, by simp [h], rfl⟩
    | false => exact ⟨tk, by simp [h], rfl⟩

/-- The record component of the phase-1 transformer output is the unchanged entry. -/
theorem phase1RelV_state (cfg : Config) (opt : Opt) (data : Record) (src rel : String)
    (st : State × String) (task : Task)
    (hg : ¬(develMap cfg rel = "" ∨ develMap cfg rel = "upstream" ∨
      develMap cfg rel ∈ cfg.eolReleases))
    (hp : ¬(develMap cfg rel = "product" ∨ develMap cfg rel = "snap")) :
    ((phase1RelV cfg opt data src rel (some st, some task)).1).1 = some st := by
  unfold phase1RelV
  rw [if_neg hg, if_neg hp]
  dsimp only
  by_cases h1 : st.1 = State.DNE
  · rw [if_pos h1]
  · rw [if_neg h1]
    by_cases h2 : st.1 = State.pending ∧ pendingEligible task.status
    · rw [if_pos h2]
    · rw [if_neg h2]
      by_cases h3 : st.1 = State.released
      · rw [if_pos h3]
      · rw [if_neg h3]
        by_cases h4 : (st.1 = State.notAffected ∨ st.1 = State.ignored) ∧
            task.status = Status.New
        · rw [if_pos h4]
        · rw [if_neg h4]
          by_cases h5 : st.1 = State.deferred
          · rw [if_pos h5]
          · rw [if_neg h5]

/-- The task component of the phase-1 transformer output in live mode: the transition
    table of the spec, with the importance update never touching the status. -/
theorem phase1RelV_status (cfg : Config) (opt : Opt) (data : Record) (src rel : String)
    (st : State × String) (task : Task) (hupd : opt.update = true)
    (hg : ¬(develMap cfg rel = "" ∨ develMap cfg rel = "upstream" ∨
      develMap cfg rel ∈ cfg.eolReleases))
    (hp : ¬(develMap cfg rel = "product" ∨ develMap cfg rel = "snap")) :
    ∃ task2, ((phase1RelV cfg opt data src rel (some st, some task)).1).2 = some task2 ∧
      task2.status =
        (if st.1 = .DNE then .Invalid
         else if st.1 = .pending ∧ pendingEligible task.status then .FixCommitted
         else if st.1 = .released then .FixReleased
         else if (st.1 = .notAffected ∨ st.1 = .ignored) ∧ task.status = .New then .Invalid
         else task.status) := by
  unfold phase1RelV
  rw [if_neg hg, if_neg hp]
  dsimp only
  rw [hupd]
  by_cases h1 : st.1 = State.DNE
  · rw [if_pos h1, if_pos h1]
    obtain ⟨tk, htk, hts⟩ := vSetStatus_live_status task .Invalid
    rw [htk]
    obtain ⟨tk2, htk2, hts2⟩ := vSetImportance_keeps_status true (some tk)
      (priority_to_importance (contextual_priority data src rel)) rfl
    exact ⟨tk2, htk2, hts2.trans hts⟩
  · rw [if_neg h1, if_neg h1]
    by_cases h2 : st.1 = State.pending ∧ pendingEligible task.status
    · rw [if_pos h2, if_pos h2]
      obtain ⟨tk, htk, hts⟩ := vSetStatus_live_status task .FixCommitted
      rw [htk]
      obtain ⟨tk2, htk2, hts2⟩ := vSetImportance_keeps_status true (some tk)
        (priority_to_importance (contextual_priority data src rel)) rfl
      exact ⟨tk2, htk2, hts2.trans hts⟩
    · rw [if_neg h2, if_neg h2]
      by_cases h3 : st.1 = State.released
      · rw [if_pos h3, if_pos h3]
        obtain ⟨tk, htk, hts⟩ := vSetStatus_live_status task .FixReleased
        rw [htk]
        obtain ⟨tk2, htk2, hts2⟩ := vSetImportance_keeps_status true (some tk)
          (priority_to_importance (contextual_priority data src rel)) rfl
        exact ⟨tk2, htk2, hts2.trans hts⟩
      · rw [if_neg h3, if_neg h3]
        by_cases h4 : (st.1 = State.notAffected ∨ st.1 = State.ignored) ∧
            task.status = Status.New
        · rw [if_pos h4, if_pos h4]
          obtain ⟨tk, htk, hts⟩ := vSetStatus_live_status task .Invalid
          rw [htk]
          obtain ⟨tk2, htk2, hts2⟩ := vSetImportance_keeps_status true (some tk)
            (priority_to_importance (contextual_priority data src rel)) rfl
          exact ⟨tk2, htk2, hts2.trans hts⟩
        · rw [if_neg h4, if_neg h4]
          by_cases h5 : st.1 = State.deferred
          · rw [if_pos h5]
            exact ⟨task, rfl, rfl⟩
          · rw [if_neg h5]
            obtain ⟨tk2, htk2, hts2⟩ := vSetImportance_keeps_status true (some task)
              (priority_to_importance (contextual_priority data src rel)) rfl
            exact ⟨tk2, htk2, hts2⟩

/-- Scenario A: a pending record entry over a New task raises touched. -/
theorem phase1RelV_touchA (cfg : Config) (opt : Opt) (data : Record) (src rel : String)
    (st : State × String) (task : Task)
    (hg : ¬(develMap cfg rel = "" ∨ develMap cfg rel = "upstream" ∨
      develMap cfg rel ∈ cfg.eolReleases))
    (hp : ¬(develMap cfg rel = "product" ∨ develMap cfg rel = "snap"))
    (hpend : st.1 = State.pending) (hnew : task.status = Status.New) :
    (phase1RelV cfg opt data src rel (some st, some task)).2 = true := by
  unfold phase1RelV
  rw [if_neg hg, if_neg hp]
  dsimp only
  have h1 : ¬(st.1 = State.DNE) := by rw [hpend]; intro h; cases h
  have h2 : st.1 = State.pending ∧ pendingEligible task.status := by
    refine ⟨hpend, ?_⟩
    rw [hnew]
    right; left; rfl
  rw [if_neg h1, if_pos h2]
  have : (vSetStatus opt.update (some task) Status.FixCommitted).2 = true := by
    unfold vSetStatus
    dsimp only
    rw [if_neg (show ¬(task.status = Status.FixCommitted) by rw [hnew]; intro h; cases h)]
    cases opt.update <;> simp
  dsimp only
  rw [this]
  rfl

/-- The effect of phase 1 on one processed, non-deferred cell, in live mode: the
    transition table of the spec, the no-state-write guarantee, and the touched flag
    of the Scenario A shape. -/
theorem phase1_cell_effect (w : World) (hwf : WF w) (hupd : w.opt.update = true)
    (src rel : String) (s1 : State) (note : String) (task : Task)
    (hkernel : src ∈ w.cfg.kernelSrcs)
    (hS : getState w src rel = some (s1, note))
    (hT : getTask w src (develMap w.cfg rel) = some task)
    (hg3 : develMap w.cfg rel ∉ w.cfg.eolReleases)
    (hg1 : develMap w.cfg rel ≠ "") (hg2 : develMap w.cfg rel ≠ "upstream")
    (hg4 : develMap w.cfg rel ≠ "product") (hg5 : develMap w.cfg rel ≠ "snap")
    (hdef : s1 ≠ State.deferred) :
    getState (sync_to_bug_phase1 w).1 src rel = some (s1, note) ∧
    (∃ task2, getTask (sync_to_bug_phase1 w).1 src (develMap w.cfg rel) = some task2 ∧
      task2.status =
        (if s1 = .DNE then .Invalid
         else if s1 = .pending ∧ pendingEligible task.status then .FixCommitted
         else if s1 = .released then .FixReleased
         else if (s1 = .notAffected ∨ s1 = .ignored) ∧ task.status = .New then .Invalid
         else task.status)) ∧
    (s1 = .pending → task.status = .New → (sync_to_bug_phase1 w).2 = true) := by
  -- the sweep before the main loop
  have hsw := eolSweep_props w
  set w1 := (eolSweep w).1 with hw1
  have hS1 : getState w1 src rel = some (s1, note) := by
    rw [getState_congr hsw.2.2.1 src rel]; exact hS
  have hT1 : getTask w1 src (develMap w.cfg rel) = some task := by
    rw [eolSweep_frame_rel w src _ hg3]; exact hT
  have hwf1 : WF w1 := eolSweep_WF w hwf
  have hcfg1 : w1.cfg = w.cfg := hsw.1
  have hopt1 : w1.opt = w.opt := hsw.2.1
  -- loop facts at w1
  have hfacts : (w1.data.pkgs.map Prod.fst).Nodup ∧
      src ∈ w1.data.pkgs.map Prod.fst ∧
      (((alookup w1.data.pkgs src).getD []).map Prod.fst).Nodup ∧
      rel ∈ ((alookup w1.data.pkgs src).getD []).map Prod.fst ∧
      (∀ r2 ∈ ((alookup w1.data.pkgs src).getD []).map Prod.fst, r2 ≠ rel →
        develMap w1.cfg r2 ≠ develMap w1.cfg rel) := cell_facts hwf1 hS1
  have htk1 : (alookup w1.bug.tasks src).isSome = true := getTask_outer_isSome hT1
  have htgt := pkgLoopGo_target phase1Rel
    (phase1RelV w1.cfg w1.opt w1.data) w1
    (fun w s r => phase1Rel_same w s r)
    (fun w s r s2 r2 hc hcf => phase1Rel_frame w1.cfg w s r s2 r2 hc hcf)
    (fun w hw s r => phase1Rel_cell w1 w hw s r)
    src rel (hcfg1 ▸ hkernel) htk1 hfacts.2.2.1 hfacts.2.2.2.1
    (fun r2 h2 hne => hfacts.2.2.2.2 r2 h2 hne)
    (w1.data.pkgs.map Prod.fst) w1 (eolSweep w).2 (SameC.refl w1)
    hfacts.1 hfacts.2.1
  have hres : sync_to_bug_phase1 w =
      pkgLoopGo phase1Rel (w1.data.pkgs.map Prod.fst) w1 (eolSweep w).2 := rfl
  -- evaluate the view transformer at the cell
  have hview : view w1.cfg w1 src rel = (some (s1, note), some task) := by
    unfold view
    rw [hS1, hcfg1, hT1]
  have hguard : ¬(develMap w1.cfg rel = "" ∨ develMap w1.cfg rel = "upstream" ∨
      develMap w1.cfg rel ∈ w1.cfg.eolReleases) := by
    rw [hcfg1]
    rintro (h | h | h)
    · exact hg1 h
    · exact hg2 h
    · exact hg3 h
  have hguard2 : ¬(develMap w1.cfg rel = "product" ∨ develMap w1.cfg rel = "snap") := by
    rw [hcfg1]
    rintro (h | h)
    · exact hg4 h
    · exact hg5 h
  have hupd1 : w1.opt.update = true := by rw [hopt1]; exact hupd
  rw [hview] at htgt
  refine ⟨?_, ?_, ?_⟩
  · have h1 := congrArg Prod.fst htgt.1
    have h2 : getState (sync_to_bug_phase1 w).1 src rel =
        ((phase1RelV w1.cfg w1.opt w1.data src rel
          (some (s1, note), some task)).1).1 := h1
    rw [h2, phase1RelV_state _ _ _ _ _ _ _ hguard hguard2]
  · have h1 := congrArg Prod.snd htgt.1
    have h2 : getTask (sync_to_bug_phase1 w).1 src (develMap w1.cfg rel) =
        ((phase1RelV w1.cfg w1.opt w1.data src rel
          (some (s1, note), some task)).1).2 := h1
    obtain ⟨task2, htk2, hst2⟩ := phase1RelV_status w1.cfg w1.opt w1.data src rel
      (s1, note) task hupd1 hguard hguard2
    refine ⟨task2, ?_, hst2⟩
    rw [← hcfg1, h2, htk2]
  · intro hpend hnew
    exact htgt.2 (phase1RelV_touchA w1.cfg w1.opt w1.data src rel (s1, note) task
      hguard hguard2 hpend hnew)

end SyncBugsKernel


namespace SyncBugsKernel

theorem scanBreakFix_world (w : World) :
    ∀ (lines : List String) (t : Bool), (scanBreakFix w t lines).1 = w := by
  intro lines
  induction lines with
  | nil => intro t; rfl
  | cons l rest ih =>
    intro t
    simp only [scanBreakFix]
    by_cases h : (sStartsWith (sTrim l) "Add-Break-Fix:" ||
        sStartsWith (sTrim l) "Del-Break-Fix:") = true
    · rw [if_pos h]
      by_cases h2 : (breakFixShas (sTrim l)).length > 0
      · rw [if_pos h2]
      · rw [if_neg h2]
        exact ih true
    · rw [if_neg h]
      exact ih t

theorem vSetState_live (st : State × String) (x : State) :
    (vSetState true (some st) x).1 = some (x, st.2) := by
  unfold vSetState
  dsimp only
  by_cases h : st.1 = x
  · rw [if_pos h]
    exact congrArg some (by rw [← h])
  · rw [if_neg h]
    rfl

/-- The phase-2 transformer at a processed cell, in live mode. -/
theorem phase2RelV_eval (cfg : Config) (opt : Opt) (src rel : String)
    (st : State × String) (task : Task) (hupd : opt.update = true)
    (hg : ¬(develMap cfg rel = "" ∨ develMap cfg rel = "upstream" ∨
      develMap cfg rel ∈ cfg.eolReleases))
    (hdef : st.1 ≠ State.deferred) :
    (phase2RelV cfg opt src rel (some st, some task)).1 =
      (some ((if task.status = .Confirmed ∨ task.status = .Triaged ∨
          task.status = .InProgress then State.needed
        else if task.status = .New ∧ st.1 ≠ .needed then State.needsTriage
        else if task.status = .Invalid ∧ ¬(st.1 = .DNE ∨ st.1 = .ignored) then
          State.notAffected
        else st.1), st.2), some task) := by
  unfold phase2RelV
  rw [if_neg hg]
  dsimp only
  rw [if_neg hdef]
  by_cases h2 : task.status = Status.Confirmed ∨ task.status = Status.Triaged ∨
      task.status = Status.InProgress
  · simp only [if_pos h2, hupd, vSetState_live]
  · simp only [if_neg h2]
    by_cases h3 : task.status = Status.New ∧ st.1 ≠ State.needed
    · simp only [if_pos h3, hupd, vSetState_live]
    · simp only [if_neg h3]
      by_cases h4 : task.status = Status.Invalid ∧
          ¬(st.1 = State.DNE ∨ st.1 = State.ignored)
      · simp only [if_pos h4, hupd, vSetState_live]
      · simp only [if_neg h4]

/-- The effect of phase 2 on one processed, non-deferred cell in live mode: the pull
    rules, and no remote write. -/
theorem phase2_cell_effect (w : World) (hwf : WF w) (hupd : w.opt.update = true)
    (src rel : String) (s1 : State) (note : String) (task : Task)
    (hkernel : src ∈ w.cfg.kernelSrcs)
    (hS : getState w src rel = some (s1, note))
    (hT : getTask w src (develMap w.cfg rel) = some task)
    (hg1 : develMap w.cfg rel ≠ "") (hg2 : develMap w.cfg rel ≠ "upstream")
    (hg3 : develMap w.cfg rel ∉ w.cfg.eolReleases)
    (hdef : s1 ≠ State.deferred) :
    getState (sync_from_bug_phase2 w).1 src rel =
      some ((if task.status = .Confirmed ∨ task.status = .Triaged ∨
          task.status = .InProgress then State.needed
        else if task.status = .New ∧ s1 ≠ .needed then State.needsTriage
        else if task.status = .Invalid ∧ ¬(s1 = .DNE ∨ s1 = .ignored) then
          State.notAffected
        else s1), note) ∧
    getTask (sync_from_bug_phase2 w).1 src (develMap w.cfg rel) = some task := by
  have hfacts := cell_facts hwf hS
  have htk : (alookup w.bug.tasks src).isSome = true := getTask_outer_isSome hT
  have htgt := pkgLoopGo_target phase2Rel (phase2RelV w.cfg w.opt) w
    (fun w2 s r => phase2Rel_same w2 s r)
    (fun w2 s r s2 r2 hc hcf => phase2Rel_frame w.cfg w2 s r s2 r2 hc hcf)
    (fun w2 hw s r => phase2Rel_cell w w2 hw s r)
    src rel hkernel htk hfacts.2.2.1 hfacts.2.2.2.1
    (fun r2 h2 hne => hfacts.2.2.2.2 r2 h2 hne)
    (w.data.pkgs.map Prod.fst) w false (SameC.refl w)
    hfacts.1 hfacts.2.1
  have hview : view w.cfg w src rel = (some (s1, note), some task) := by
    unfold view
    rw [hS, hT]
  rw [hview] at htgt
  have hguard : ¬(develMap w.cfg rel = "" ∨ develMap w.cfg rel = "upstream" ∨
      develMap w.cfg rel ∈ w.cfg.eolReleases) := by
    rintro (h | h | h)
    · exact hg1 h
    · exact hg2 h
    · exact hg3 h
  have hworld : (sync_from_bug_phase2 w).1 =
      (pkgLoopGo phase2Rel (w.data.pkgs.map Prod.fst) w false).1 := by
    show (scanBreakFix _ _ _).1 = _
    rw [scanBreakFix_world]
    rfl
  have heval := phase2RelV_eval w.cfg w.opt src rel (s1, note) task hupd hguard hdef
  rw [heval] at htgt
  constructor
  · have h1 := congrArg Prod.fst htgt.1
    rw [hworld]
    exact h1
  · have h1 := congrArg Prod.snd htgt.1
    rw [hworld]
    exact h1

end SyncBugsKernel

namespace SyncBugsKernel

/-! ## The claims -/

/-- Claim C3: the phase-1 transition table.  For a (package, release) present in both
    the record and the task map, not deferred and with the resolved release not
    EOL/empty/upstream/product/snap, sync_to_bug_phase1 leaves the local state
    unchanged and sets the remote status by the table: DNE -> Invalid from any status;
    pending -> Fix Committed only from an eligible status; released -> Fix Released
    from any status; not-affected/ignored -> Invalid only from New; otherwise the
    status is unchanged.  In particular pending over New yields Fix Committed with
    touched = true. -/
theorem C3_phase1_transition_table (w : World) (hwf : WF w) (hupd : w.opt.update = true)
    (src rel : String) (s1 : State) (note : String) (task : Task)
    (hkernel : src ∈ w.cfg.kernelSrcs)
    (hS : getState w src rel = some (s1, note))
    (hT : getTask w src (develMap w.cfg rel) = some task)
    (hg3 : develMap w.cfg rel ∉ w.cfg.eolReleases)
    (hg1 : develMap w.cfg rel ≠ "") (hg2 : develMap w.cfg rel ≠ "upstream")
    (hg4 : develMap w.cfg rel ≠ "product") (hg5 : develMap w.cfg rel ≠ "snap")
    (hdef : s1 ≠ State.deferred) :
    getState (sync_to_bug_phase1 w).1 src rel = some (s1, note) ∧
    (∃ task2, getTask (sync_to_bug_phase1 w).1 src (develMap w.cfg rel) = some task2 ∧
      task2.status =
        (if s1 = .DNE then .Invalid
         else if s1 = .pending ∧ pendingEligible task.status then .FixCommitted
         else if s1 = .released then .FixReleased
         else if (s1 = .notAffected ∨ s1 = .ignored) ∧ task.status = .New then .Invalid
         else task.status)) ∧
    (s1 = .pending → task.status = .New →
      (∃ task2, getTask (sync_to_bug_phase1 w).1 src (develMap w.cfg rel) = some task2 ∧
        task2.status = .FixCommitted) ∧
      (sync_to_bug_phase1 w).2 = true) := by
  obtain ⟨h1, ⟨task2, ht2, hst2⟩, h3⟩ :=
    phase1_cell_effect w hwf hupd src rel s1 note task hkernel hS hT hg3 hg1 hg2 hg4 hg5 hdef
  refine ⟨h1, ⟨task2, ht2, hst2⟩, fun hpend hnew => ⟨⟨task2, ht2, ?_⟩, h3 hpend hnew⟩⟩
  rw [hst2, hpend, hnew]
  decide

/-- Witness for C3: the concrete Scenario A world, local pending over remote New. -/
theorem C3_phase1_transition_table_witness :
    (cW State.pending Status.New).opt.update = true ∧
    ((∃ task2, getTask (sync_to_bug_phase1 (cW State.pending Status.New)).1 "linux"
        (develMap (cW State.pending Status.New).cfg "noble") = some task2 ∧
        task2.status = Status.FixCommitted) ∧
      (sync_to_bug_phase1 (cW State.pending Status.New)).2 = true) :=
  ⟨rfl, (C3_phase1_transition_table (cW State.pending Status.New) (by decide) rfl
    "linux" "noble" State.pending "note" { status := .New, importance := .Medium }
    (by decide) (by decide) (by decide) (by decide) (by decide) (by decide)
    (by decide) (by decide) (by decide)).2.2 rfl rfl⟩

/-- Claim C4, counterexample: a task with remote status Won t Fix and local state
    released (which is not DNE) has its status changed to Fix Released by phase 1,
    against the claim that only DNE may change such a task. -/
theorem C4_wontfix_downgrade_counterexample :
    getTask (cW State.released Status.WontFix) "linux" "noble" =
      some { status := Status.WontFix, importance := Importance.Medium } ∧
    State.released ≠ State.DNE ∧
    getTask (sync_to_bug_phase1 (cW State.released Status.WontFix)).1 "linux" "noble" =
      some { status := Status.FixReleased, importance := Importance.Medium } := by
  refine ⟨rfl, by decide, ?_⟩
  rfl

/-- Claim C4, amended: for a task whose status is Fix Released or Won t Fix, phase 1
    keeps the status except that local DNE sets Invalid and local released sets
    Fix Released (the latter an unconditional assignment the original claim missed). -/
theorem C4_no_downgrade_amended (w : World) (hwf : WF w) (hupd : w.opt.update = true)
    (src rel : String) (s1 : State) (note : String) (task : Task)
    (hkernel : src ∈ w.cfg.kernelSrcs)
    (hS : getState w src rel = some (s1, note))
    (hT : getTask w src (develMap w.cfg rel) = some task)
    (hg3 : develMap w.cfg rel ∉ w.cfg.eolReleases)
    (hg1 : develMap w.cfg rel ≠ "") (hg2 : develMap w.cfg rel ≠ "upstream")
    (hg4 : develMap w.cfg rel ≠ "product") (hg5 : develMap w.cfg rel ≠ "snap")
    (hdef : s1 ≠ State.deferred)
    (hstat : task.status = Status.FixReleased ∨ task.status = Status.WontFix) :
    ∃ task2, getTask (sync_to_bug_phase1 w).1 src (develMap w.cfg rel) = some task2 ∧
      task2.status = (if s1 = State.DNE then Status.Invalid
        else if s1 = State.released then Status.FixReleased
        else task.status) := by
  obtain ⟨_, ⟨task2, ht2, hst2⟩, _⟩ :=
    phase1_cell_effect w hwf hupd src rel s1 note task hkernel hS hT hg3 hg1 hg2 hg4 hg5 hdef
  refine ⟨task2, ht2, ?_⟩
  rw [hst2]
  rcases hstat with h | h <;> rw [h] <;> cases s1 <;> decide

/-- Witness for the amended C4: a Won t Fix task over local state needed is untouched. -/
theorem C4_no_downgrade_amended_witness :
    (cW State.needed Status.WontFix).opt.update = true ∧
    (∃ task2, getTask (sync_to_bug_phase1 (cW State.needed Status.WontFix)).1 "linux"
        (develMap (cW State.needed Status.WontFix).cfg "noble") = some task2 ∧
      task2.status = (if State.needed = State.DNE then Status.Invalid
        else if State.needed = State.released then Status.FixReleased
        else Status.WontFix)) :=
  ⟨rfl, C4_no_downgrade_amended (cW State.needed Status.WontFix) (by decide) rfl
    "linux" "noble" State.needed "note" { status := .WontFix, importance := .Medium }
    (by decide) (by decide) (by decide) (by decide) (by decide) (by decide)
    (by decide) (by decide) (by decide) (Or.inr rfl)⟩

/-- Claim C7: the phase-2 pull rules.  For a (package, release) present in both
    stores, not deferred and with the resolved release not EOL/empty/upstream,
    sync_from_bug_phase2 sets the local state to needed when the remote status is
    Confirmed/Triaged/In Progress, to needs-triage when it is New and the local state
    is not needed, to not-affected when it is Invalid and the local state is neither
    DNE nor ignored, and leaves it unchanged otherwise; the note and the remote task
    are unchanged. -/
theorem C7_phase2_pull_rules (w : World) (hwf : WF w) (hupd : w.opt.update = true)
    (src rel : String) (s1 : State) (note : String) (task : Task)
    (hkernel : src ∈ w.cfg.kernelSrcs)
    (hS : getState w src rel = some (s1, note))
    (hT : getTask w src (develMap w.cfg rel) = some task)
    (hg1 : develMap w.cfg rel ≠ "") (hg2 : develMap w.cfg rel ≠ "upstream")
    (hg3 : develMap w.cfg rel ∉ w.cfg.eolReleases)
    (hdef : s1 ≠ State.deferred) :
    getState (sync_from_bug_phase2 w).1 src rel =
      some ((if task.status = .Confirmed ∨ task.status = .Triaged ∨
          task.status = .InProgress then State.needed
        else if task.status = .New ∧ s1 ≠ .needed then State.needsTriage
        else if task.status = .Invalid ∧ ¬(s1 = .DNE ∨ s1 = .ignored) then
          State.notAffected
        else s1), note) ∧
    getTask (sync_from_bug_phase2 w).1 src (develMap w.cfg rel) = some task :=
  phase2_cell_effect w hwf hupd src rel s1 note task hkernel hS hT hg1 hg2 hg3 hdef

/-- Witness for C7: a Confirmed task pulls the local state to needed. -/
theorem C7_phase2_pull_rules_witness :
    (cW State.needsTriage Status.Confirmed).opt.update = true ∧
    getState (sync_from_bug_phase2 (cW State.needsTriage Status.Confirmed)).1
      "linux" "noble" = some (State.needed, "note") :=
  ⟨rfl, by
    have h := (C7_phase2_pull_rules (cW State.needsTriage Status.Confirmed) (by decide)
      rfl "linux" "noble" State.needsTriage "note"
      { status := .Confirmed, importance := .Medium }
      (by decide) (by decide) (by decide) (by decide) (by decide) (by decide)
      (by decide)).1
    rw [h]
    rfl⟩

end SyncBugsKernel

namespace SyncBugsKernel

/-- Claim C5, counterexample: delete_task has no equality gate.  In the one situation
    where the deletion is already in effect, a task absent from the task map, the
    claim predicts a no-op returning touched = false, but delete_task first indexes
    taskdict src release and raises KeyError (modelled none) instead. -/
theorem C5_delete_task_gate_counterexample :
    getTask (cWnoTask State.needed) "linux" "noble" = none ∧
    delete_task (cWnoTask State.needed) "linux" "noble" "EoL" ≠
      some (cWnoTask State.needed, false) ∧
    delete_task (cWnoTask State.needed) "linux" "noble" "EoL" = none := by
  refine ⟨rfl, ?_, rfl⟩
  intro h
  cases h

/-- Claim C5, amended: set_task_status, set_task_importance, set_uct_state and
    set_bug_description each compare first and return touched = false with the world
    unchanged when the value is already current; delete_task does not: on a present
    task it always returns touched = true, and on an absent task it raises KeyError
    instead of a gated no-op. -/
theorem C5_equality_gate_amended (w : World) (src rel : String) (st : Status)
    (imp : Importance) (s : State) (d reason : String) :
    (∀ tk : Task, getTask w src rel = some tk → tk.status = st →
      set_task_status w src rel st = (w, false)) ∧
    (∀ tk : Task, getTask w src rel = some tk → tk.importance = imp →
      set_task_importance w src rel imp = (w, false)) ∧
    (∀ cur : State × String, getState w src rel = some cur → cur.1 = s →
      set_uct_state w src rel s = (w, false)) ∧
    (w.bug.description = sTrim d → set_bug_description w d = (w, false)) ∧
    (∀ tk : Task, getTask w src rel = some tk →
      ∃ w2, delete_task w src rel reason = some (w2, true)) ∧
    (getTask w src rel = none → delete_task w src rel reason = none) := by
  refine ⟨?_, ?_, ?_, ?_, ?_, ?_⟩
  · intro tk h heq
    rw [set_task_status_of_some st h, if_pos heq]
  · intro tk h heq
    rw [set_task_importance_of_some imp h, if_pos heq]
  · intro cur h heq
    rw [set_uct_state_of_some s h, if_pos heq]
  · intro heq
    unfold set_bug_description
    by_cases h1 : w.bug.description ≠ "Placeholder" ∧ sTrim d = "Description needed"
    · rw [if_pos h1]
    · rw [if_neg h1]
      by_cases h2 : UCT_DESC_IGNORE_TAG ∈ w.bug.tags
      · rw [if_pos h2]
      · rw [if_neg h2, if_neg (by rw [heq]; exact fun h => h rfl)]
  · intro tk h
    rw [delete_task_of_some reason h]
    by_cases hu : w.opt.update = true
    · exact ⟨_, by rw [if_pos hu]⟩
    · exact ⟨w, by rw [if_neg hu]⟩
  · intro h
    exact delete_task_of_none reason h

/-- Witness for the amended C5: writing the already-current status of the concrete
    world is a gated no-op. -/
theorem C5_equality_gate_amended_witness :
    getTask (cW State.needed Status.New) "linux" "noble" =
      some { status := Status.New, importance := Importance.Medium } ∧
    set_task_status (cW State.needed Status.New) "linux" "noble" Status.New =
      (cW State.needed Status.New, false) :=
  ⟨rfl, (C5_equality_gate_amended (cW State.needed Status.New) "linux" "noble"
    Status.New Importance.Medium State.needed "d" "EoL").1
    { status := Status.New, importance := Importance.Medium } rfl rfl⟩

/-- Claim C6: a Break-Fix directive line is never applied.  On a bug description
    holding an Add-Break-Fix line with a SHA, phase 2 aborts (the script calls
    del_uct_sha(data, shas) and add_uct_sha(data, shas) with two arguments against
    three parameters, a TypeError, and add_uct_sha itself raises ValueError TODO in
    live mode before any write), so the record's patch metadata is never edited. -/
theorem C6_break_fix_never_applied :
    (sync_from_bug_phase2 cWdirective).2 = none := rfl

/-- Claim C9: the description-writer guards.  set_bug_description is a no-op returning
    touched = false whenever the bug carries the do-not-touch tag, and whenever the
    current description differs from Placeholder while the proposed text trims to the
    fallback Description needed. -/
theorem C9_description_guards (w : World) (d : String) :
    (UCT_DESC_IGNORE_TAG ∈ w.bug.tags → set_bug_description w d = (w, false)) ∧
    (w.bug.description ≠ "Placeholder" → sTrim d = "Description needed" →
      set_bug_description w d = (w, false)) := by
  constructor
  · intro htag
    unfold set_bug_description
    by_cases h1 : w.bug.description ≠ "Placeholder" ∧ sTrim d = "Description needed"
    · rw [if_pos h1]
    · rw [if_neg h1, if_pos htag]
  · intro hp hd
    unfold set_bug_description
    rw [if_pos ⟨hp, hd⟩]

/-- Witness for C9: the tagged concrete world refuses a new description. -/
theorem C9_description_guards_witness :
    UCT_DESC_IGNORE_TAG ∈ cWtagged.bug.tags ∧
    set_bug_description cWtagged "new text" = (cWtagged, false) :=
  ⟨by decide, (C9_description_guards cWtagged "new text").1 (by decide)⟩

end SyncBugsKernel

namespace SyncBugsKernel

/-! ## Dry-run purity -/

theorem set_task_status_dry (w : World) (s r : String) (st : Status)
    (h : w.opt.update = false) : (set_task_status w s r st).1 = w := by
  cases hm : getTask w s r with
  | none => rw [set_task_status_of_none st hm]
  | some tk =>
    rw [set_task_status_of_some st hm]
    by_cases he : tk.status = st
    · rw [if_pos he]
    · rw [if_neg he, if_neg (show ¬w.opt.update = true by rw [h]; exact Bool.false_ne_true)]

theorem set_task_status_iff_exists_dry (w : World) (s r : String) (st : Status)
    (h : w.opt.update = false) : (set_task_status_iff_exists w s r st).1 = w := by
  cases hm : getTask w s r with
  | none => rw [set_task_status_iff_exists_of_none st hm]
  | some tk =>
    rw [set_task_status_iff_exists_of_some st hm]
    by_cases he : tk.status = st
    · rw [if_pos he]
    · rw [if_neg he, if_neg (show ¬w.opt.update = true by rw [h]; exact Bool.false_ne_true)]

theorem set_task_importance_dry (w : World) (s r : String) (imp : Importance)
    (h : w.opt.update = false) : (set_task_importance w s r imp).1 = w := by
  cases hm : getTask w s r with
  | none => rw [set_task_importance_of_none imp hm]
  | some tk =>
    rw [set_task_importance_of_some imp hm]
    by_cases he : tk.importance = imp
    · rw [if_pos he]
    · rw [if_neg he, if_neg (show ¬w.opt.update = true by rw [h]; exact Bool.false_ne_true)]

theorem set_uct_state_dry (w : World) (s r : String) (st : State)
    (h : w.opt.update = false) : (set_uct_state w s r st).1 = w := by
  cases hm : getState w s r with
  | none => rw [set_uct_state_of_none st hm]
  | some cur =>
    rw [set_uct_state_of_some st hm]
    by_cases he : cur.1 = st
    · rw [if_pos he]
    · rw [if_neg he, if_neg (show ¬w.opt.update = true by rw [h]; exact Bool.false_ne_true)]

theorem set_bug_description_dry (w : World) (d : String)
    (h : w.opt.update = false) : (set_bug_description w d).1 = w := by
  unfold set_bug_description
  dsimp only
  split
  · rfl
  split
  · rfl
  split
  · rw [if_pos (show (!w.opt.update) = true by rw [h]; rfl)]
  · rfl

theorem delete_task_dry (w : World) (s r reason : String) (tk : Task)
    (hm : getTask w s r = some tk) (h : w.opt.update = false) :
    delete_task w s r reason = some (w, true) := by
  rw [delete_task_of_some reason hm,
    if_neg (show ¬w.opt.update = true by rw [h]; exact Bool.false_ne_true)]

theorem relLoopGo_dry (cellF : World → String → String → World × Bool)
    (hcell : ∀ w s r, w.opt.update = false → (cellF w s r).1 = w) (src : String) :
    ∀ (rels : List String) (w : World) (t : Bool), w.opt.update = false →
      (relLoopGo cellF src rels w t).1 = w := by
  intro rels
  induction rels with
  | nil => intro w t h; rfl
  | cons rel rest ih =>
    intro w t h
    simp only [relLoopGo]
    rw [hcell w src rel h]
    exact ih w _ h

theorem pkgLoopGo_dry (cellF : World → String → String → World × Bool)
    (hcell : ∀ w s r, w.opt.update = false → (cellF w s r).1 = w) :
    ∀ (srcs : List String) (w : World) (t : Bool), w.opt.update = false →
      (pkgLoopGo cellF srcs w t).1 = w := by
  intro srcs
  induction srcs with
  | nil => intro w t h; rfl
  | cons src rest ih =>
    intro w t h
    simp only [pkgLoopGo]
    by_cases h1 : src ∈ w.cfg.kernelSrcs
    · rw [if_pos h1]
      by_cases h2 : (alookup w.bug.tasks src).isSome = true
      · rw [if_pos h2]
        rw [relLoopGo_dry cellF hcell src _ w t h]
        exact ih w _ h
      · rw [if_neg h2]
        exact ih w t h
    · rw [if_neg h1]
      exact ih w t h

theorem phase1Rel_dry (w : World) (src rel : String) (h : w.opt.update = false) :
    (phase1Rel w src rel).1 = w := by
  unfold phase1Rel
  dsimp only
  split
  · rfl
  split
  · rfl
  split
  · split
    · rw [set_task_status_iff_exists_dry _ _ _ _ h, set_task_importance_dry _ _ _ _ h]
    split
    · rw [set_task_status_dry _ _ _ _ h, set_task_importance_dry _ _ _ _ h]
    split
    · rw [set_task_status_dry _ _ _ _ h, set_task_importance_dry _ _ _ _ h]
    split
    · rw [set_task_status_dry _ _ _ _ h, set_task_importance_dry _ _ _ _ h]
    split
    · rfl
    · rw [set_task_importance_dry _ _ _ _ h]
  · rfl
  · rfl

theorem phase2Rel_dry (w : World) (src rel : String) (h : w.opt.update = false) :
    (phase2Rel w src rel).1 = w := by
  unfold phase2Rel
  dsimp only
  split
  · rfl
  split
  · split
    · rfl
    split
    · rw [set_uct_state_dry _ _ _ _ h]
    split
    · rw [set_uct_state_dry _ _ _ _ h]
    split
    · rw [set_uct_state_dry _ _ _ _ h]
    · rfl
  · rfl
  · rfl

theorem phase3Rel_dry (w : World) (src rel : String) (h : w.opt.update = false) :
    (phase3Rel w src rel).1 = w := by
  unfold phase3Rel
  dsimp only
  split
  · rfl
  split
  · split
    · rw [set_task_status_dry _ _ _ _ h]
    · rfl
  · rfl
  · rfl

theorem newBugRel_dry (w : World) (src rel : String) (h : w.opt.update = false) :
    (newBugRel w src rel).1 = w := by
  unfold newBugRel
  dsimp only
  split
  · rfl
  split
  · split
    · rfl
    split
    · rw [set_task_status_iff_exists_dry _ _ _ _ h]
    split
    · rw [set_task_status_dry _ _ _ _ h]
    split
    · rw [set_task_status_dry _ _ _ _ h]
    split
    · rw [set_task_status_dry _ _ _ _ h]
    · rfl
  · rfl
  · rfl


theorem eolSweepRels_dry (src : String) :
    ∀ (rels : List String) (w : World) (t : Bool), w.opt.update = false →
      (eolSweepRels src rels w t).1 = w := by
  intro rels
  induction rels with
  | nil => intro w t h; rfl
  | cons rel rest ih =>
    intro w t h
    simp only [eolSweepRels]
    by_cases hg : ((getTask w src rel).isSome && !w.opt.allowEolTasks) = true
    · rw [if_pos hg]
      have hsome : (getTask w src rel).isSome = true := by
        cases hb : (getTask w src rel).isSome
        · rw [hb] at hg; exact absurd hg (by simp)
        · rfl
      obtain ⟨tk, htk⟩ := Option.isSome_iff_exists.mp hsome
      rw [show set_task_eol w src rel = some (w, true) from
        delete_task_dry w src rel "EoL" tk htk h]
      exact ih w _ h
    · rw [if_neg hg]
      exact ih w t h

theorem eolSweepGo_dry :
    ∀ (srcs : List String) (w : World) (t : Bool), w.opt.update = false →
      (eolSweepGo srcs w t).1 = w := by
  intro srcs
  induction srcs with
  | nil => intro w t h; rfl
  | cons src rest ih =>
    intro w t h
    simp only [eolSweepGo]
    by_cases h1 : src ∈ w.cfg.kernelSrcs
    · rw [if_pos h1, eolSweepRels_dry src _ w t h]
      exact ih w _ h
    · rw [if_neg h1]
      exact ih w t h

theorem eolSweep_dry (w : World) (h : w.opt.update = false) : (eolSweep w).1 = w :=
  eolSweepGo_dry _ w false h

theorem sync_to_bug_phase1_dry (w : World) (h : w.opt.update = false) :
    (sync_to_bug_phase1 w).1 = w := by
  show (pkgLoop phase1Rel (eolSweep w).1 (eolSweep w).2).1 = w
  unfold pkgLoop
  rw [eolSweep_dry w h]
  exact pkgLoopGo_dry phase1Rel phase1Rel_dry _ w _ h

theorem sync_from_bug_phase2_dry (w : World) (h : w.opt.update = false) :
    (sync_from_bug_phase2 w).1 = w := by
  show (scanBreakFix (pkgLoop phase2Rel w false).1 _ _).1 = w
  rw [scanBreakFix_world]
  unfold pkgLoop
  exact pkgLoopGo_dry phase2Rel phase2Rel_dry _ w false h

theorem sync_to_bug_phase3_dry (w : World) (h : w.opt.update = false) :
    (sync_to_bug_phase3 w).1 = w := by
  show (_update_description_from_uct (pkgLoop phase3Rel w false).1).1 = w
  have hp : (pkgLoop phase3Rel w false).1 = w := by
    unfold pkgLoop; exact pkgLoopGo_dry phase3Rel phase3Rel_dry _ w false h
  unfold _update_description_from_uct
  rw [hp]
  exact set_bug_description_dry w _ h

theorem sync_new_bug_dry (w : World) (h : w.opt.update = false) :
    (sync_new_bug w).1 = w := by
  show (_update_description_from_uct (pkgLoop newBugRel w false).1).1 = w
  have hp : (pkgLoop newBugRel w false).1 = w := by
    unfold pkgLoop; exact pkgLoopGo_dry newBugRel newBugRel_dry _ w false h
  unfold _update_description_from_uct
  rw [hp]
  exact set_bug_description_dry w _ h

theorem refreshRelsGo_dry (src : String) :
    ∀ (rels : List String) (w : World) (verified : List String) (refresh : Bool),
      w.opt.update = false → (refreshRelsGo src rels w verified refresh).1 = w := by
  intro rels
  induction rels with
  | nil => intro w v r h; rfl
  | cons rel rest ih =>
    intro w v r h
    simp only [refreshRelsGo]
    by_cases h1 : rel ∈ w.cfg.eolReleases
    · rw [if_pos h1]; exact ih w v r h
    rw [if_neg h1]
    by_cases h2 : rel ∈ v
    · rw [if_pos h2]; exact ih w v r h
    rw [if_neg h2]
    by_cases h3 : (getTask w src rel).isSome = true
    · rw [if_pos h3]; exact ih w _ r h
    rw [if_neg h3]
    by_cases h4 : nominationUnneeded
        (getState w src (if rel = w.cfg.develRelease then "devel" else rel)) = true
    · rw [if_pos h4]; exact ih w v r h
    rw [if_neg h4]
    by_cases h5 : w.opt.allowMissingNominations = true
    · rw [if_pos h5]; exact ih w v r h
    rw [if_neg h5]
    rw [if_neg (show ¬w.opt.update = true by rw [h]; exact Bool.false_ne_true)]
    exact ih w _ true h

theorem refreshSrcsGo_dry :
    ∀ (srcs : List String) (w : World) (verified : List String) (refresh : Bool),
      w.opt.update = false → (refreshSrcsGo srcs w verified refresh).1 = w := by
  intro srcs
  induction srcs with
  | nil => intro w v r h; rfl
  | cons src rest ih =>
    intro w v r h
    simp only [refreshSrcsGo]
    by_cases h1 : (alookup w.bug.tasks src).isNone = true
    · rw [if_pos h1]
      by_cases h2 : uct_src_all_nominations_DNE w.cfg src w.data = true
      · rw [if_pos h2]; exact ih w v r h
      rw [if_neg h2]
      by_cases h3 : w.opt.allowMissingTasks = true
      · rw [if_pos h3]; exact ih w v r h
      rw [if_neg h3]
      rw [if_neg (show ¬w.opt.update = true by rw [h]; exact Bool.false_ne_true)]
      exact ih w v true h
    rw [if_neg h1]
    by_cases h4 : (alookup w.data.pkgs src).isNone = true
    · rw [if_pos h4]; exact ih w v r h
    rw [if_neg h4]
    rw [refreshRelsGo_dry src _ w v r h]
    exact ih w _ _ h

theorem refresh_task_packages_dry (w : World) (h : w.opt.update = false) :
    (refresh_task_packages w).1 = w :=
  refreshSrcsGo_dry _ w [] false h

theorem sync_kernel_bug_dry (w : World) (bf : String) (h : w.opt.update = false) :
    (sync_kernel_bug w bf).1 = w := by
  unfold sync_kernel_bug
  dsimp only
  rw [if_neg (show ¬w.opt.update = true by rw [h]; exact Bool.false_ne_true)]
  have hbf : (if bf ≠ sTrim w.data.bugsField then w else w) = w := by split <;> rfl
  rw [hbf, refresh_task_packages_dry w h]
  by_cases hpl : w.bug.description = "Placeholder"
  · rw [if_pos hpl]
    rw [sync_new_bug_dry w h, sync_to_bug_phase1_dry w h]
    have hp2 : (sync_from_bug_phase2 w).1 = w := sync_from_bug_phase2_dry w h
    cases hsc : sync_from_bug_phase2 w with
    | mk w2 ob =>
      rw [hsc] at hp2
      dsimp only at hp2
      cases ob with
      | none => exact hp2
      | some t2 =>
        dsimp only
        rw [hp2]
        exact sync_to_bug_phase3_dry w h
  · rw [if_neg hpl]
    rw [sync_to_bug_phase1_dry w h]
    have hp2 : (sync_from_bug_phase2 w).1 = w := sync_from_bug_phase2_dry w h
    cases hsc : sync_from_bug_phase2 w with
    | mk w2 ob =>
      rw [hsc] at hp2
      dsimp only at hp2
      cases ob with
      | none => exact hp2
      | some t2 =>
        dsimp only
        rw [hp2]
        exact sync_to_bug_phase3_dry w h


/-- Claim C2: dry-run purity.  With opt.update unset, a whole sync_kernel_bug run
    returns the input world unchanged, so no write is ever issued to the tracker or to
    the record store (the write log is part of the world); and each comparing
    primitive still reports touched = true when the values differ. -/
theorem C2_dry_run_purity (w : World) (bugs_field : String) (h : w.opt.update = false) :
    (sync_kernel_bug w bugs_field).1 = w ∧
    (∀ (src rel : String) (tk : Task) (st : Status), getTask w src rel = some tk →
      tk.status ≠ st → set_task_status w src rel st = (w, true)) ∧
    (∀ (src rel : String) (tk : Task) (imp : Importance), getTask w src rel = some tk →
      tk.importance ≠ imp → set_task_importance w src rel imp = (w, true)) ∧
    (∀ (src rel : String) (cur : State × String) (st : State),
      getState w src rel = some cur → cur.1 ≠ st →
      set_uct_state w src rel st = (w, true)) ∧
    (∀ (src rel reason : String) (tk : Task), getTask w src rel = some tk →
      delete_task w src rel reason = some (w, true)) ∧
    (∀ d : String, ¬(w.bug.description ≠ "Placeholder" ∧ sTrim d = "Description needed") →
      UCT_DESC_IGNORE_TAG ∉ w.bug.tags → w.bug.description ≠ sTrim d →
      set_bug_description w d = (w, true)) := by
  refine ⟨sync_kernel_bug_dry w bugs_field h, ?_, ?_, ?_, ?_, ?_⟩
  · intro src rel tk st hm he
    rw [set_task_status_of_some st hm, if_neg he,
      if_neg (show ¬w.opt.update = true by rw [h]; exact Bool.false_ne_true)]
  · intro src rel tk imp hm he
    rw [set_task_importance_of_some imp hm, if_neg he,
      if_neg (show ¬w.opt.update = true by rw [h]; exact Bool.false_ne_true)]
  · intro src rel cur st hm he
    rw [set_uct_state_of_some st hm, if_neg he,
      if_neg (show ¬w.opt.update = true by rw [h]; exact Bool.false_ne_true)]
  · intro src rel reason tk hm
    exact delete_task_dry w src rel reason tk hm h
  · intro d hg1 hg2 hne
    unfold set_bug_description
    dsimp only
    rw [if_neg hg1, if_neg hg2, if_pos hne,
      if_pos (show (!w.opt.update) = true by rw [h]; rfl)]

/-- Witness for C2: a full dry run on the concrete world returns it unchanged. -/
theorem C2_dry_run_purity_witness :
    cWdry.opt.update = false ∧ (sync_kernel_bug cWdry "").1 = cWdry :=
  ⟨rfl, (C2_dry_run_purity cWdry "" rfl).1⟩


/-! ## EOL exclusivity of the provisioner -/

theorem alookup_none_iff {α : Type} (l : List (String × α)) (k : String) :
    alookup l k = none ↔ k ∉ l.map Prod.fst := by
  induction l with
  | nil => simp [alookup]
  | cons p t ih =>
    unfold alookup
    by_cases h : p.1 = k
    · rw [if_pos h]
      simp [h]
    · rw [if_neg h]
      simp only [List.map_cons, List.mem_cons]
      rw [ih]
      constructor
      · rintro hn (he | hm)
        · exact h he.symm
        · exact hn hm
      · intro hn hm
        exact hn (Or.inr hm)

/-- A task absent before a loop-constant-preserving step is absent after it. -/
theorem getTask_none_of_SameC {w₀ w : World} (h : SameC w₀ w) (s r : String)
    (hn : getTask w₀ s r = none) : getTask w s r = none := by
  unfold getTask at hn ⊢
  have hsh : alookup (taskShape w) s = alookup (taskShape w₀) s := by rw [h.tshape]
  unfold taskShape at hsh
  rw [alookup_map_shape, alookup_map_shape] at hsh
  cases hm : alookup w.bug.tasks s with
  | none => rfl
  | some m =>
    cases hm0 : alookup w₀.bug.tasks s with
    | none => rw [hm, hm0] at hsh; simp at hsh
    | some m0 =>
      rw [hm, hm0] at hsh
      simp at hsh
      rw [hm0] at hn
      show alookup m r = none
      have hn2 : alookup m0 r = none := hn
      rw [alookup_none_iff] at hn2 ⊢
      rw [hsh]
      exact hn2

theorem addNomination_props (w : World) (rel : String) :
    (addNomination w rel).cfg = w.cfg ∧
    (addNomination w rel).log = w.log ++ [Event.AddNomination rel] ∧
    (addNomination w rel).opt = w.opt :=
  ⟨rfl, rfl, rfl⟩

theorem approveNomination_props (w : World) (rel : String) :
    (approveNomination w rel).cfg = w.cfg ∧
    (approveNomination w rel).log = w.log ++ [Event.ApproveNomination rel] ∧
    (approveNomination w rel).opt = w.opt :=
  ⟨rfl, rfl, rfl⟩

theorem addTask_props (w : World) (src : String) :
    (addTask w src).cfg = w.cfg ∧
    (addTask w src).log = w.log ++ [Event.AddTask src] ∧
    (addTask w src).opt = w.opt :=
  ⟨rfl, rfl, rfl⟩

/-- The nomination loop never logs a nomination event for an EOL release, and keeps
    the configuration. -/
theorem refreshRelsGo_noEolNom (src : String) :
    ∀ (rels : List String) (w : World) (v : List String) (r : Bool),
      (refreshRelsGo src rels w v r).1.cfg = w.cfg ∧
      ∃ es, (refreshRelsGo src rels w v r).1.log = w.log ++ es ∧
        ∀ e ∈ es, eolNomFree w.cfg.eolReleases e := by
  intro rels
  induction rels with
  | nil =>
    intro w v r
    exact ⟨rfl, [], by simp only [List.append_nil]; rfl,
      fun e he => absurd he (List.not_mem_nil e)⟩
  | cons rel rest ih =>
    intro w v r
    simp only [refreshRelsGo]
    by_cases h1 : rel ∈ w.cfg.eolReleases
    · rw [if_pos h1]; exact ih w v r
    rw [if_neg h1]
    by_cases h2 : rel ∈ v
    · rw [if_pos h2]; exact ih w v r
    rw [if_neg h2]
    by_cases h3 : (getTask w src rel).isSome = true
    · rw [if_pos h3]; exact ih w _ r
    rw [if_neg h3]
    by_cases h4 : nominationUnneeded
        (getState w src (if rel = w.cfg.develRelease then "devel" else rel)) = true
    · rw [if_pos h4]; exact ih w v r
    rw [if_neg h4]
    by_cases h5 : w.opt.allowMissingNominations = true
    · rw [if_pos h5]; exact ih w v r
    rw [if_neg h5]
    by_cases hupd : w.opt.update = true
    · rw [if_pos hupd]
      cases hnom : alookup w.bug.noms rel with
      | some q =>
        by_cases hba : w.bug.title ∈ brokenApprovalList
        · rw [if_pos hba]; exact ih w _ true
        · rw [if_neg hba]
          obtain ⟨hcfg, es, hlog, hprop⟩ := ih (approveNomination w rel) _ true
          refine ⟨hcfg, Event.ApproveNomination rel :: es, ?_, ?_⟩
          · rw [hlog]
            simp [approveNomination, logEvent, List.append_assoc]
          · intro e he
            rcases List.mem_cons.mp he with he | he
            · rw [he]; exact h1
            · exact hprop e he
      | none =>
        by_cases hbn : w.bug.title ∈ brokenNominationList
        · rw [if_pos hbn]; exact ih w _ true
        · rw [if_neg hbn]
          by_cases hba : (addNomination w rel).bug.title ∈ brokenApprovalList
          · rw [if_pos hba]
            obtain ⟨hcfg, es, hlog, hprop⟩ := ih (addNomination w rel) _ true
            refine ⟨hcfg, Event.AddNomination rel :: es, ?_, ?_⟩
            · rw [hlog]
              simp [addNomination, logEvent, List.append_assoc]
            · intro e he
              rcases List.mem_cons.mp he with he | he
              · rw [he]; exact h1
              · exact hprop e he
          · rw [if_neg hba]
            obtain ⟨hcfg, es, hlog, hprop⟩ :=
              ih (approveNomination (addNomination w rel) rel) _ true
            refine ⟨hcfg,
              Event.AddNomination rel :: Event.ApproveNomination rel :: es, ?_, ?_⟩
            · rw [hlog]
              simp [approveNomination, addNomination, logEvent, List.append_assoc]
            · intro e he
              rcases List.mem_cons.mp he with he | he
              · rw [he]; exact h1
              rcases List.mem_cons.mp he with he | he
              · rw [he]; exact h1
              · exact hprop e he
    · rw [if_neg hupd]
      exact ih w _ true

/-- The provisioner never logs a nomination event for an EOL release. -/
theorem refreshSrcsGo_noEolNom :
    ∀ (srcs : List String) (w : World) (v : List String) (r : Bool),
      (refreshSrcsGo srcs w v r).1.cfg = w.cfg ∧
      ∃ es, (refreshSrcsGo srcs w v r).1.log = w.log ++ es ∧
        ∀ e ∈ es, eolNomFree w.cfg.eolReleases e := by
  intro srcs
  induction srcs with
  | nil =>
    intro w v r
    exact ⟨rfl, [], by simp only [List.append_nil]; rfl,
      fun e he => absurd he (List.not_mem_nil e)⟩
  | cons src rest ih =>
    intro w v r
    simp only [refreshSrcsGo]
    by_cases h1 : (alookup w.bug.tasks src).isNone = true
    · rw [if_pos h1]
      by_cases h2 : uct_src_all_nominations_DNE w.cfg src w.data = true
      · rw [if_pos h2]; exact ih w v r
      rw [if_neg h2]
      by_cases h3 : w.opt.allowMissingTasks = true
      · rw [if_pos h3]; exact ih w v r
      rw [if_neg h3]
      by_cases hupd : w.opt.update = true
      · rw [if_pos hupd]
        obtain ⟨hcfg, es, hlog, hprop⟩ := ih (addTask w src) v true
        refine ⟨hcfg, Event.AddTask src :: es, ?_, ?_⟩
        · rw [hlog]
          simp [addTask, logEvent, List.append_assoc]
        · intro e he
          rcases List.mem_cons.mp he with he | he
          · rw [he]; trivial
          · exact hprop e he
      · rw [if_neg hupd]
        exact ih w v true
    rw [if_neg h1]
    by_cases h4 : (alookup w.data.pkgs src).isNone = true
    · rw [if_pos h4]; exact ih w v r
    rw [if_neg h4]
    obtain ⟨hcfg1, es1, hlog1, hprop1⟩ := refreshRelsGo_noEolNom src w.cfg.releases w v r
    obtain ⟨hcfg2, es2, hlog2, hprop2⟩ :=
      ih (refreshRelsGo src w.cfg.releases w v r).1
        (refreshRelsGo src w.cfg.releases w v r).2.1
        (refreshRelsGo src w.cfg.releases w v r).2.2
    refine ⟨by rw [hcfg2, hcfg1], es1 ++ es2, ?_, ?_⟩
    · rw [hlog2, hlog1, List.append_assoc]
    · intro e he
      rcases List.mem_append.mp he with he | he
      · exact hprop1 e he
      · have := hprop2 e he
        rwa [hcfg1] at this

theorem refresh_task_packages_noEolNom (w : World) :
    ∃ es, (refresh_task_packages w).1.log = w.log ++ es ∧
      ∀ e ∈ es, eolNomFree w.cfg.eolReleases e :=
  (refreshSrcsGo_noEolNom w.cfg.kernelSrcs w [] false).2


/-- Claim C8: EOL exclusivity.  The provisioner refresh_task_packages never issues a
    nomination creation or approval for a release flagged EOL; and under phase 1 a
    kernel-package task on an EOL release is deleted in live mode when
    allow-eol-tasks is unset, while with the flag set the EOL sweep leaves the world
    untouched. -/
theorem C8_eol_exclusivity (w : World) :
    (∃ es, (refresh_task_packages w).1.log = w.log ++ es ∧
      ∀ e ∈ es, eolNomFree w.cfg.eolReleases e) ∧
    (WF w → w.opt.update = true → w.opt.allowEolTasks = false →
      ∀ src ∈ w.cfg.kernelSrcs, ∀ R ∈ w.cfg.eolReleases,
        getTask (sync_to_bug_phase1 w).1 src R = none) ∧
    (w.opt.allowEolTasks = true → eolSweep w = (w, false)) := by
  refine ⟨refresh_task_packages_noEolNom w, ?_, ?_⟩
  · intro hwf hu ha src hsrc R hR
    have hdel : getTask (eolSweep w).1 src R = none :=
      eolSweep_deletes w hwf hu ha src R hsrc hR
    have hsame : SameC (eolSweep w).1 (sync_to_bug_phase1 w).1 :=
      pkgLoopGo_same phase1Rel (fun w2 s r => phase1Rel_same w2 s r) _ (eolSweep w).1
        (eolSweep w).2
    exact getTask_none_of_SameC hsame src R hdel
  · intro ha
    exact eolSweep_noop w (fun _ _ _ _ _ _ => ha)

/-- Witness for C8: the concrete world with a task on the EOL release lucid has it
    deleted by phase 1. -/
theorem C8_eol_exclusivity_witness :
    WF cWeol ∧ cWeol.opt.update = true ∧ cWeol.opt.allowEolTasks = false ∧
    getTask (sync_to_bug_phase1 cWeol).1 "linux" "lucid" = none :=
  ⟨by decide, rfl, rfl,
    (C8_eol_exclusivity cWeol).2.1 (by decide) rfl rfl "linux" (by decide)
      "lucid" (by decide)⟩


/-! ## Phase-3 effect and run-composition lemmas -/

/-- The phase-3 transformer at a processed cell, in live mode. -/
theorem phase3RelV_eval (cfg : Config) (opt : Opt) (src rel : String)
    (st : State × String) (task : Task) (hupd : opt.update = true)
    (hg : ¬(develMap cfg rel = "" ∨ develMap cfg rel = "upstream" ∨
      develMap cfg rel ∈ cfg.eolReleases)) :
    ∃ tk2, (phase3RelV cfg opt src rel (some st, some task)).1 = (some st, some tk2) ∧
      tk2.status = (if st.1 = State.needsTriage then Status.New else task.status) := by
  unfold phase3RelV
  rw [if_neg hg]
  dsimp only
  by_cases h : st.1 = State.needsTriage
  · rw [if_pos h, if_pos h, hupd]
    obtain ⟨tk, htk, hst⟩ := vSetStatus_live_status task .New
    refine ⟨tk, ?_, hst⟩
    rw [htk]
  · rw [if_neg h, if_neg h]
    exact ⟨task, rfl, rfl⟩

theorem getTask_set_bug_description (w : World) (d : String) (s r : String) :
    getTask (set_bug_description w d).1 s r = getTask w s r := by
  unfold set_bug_description
  dsimp only
  split
  · rfl
  split
  · rfl
  split
  · split
    · rfl
    · rfl
  · rfl

theorem getState_set_bug_description (w : World) (d : String) (s r : String) :
    getState (set_bug_description w d).1 s r = getState w s r := by
  unfold set_bug_description
  dsimp only
  split
  · rfl
  split
  · rfl
  split
  · split
    · rfl
    · rfl
  · rfl

/-- The effect of phase 3 on one processed cell in live mode: a needs-triage local
    state resets the remote status to New, any other state leaves it alone; the local
    state is unchanged. -/
theorem phase3_cell_effect (w : World) (hwf : WF w) (hupd : w.opt.update = true)
    (src rel : String) (s1 : State) (note : String) (task : Task)
    (hkernel : src ∈ w.cfg.kernelSrcs)
    (hS : getState w src rel = some (s1, note))
    (hT : getTask w src (develMap w.cfg rel) = some task)
    (hg1 : develMap w.cfg rel ≠ "") (hg2 : develMap w.cfg rel ≠ "upstream")
    (hg3 : develMap w.cfg rel ∉ w.cfg.eolReleases) :
    getState (sync_to_bug_phase3 w).1 src rel = some (s1, note) ∧
    ∃ tk2, getTask (sync_to_bug_phase3 w).1 src (develMap w.cfg rel) = some tk2 ∧
      tk2.status = (if s1 = State.needsTriage then Status.New else task.status) := by
  have hfacts := cell_facts hwf hS
  have htk : (alookup w.bug.tasks src).isSome = true := getTask_outer_isSome hT
  have htgt := pkgLoopGo_target phase3Rel (phase3RelV w.cfg w.opt) w
    (fun w2 s r => phase3Rel_same w2 s r)
    (fun w2 s r s2 r2 hc hcf => phase3Rel_frame w.cfg w2 s r s2 r2 hc hcf)
    (fun w2 hw s r => phase3Rel_cell w w2 hw s r)
    src rel hkernel htk hfacts.2.2.1 hfacts.2.2.2.1
    (fun r2 h2 hne => hfacts.2.2.2.2 r2 h2 hne)
    (w.data.pkgs.map Prod.fst) w false (SameC.refl w)
    hfacts.1 hfacts.2.1
  have hview : view w.cfg w src rel = (some (s1, note), some task) := by
    unfold view
    rw [hS, hT]
  rw [hview] at htgt
  have hguard : ¬(develMap w.cfg rel = "" ∨ develMap w.cfg rel = "upstream" ∨
      develMap w.cfg rel ∈ w.cfg.eolReleases) := by
    rintro (h | h | h)
    · exact hg1 h
    · exact hg2 h
    · exact hg3 h
  obtain ⟨tk2, heval, hst2⟩ :=
    phase3RelV_eval w.cfg w.opt src rel (s1, note) task hupd hguard
  rw [heval] at htgt
  have hworld : (sync_to_bug_phase3 w).1 =
      (set_bug_description (pkgLoopGo phase3Rel (w.data.pkgs.map Prod.fst) w false).1
        (genDescription
          (pkgLoopGo phase3Rel (w.data.pkgs.map Prod.fst) w false).1.cfg
          (pkgLoopGo phase3Rel (w.data.pkgs.map Prod.fst) w false).1.data
          (pkgLoopGo phase3Rel (w.data.pkgs.map Prod.fst) w false).1.bug.tasks
          ((pkgLoopGo phase3Rel (w.data.pkgs.map Prod.fst) w false).1.data.pkgs.map
            Prod.fst))).1 := rfl
  constructor
  · rw [hworld, getState_set_bug_description]
    have h1 := congrArg Prod.fst htgt.1
    exact h1
  · refine ⟨tk2, ?_, hst2⟩
    rw [hworld, getTask_set_bug_description]
    have h1 := congrArg Prod.snd htgt.1
    exact h1

/-- The Break-Fix scan is the identity and does not abort when no line of the
    description is a directive. -/
theorem scanBreakFix_no_directives (w : World) :
    ∀ (lines : List String) (t : Bool),
      (∀ l ∈ lines, (sStartsWith (sTrim l) "Add-Break-Fix:" ||
        sStartsWith (sTrim l) "Del-Break-Fix:") = false) →
      scanBreakFix w t lines = (w, some t) := by
  intro lines
  induction lines with
  | nil => intro t h; rfl
  | cons l rest ih =>
    intro t h
    simp only [scanBreakFix]
    rw [if_neg (by rw [h l (List.mem_cons_self l rest)]; exact Bool.false_ne_true)]
    exact ih t (fun l2 h2 => h l2 (List.mem_cons_of_mem l h2))

theorem phase1_SameC (w : World) : SameC (eolSweep w).1 (sync_to_bug_phase1 w).1 :=
  pkgLoopGo_same phase1Rel (fun w2 s r => phase1Rel_same w2 s r) _ _ _

theorem WF_phase1 (w : World) (hwf : WF w) : WF (sync_to_bug_phase1 w).1 :=
  WF_of_SameC (phase1_SameC w) (eolSweep_WF w hwf)

theorem sync_to_bug_phase1_props (w : World) :
    (sync_to_bug_phase1 w).1.cfg = w.cfg ∧ (sync_to_bug_phase1 w).1.opt = w.opt ∧
    (sync_to_bug_phase1 w).1.bug.description = w.bug.description ∧
    (sync_to_bug_phase1 w).1.bug.tags = w.bug.tags := by
  have hsw := eolSweep_props w
  have hsame := phase1_SameC w
  exact ⟨hsame.cfg.trans hsw.1, hsame.opt.trans hsw.2.1,
    hsame.desc.trans hsw.2.2.2.2.2.1, hsame.tags.trans hsw.2.2.2.2.1⟩

theorem phase2_world (w : World) :
    (sync_from_bug_phase2 w).1 = (pkgLoop phase2Rel w false).1 := by
  show (scanBreakFix _ _ _).1 = _
  rw [scanBreakFix_world]

theorem phase2_SameC (w : World) : SameC w (sync_from_bug_phase2 w).1 := by
  rw [phase2_world]
  exact pkgLoopGo_same phase2Rel (fun w2 s r => phase2Rel_same w2 s r) _ _ _

theorem WF_phase2 (w : World) (hwf : WF w) : WF (sync_from_bug_phase2 w).1 :=
  WF_of_SameC (phase2_SameC w) hwf


/-- On provisioned input the nomination loop only skips. -/
theorem refreshRelsGo_noop (src : String) :
    ∀ (rels : List String) (w : World) (v : List String) (r : Bool),
      (∀ rel ∈ rels, rel ∉ w.cfg.eolReleases →
        (getTask w src rel).isSome = true ∨
        nominationUnneeded (getState w src
          (if rel = w.cfg.develRelease then "devel" else rel)) = true ∨
        w.opt.allowMissingNominations = true) →
      ∃ v2, refreshRelsGo src rels w v r = (w, v2, r) := by
  intro rels
  induction rels with
  | nil => intro w v r h; exact ⟨v, rfl⟩
  | cons rel rest ih =>
    intro w v r h
    have hrest : ∀ rel2 ∈ rest, rel2 ∉ w.cfg.eolReleases →
        (getTask w src rel2).isSome = true ∨
        nominationUnneeded (getState w src
          (if rel2 = w.cfg.develRelease then "devel" else rel2)) = true ∨
        w.opt.allowMissingNominations = true :=
      fun rel2 h2 => h rel2 (List.mem_cons_of_mem rel h2)
    simp only [refreshRelsGo]
    by_cases h1 : rel ∈ w.cfg.eolReleases
    · rw [if_pos h1]; exact ih w v r hrest
    rw [if_neg h1]
    by_cases h2 : rel ∈ v
    · rw [if_pos h2]; exact ih w v r hrest
    rw [if_neg h2]
    rcases h rel (List.mem_cons_self rel rest) h1 with hc | hc | hc
    · rw [if_pos hc]
      exact ih w _ r hrest
    · by_cases h3 : (getTask w src rel).isSome = true
      · rw [if_pos h3]; exact ih w _ r hrest
      · rw [if_neg h3, if_pos hc]
        exact ih w v r hrest
    · by_cases h3 : (getTask w src rel).isSome = true
      · rw [if_pos h3]; exact ih w _ r hrest
      rw [if_neg h3]
      by_cases h4 : nominationUnneeded (getState w src
          (if rel = w.cfg.develRelease then "devel" else rel)) = true
      · rw [if_pos h4]; exact ih w v r hrest
      · rw [if_neg h4, if_pos hc]
        exact ih w v r hrest

/-- On provisioned input the provisioner only skips. -/
theorem refreshSrcsGo_noop (w : World) :
    ∀ (srcs : List String) (v : List String) (r : Bool),
      (∀ src ∈ srcs,
        ((alookup w.bug.tasks src).isSome = true ∨
          uct_src_all_nominations_DNE w.cfg src w.data = true ∨
          w.opt.allowMissingTasks = true) ∧
        (∀ rel ∈ w.cfg.releases, rel ∉ w.cfg.eolReleases →
          (getTask w src rel).isSome = true ∨
          nominationUnneeded (getState w src
            (if rel = w.cfg.develRelease then "devel" else rel)) = true ∨
          w.opt.allowMissingNominations = true)) →
      refreshSrcsGo srcs w v r = (w, r) := by
  intro srcs
  induction srcs with
  | nil => intro v r h; rfl
  | cons src rest ih =>
    intro v r h
    have hrest := fun src2 h2 => h src2 (List.mem_cons_of_mem src h2)
    obtain ⟨hsrc1, hsrc2⟩ := h src (List.mem_cons_self src rest)
    simp only [refreshSrcsGo]
    by_cases h1 : (alookup w.bug.tasks src).isNone = true
    · rw [if_pos h1]
      rcases hsrc1 with hc | hc | hc
      · exfalso
        rw [Option.isNone_iff_eq_none] at h1
        rw [h1] at hc
        cases hc
      · rw [if_pos hc]
        exact ih v r hrest
      · by_cases h2 : uct_src_all_nominations_DNE w.cfg src w.data = true
        · rw [if_pos h2]; exact ih v r hrest
        · rw [if_neg h2, if_pos hc]
          exact ih v r hrest
    rw [if_neg h1]
    by_cases h4 : (alookup w.data.pkgs src).isNone = true
    · rw [if_pos h4]; exact ih v r hrest
    rw [if_neg h4]
    obtain ⟨v2, hrels⟩ := refreshRelsGo_noop src w.cfg.releases w v r hsrc2
    rw [hrels]
    exact ih v2 r hrest

/-- refresh_task_packages is a no-op on a provisioned world. -/
theorem refresh_task_packages_noop (w : World) (hprov : Provisioned w) :
    refresh_task_packages w = (w, false) := by
  unfold refresh_task_packages
  apply refreshSrcsGo_noop w w.cfg.kernelSrcs [] false
  intro src hsrc
  exact hprov src hsrc

/-- Provisioning depends only on the configuration, the task map, the record and the
    options. -/
theorem Provisioned_congr {w w2 : World} (hc : w2.cfg = w.cfg)
    (ht : w2.bug.tasks = w.bug.tasks) (hd : w2.data = w.data) (ho : w2.opt = w.opt)
    (h : Provisioned w) : Provisioned w2 := by
  unfold Provisioned
  rw [hc, hd, ho]
  intro src hsrc
  obtain ⟨h1, h2⟩ := h src hsrc
  refine ⟨by rwa [ht], ?_⟩
  intro rel hrel hne
  rcases h2 rel hrel hne with hx | hx | hx
  · left
    rw [getTask_congr ht]
    exact hx
  · right; left
    rw [getState_congr hd]
    exact hx
  · right; right
    exact hx


/-- The three phases on a cell whose local state is needs-triage and whose remote
    status is one of the statuses phase 2 does not pull: phase 1 leaves the status,
    phase 2 leaves the state, the Break-Fix scan does not abort, and phase 3 resets
    the status to New. -/
theorem run_phases_effect (w1 : World) (hwf : WF w1) (hupd : w1.opt.update = true)
    (hnodir : ∀ l ∈ sSplitOnChar w1.bug.description '\n',
      (sStartsWith (sTrim l) "Add-Break-Fix:" ||
        sStartsWith (sTrim l) "Del-Break-Fix:") = false)
    (src rel : String) (note : String) (task : Task)
    (hkernel : src ∈ w1.cfg.kernelSrcs)
    (hS : getState w1 src rel = some (State.needsTriage, note))
    (hT : getTask w1 src (develMap w1.cfg rel) = some task)
    (hstat : task.status = Status.FixCommitted ∨ task.status = Status.FixReleased ∨
      task.status = Status.WontFix)
    (hg1 : develMap w1.cfg rel ≠ "") (hg2 : develMap w1.cfg rel ≠ "upstream")
    (hg3 : develMap w1.cfg rel ∉ w1.cfg.eolReleases)
    (hg4 : develMap w1.cfg rel ≠ "product") (hg5 : develMap w1.cfg rel ≠ "snap") :
    ∃ w3 t2, sync_from_bug_phase2 (sync_to_bug_phase1 w1).1 = (w3, some t2) ∧
      ∃ tk2, getTask (sync_to_bug_phase3 w3).1 src (develMap w1.cfg rel) = some tk2 ∧
        tk2.status = Status.New := by
  -- phase 1
  obtain ⟨hS2, ⟨task2, hT2, hst2⟩, _⟩ :=
    phase1_cell_effect w1 hwf hupd src rel State.needsTriage note task hkernel hS hT
      hg3 hg1 hg2 hg4 hg5 (by decide)
  have hst2x : task2.status = task.status := by
    rw [hst2]
    rcases hstat with h | h | h <;> rw [h] <;> decide
  have props1 := sync_to_bug_phase1_props w1
  have hwf2 : WF (sync_to_bug_phase1 w1).1 := WF_phase1 w1 hwf
  have hupd2 : (sync_to_bug_phase1 w1).1.opt.update = true := by
    rw [props1.2.1]; exact hupd
  have hker2 : src ∈ (sync_to_bug_phase1 w1).1.cfg.kernelSrcs := by
    rw [props1.1]; exact hkernel
  have hdev2 : develMap (sync_to_bug_phase1 w1).1.cfg rel = develMap w1.cfg rel := by
    rw [props1.1]
  have hT2x : getTask (sync_to_bug_phase1 w1).1 src
      (develMap (sync_to_bug_phase1 w1).1.cfg rel) = some task2 := by
    rw [hdev2]; exact hT2
  -- phase 2
  obtain ⟨hS3, hT3⟩ :=
    phase2_cell_effect (sync_to_bug_phase1 w1).1 hwf2 hupd2 src rel State.needsTriage
      note task2 hker2 hS2 hT2x
      (by rw [hdev2]; exact hg1) (by rw [hdev2]; exact hg2)
      (by rw [hdev2, props1.1]; exact hg3) (by decide)
  have hpull : (if task2.status = Status.Confirmed ∨ task2.status = Status.Triaged ∨
        task2.status = Status.InProgress then State.needed
      else if task2.status = Status.New ∧ State.needsTriage ≠ State.needed then
        State.needsTriage
      else if task2.status = Status.Invalid ∧
          ¬(State.needsTriage = State.DNE ∨ State.needsTriage = State.ignored) then
        State.notAffected
      else State.needsTriage) = State.needsTriage := by
    rcases hstat with h | h | h <;> rw [hst2x, h] <;> decide
  rw [hpull] at hS3
  -- the Break-Fix scan does not abort
  have hsame2 : SameC (sync_to_bug_phase1 w1).1
      (pkgLoop phase2Rel (sync_to_bug_phase1 w1).1 false).1 :=
    pkgLoopGo_same phase2Rel (fun w s r => phase2Rel_same w s r)
      (((sync_to_bug_phase1 w1).1).data.pkgs.map Prod.fst) (sync_to_bug_phase1 w1).1 false
  have hdesc : (pkgLoop phase2Rel (sync_to_bug_phase1 w1).1 false).1.bug.description =
      w1.bug.description := by
    rw [hsame2.desc]
    exact props1.2.2.1
  have hmatch : sync_from_bug_phase2 (sync_to_bug_phase1 w1).1 =
      ((pkgLoop phase2Rel (sync_to_bug_phase1 w1).1 false).1,
        some (pkgLoop phase2Rel (sync_to_bug_phase1 w1).1 false).2) := by
    show scanBreakFix _ _ _ = _
    rw [hdesc]
    exact scanBreakFix_no_directives _ _ _ hnodir
  have hw3 : (sync_from_bug_phase2 (sync_to_bug_phase1 w1).1).1 =
      (pkgLoop phase2Rel (sync_to_bug_phase1 w1).1 false).1 := by rw [hmatch]
  rw [hw3] at hS3 hT3
  -- phase 3
  have hwf3 : WF (pkgLoop phase2Rel (sync_to_bug_phase1 w1).1 false).1 :=
    WF_of_SameC hsame2 hwf2
  have hupd3 : (pkgLoop phase2Rel (sync_to_bug_phase1 w1).1 false).1.opt.update =
      true := by rw [hsame2.opt]; exact hupd2
  have hker3 : src ∈ (pkgLoop phase2Rel (sync_to_bug_phase1 w1).1 false).1.cfg.kernelSrcs := by
    rw [hsame2.cfg]; exact hker2
  have hdev3 : develMap (pkgLoop phase2Rel (sync_to_bug_phase1 w1).1 false).1.cfg rel =
      develMap (sync_to_bug_phase1 w1).1.cfg rel := by rw [hsame2.cfg]
  have hT3x : getTask (pkgLoop phase2Rel (sync_to_bug_phase1 w1).1 false).1 src
      (develMap (pkgLoop phase2Rel (sync_to_bug_phase1 w1).1 false).1.cfg rel) =
      some task2 := by
    rw [hdev3]; exact hT3
  obtain ⟨_, tk2, htk, hstk⟩ :=
    phase3_cell_effect (pkgLoop phase2Rel (sync_to_bug_phase1 w1).1 false).1 hwf3 hupd3
      src rel State.needsTriage note task2 hker3 hS3 hT3x
      (by rw [hsame2.cfg, props1.1]; exact hg1) (by rw [hsame2.cfg, props1.1]; exact hg2)
      (by rw [hsame2.cfg, props1.1]; exact hg3)
  refine ⟨_, _, hmatch, tk2, ?_, ?_⟩
  · rw [hdev3, hdev2] at htk
    exact htk
  · rw [hstk]
    rfl


/-- Claim C10: the implicit phase-3 downgrade.  On a provisioned, live-mode world
    whose bug is not a placeholder and whose description holds no Break-Fix directive,
    a cell with local state needs-triage and remote status Fix Committed, Fix Released
    or Won t Fix comes out of a full sync_kernel_bug run with remote status New: the
    advanced status is reverted outside the phase-1 no-downgrade rule. -/
theorem C10_phase3_downgrade (w : World) (bugs_field : String)
    (hwf : WF w) (hupd : w.opt.update = true)
    (hplc : w.bug.description ≠ "Placeholder")
    (hprov : Provisioned w)
    (hnodir : ∀ l ∈ sSplitOnChar w.bug.description '\n',
      (sStartsWith (sTrim l) "Add-Break-Fix:" ||
        sStartsWith (sTrim l) "Del-Break-Fix:") = false)
    (src rel : String) (note : String) (task : Task)
    (hkernel : src ∈ w.cfg.kernelSrcs)
    (hS : getState w src rel = some (State.needsTriage, note))
    (hT : getTask w src (develMap w.cfg rel) = some task)
    (hstat : task.status = Status.FixCommitted ∨ task.status = Status.FixReleased ∨
      task.status = Status.WontFix)
    (hg1 : develMap w.cfg rel ≠ "") (hg2 : develMap w.cfg rel ≠ "upstream")
    (hg3 : develMap w.cfg rel ∉ w.cfg.eolReleases)
    (hg4 : develMap w.cfg rel ≠ "product") (hg5 : develMap w.cfg rel ≠ "snap") :
    ∃ t, (sync_kernel_bug w bugs_field).2 = some t ∧
      ∃ tk2, getTask (sync_kernel_bug w bugs_field).1 src (develMap w.cfg rel) =
        some tk2 ∧ tk2.status = Status.New := by
  unfold sync_kernel_bug
  dsimp only
  by_cases hbf : bugs_field ≠ sTrim w.data.bugsField
  · rw [if_pos hbf, if_pos hupd]
    have hprov1 : Provisioned (logEvent w (Event.UpdateMultilineField "Bugs" bugs_field)) :=
      Provisioned_congr rfl rfl rfl rfl hprov
    rw [refresh_task_packages_noop _ hprov1]
    dsimp only
    rw [if_neg (show ¬(logEvent w (Event.UpdateMultilineField "Bugs"
      bugs_field)).bug.description = "Placeholder" from hplc)]
    obtain ⟨w3, t2, hmatch, tk2, htk, hstk⟩ :=
      run_phases_effect (logEvent w (Event.UpdateMultilineField "Bugs" bugs_field))
        hwf hupd hnodir src rel note task hkernel hS hT hstat hg1 hg2 hg3 hg4 hg5
    rw [hmatch]
    dsimp only
    exact ⟨_, rfl, tk2, htk, hstk⟩
  · rw [if_neg hbf]
    rw [refresh_task_packages_noop _ hprov]
    dsimp only
    rw [if_neg hplc]
    obtain ⟨w3, t2, hmatch, tk2, htk, hstk⟩ :=
      run_phases_effect w hwf hupd hnodir src rel note task hkernel hS hT hstat
        hg1 hg2 hg3 hg4 hg5
    rw [hmatch]
    dsimp only
    exact ⟨_, rfl, tk2, htk, hstk⟩

/-- Witness for C10: the concrete world with local needs-triage over remote Won t Fix
    ends the run with remote status New. -/
theorem C10_phase3_downgrade_witness :
    WF (cW State.needsTriage Status.WontFix) ∧
    Provisioned (cW State.needsTriage Status.WontFix) ∧
    ∃ t, (sync_kernel_bug (cW State.needsTriage Status.WontFix) "").2 = some t ∧
      ∃ tk2, getTask (sync_kernel_bug (cW State.needsTriage Status.WontFix) "").1
        "linux" (develMap (cW State.needsTriage Status.WontFix).cfg "noble") =
        some tk2 ∧ tk2.status = Status.New :=
  ⟨by decide, by decide,
    C10_phase3_downgrade (cW State.needsTriage Status.WontFix) "" (by decide) rfl
      (by decide) (by decide) (by decide) "linux" "noble" "note"
      { status := .WontFix, importance := .Medium }
      (by decide) (by decide) (by decide) (by decide) (by decide) (by decide)
      (by decide) (by decide) (by decide)⟩


/-! ## Cell-level convergence -/

/-- One full cycle of the three tables reaches a fixpoint: a second cycle changes
    neither the status nor the state, and a needs-triage state always ends over a New
    status. -/
theorem full_cycle_fixpoint : ∀ (s : State) (st : Status),
    t1Status (pullState (t1Status s st) s)
        (t3Status (pullState (t1Status s st) s) (t1Status s st)) =
      t3Status (pullState (t1Status s st) s) (t1Status s st) ∧
    pullState (t3Status (pullState (t1Status s st) s) (t1Status s st))
        (pullState (t1Status s st) s) =
      pullState (t1Status s st) s ∧
    (pullState (t1Status s st) s = State.needsTriage →
      t3Status (pullState (t1Status s st) s) (t1Status s st) = Status.New) := by
  decide

/-- The same fixpoint for cells phase 1 skips (product and snap releases). -/
theorem prodsnap_cycle_fixpoint : ∀ (s : State) (st : Status),
    pullState (t3Status (pullState st s) st) (pullState st s) = pullState st s ∧
    (pullState st s = State.needsTriage → t3Status (pullState st s) st = Status.New) := by
  decide

theorem phase1RelV_skip1 (cfg : Config) (opt : Opt) (data : Record) (src rel : String)
    (v : CellView) (hg : develMap cfg rel = "" ∨ develMap cfg rel = "upstream" ∨
      develMap cfg rel ∈ cfg.eolReleases) :
    phase1RelV cfg opt data src rel v = (v, false) := by
  unfold phase1RelV
  rw [if_pos hg]

theorem phase1RelV_skip2 (cfg : Config) (opt : Opt) (data : Record) (src rel : String)
    (v : CellView)
    (hg1 : ¬(develMap cfg rel = "" ∨ develMap cfg rel = "upstream" ∨
      develMap cfg rel ∈ cfg.eolReleases))
    (hg2 : develMap cfg rel = "product" ∨ develMap cfg rel = "snap") :
    phase1RelV cfg opt data src rel v = (v, false) := by
  unfold phase1RelV
  rw [if_neg hg1, if_pos hg2]

theorem phase2RelV_skip (cfg : Config) (opt : Opt) (src rel : String) (v : CellView)
    (hg : develMap cfg rel = "" ∨ develMap cfg rel = "upstream" ∨
      develMap cfg rel ∈ cfg.eolReleases) :
    phase2RelV cfg opt src rel v = (v, false) := by
  unfold phase2RelV
  rw [if_pos hg]

theorem phase3RelV_skip (cfg : Config) (opt : Opt) (src rel : String) (v : CellView)
    (hg : develMap cfg rel = "" ∨ develMap cfg rel = "upstream" ∨
      develMap cfg rel ∈ cfg.eolReleases) :
    phase3RelV cfg opt src rel v = (v, false) := by
  unfold phase3RelV
  rw [if_pos hg]

theorem phase1RelV_taskNone (cfg : Config) (opt : Opt) (data : Record)
    (src rel : String) (st : State × String) :
    phase1RelV cfg opt data src rel (some st, none) = ((some st, none), false) := by
  unfold phase1RelV
  dsimp only
  split
  · rfl
  split
  · rfl
  · rfl

theorem phase2RelV_taskNone (cfg : Config) (opt : Opt) (src rel : String)
    (st : State × String) :
    phase2RelV cfg opt src rel (some st, none) = ((some st, none), false) := by
  unfold phase2RelV
  dsimp only
  split
  · rfl
  · rfl

theorem phase3RelV_taskNone (cfg : Config) (opt : Opt) (src rel : String)
    (st : State × String) :
    phase3RelV cfg opt src rel (some st, none) = ((some st, none), false) := by
  unfold phase3RelV
  dsimp only
  split
  · rfl
  · rfl

/-- cellOK holds at any view missing its task. -/
theorem cellOK_taskNone (cfg : Config) (opt : Opt) (data : Record) (src rel : String)
    (st : State × String) :
    cellOK cfg opt data src rel (some st, none) :=
  ⟨phase1RelV_taskNone cfg opt data src rel st, phase2RelV_taskNone cfg opt src rel st,
    phase3RelV_taskNone cfg opt src rel st⟩

/-- cellOK holds at any view whose release resolves to a skipped name. -/
theorem cellOK_skip1 (cfg : Config) (opt : Opt) (data : Record) (src rel : String)
    (v : CellView) (hg : develMap cfg rel = "" ∨ develMap cfg rel = "upstream" ∨
      develMap cfg rel ∈ cfg.eolReleases) :
    cellOK cfg opt data src rel v :=
  ⟨phase1RelV_skip1 cfg opt data src rel v hg, phase2RelV_skip cfg opt src rel v hg,
    phase3RelV_skip cfg opt src rel v hg⟩


theorem t1Status_deferred : ∀ st : Status, t1Status State.deferred st = st := by decide

theorem vSetStatus_live_val (task : Task) (x : Status) :
    (vSetStatus true (some task) x).1 = some { status := x, importance := task.importance } := by
  unfold vSetStatus
  dsimp only
  by_cases h : task.status = x
  · rw [if_pos h]
    obtain ⟨ts, ti⟩ := task
    dsimp only at h
    rw [h]
  · rw [if_neg h]
    rfl

theorem vSetImportance_live_val (task : Task) (imp : Importance) :
    (vSetImportance true (some task) imp).1 =
      some { status := task.status, importance := imp } := by
  unfold vSetImportance
  dsimp only
  by_cases h : task.importance = imp
  · rw [if_pos h]
    obtain ⟨ts, ti⟩ := task
    dsimp only at h
    rw [h]
  · rw [if_neg h]
    rfl

/-- Full evaluation of the phase-1 transformer at a processed cell in live mode:
    the status follows the table, the importance is pulled to the contextual priority
    unless the state is deferred. -/
theorem phase1RelV_eval_full (cfg : Config) (opt : Opt) (data : Record)
    (src rel : String) (st : State × String) (task : Task) (hupd : opt.update = true)
    (hg1 : ¬(develMap cfg rel = "" ∨ develMap cfg rel = "upstream" ∨
      develMap cfg rel ∈ cfg.eolReleases))
    (hg2 : ¬(develMap cfg rel = "product" ∨ develMap cfg rel = "snap")) :
    (phase1RelV cfg opt data src rel (some st, some task)).1 =
      (some st, some { status := t1Status st.1 task.status,
                       importance := if st.1 = State.deferred then task.importance
                         else priority_to_importance
                           (contextual_priority data src rel) }) := by
  unfold phase1RelV
  rw [if_neg hg1, if_neg hg2]
  dsimp only
  rw [hupd]
  by_cases h1 : st.1 = State.DNE
  · rw [if_pos h1]
    dsimp only
    rw [vSetStatus_live_val, vSetImportance_live_val]
    unfold t1Status
    rw [if_pos h1, if_neg (show ¬st.1 = State.deferred by rw [h1]; decide)]
  rw [if_neg h1]
  by_cases h2 : st.1 = State.pending ∧ pendingEligible task.status
  · rw [if_pos h2]
    dsimp only
    rw [vSetStatus_live_val, vSetImportance_live_val]
    unfold t1Status
    rw [if_neg h1, if_pos h2, if_neg (show ¬st.1 = State.deferred by rw [h2.1]; decide)]
  rw [if_neg h2]
  by_cases h3 : st.1 = State.released
  · rw [if_pos h3]
    dsimp only
    rw [vSetStatus_live_val, vSetImportance_live_val]
    unfold t1Status
    rw [if_neg h1, if_neg h2, if_pos h3,
      if_neg (show ¬st.1 = State.deferred by rw [h3]; decide)]
  rw [if_neg h3]
  by_cases h4 : (st.1 = State.notAffected ∨ st.1 = State.ignored) ∧
      task.status = Status.New
  · rw [if_pos h4]
    dsimp only
    rw [vSetStatus_live_val, vSetImportance_live_val]
    unfold t1Status
    rw [if_neg h1, if_neg h2, if_neg h3, if_pos h4,
      if_neg (show ¬st.1 = State.deferred by
        rcases h4.1 with h | h <;> rw [h] <;> decide)]
  rw [if_neg h4]
  by_cases h5 : st.1 = State.deferred
  · rw [if_pos h5]
    unfold t1Status
    rw [if_neg h1, if_neg h2, if_neg h3, if_neg h4, if_pos h5]
  · rw [if_neg h5]
    dsimp only
    rw [vSetImportance_live_val]
    unfold t1Status
    rw [if_neg h1, if_neg h2, if_neg h3, if_neg h4, if_neg h5]

/-- Full evaluation of the phase-2 transformer at a processed cell in live mode. -/
theorem phase2RelV_eval_full (cfg : Config) (opt : Opt) (src rel : String)
    (st : State × String) (task : Task) (hupd : opt.update = true)
    (hg : ¬(develMap cfg rel = "" ∨ develMap cfg rel = "upstream" ∨
      develMap cfg rel ∈ cfg.eolReleases)) :
    (phase2RelV cfg opt src rel (some st, some task)).1 =
      (some ((if st.1 = State.deferred then st.1 else pullState task.status st.1),
        st.2), some task) := by
  by_cases hdef : st.1 = State.deferred
  · rw [if_pos hdef]
    unfold phase2RelV
    rw [if_neg hg]
    dsimp only
    rw [if_pos hdef]
  · rw [if_neg hdef]
    rw [phase2RelV_eval cfg opt src rel st task hupd hg hdef]
    unfold pullState
    rfl

/-- Full evaluation of the phase-3 transformer at a processed cell in live mode. -/
theorem phase3RelV_eval_full (cfg : Config) (opt : Opt) (src rel : String)
    (st : State × String) (task : Task) (hupd : opt.update = true)
    (hg : ¬(develMap cfg rel = "" ∨ develMap cfg rel = "upstream" ∨
      develMap cfg rel ∈ cfg.eolReleases)) :
    (phase3RelV cfg opt src rel (some st, some task)).1 =
      (some st, some { status := t3Status st.1 task.status,
                       importance := task.importance }) := by
  unfold phase3RelV
  rw [if_neg hg]
  dsimp only
  by_cases h : st.1 = State.needsTriage
  · rw [if_pos h, hupd]
    dsimp only
    rw [vSetStatus_live_val]
    unfold t3Status
    rw [if_pos h]
  · rw [if_neg h]
    unfold t3Status
    rw [if_neg h]

/-- The phase-1 transformer is a no-op at a table fixpoint with converged importance. -/
theorem phase1RelV_noop (cfg : Config) (opt : Opt) (data : Record) (src rel : String)
    (st : State × String) (task : Task)
    (hg1 : ¬(develMap cfg rel = "" ∨ develMap cfg rel = "upstream" ∨
      develMap cfg rel ∈ cfg.eolReleases))
    (hg2 : ¬(develMap cfg rel = "product" ∨ develMap cfg rel = "snap"))
    (hfix : t1Status st.1 task.status = task.status)
    (himp : st.1 ≠ State.deferred →
      task.importance = priority_to_importance (contextual_priority data src rel)) :
    phase1RelV cfg opt data src rel (some st, some task) =
      ((some st, some task), false) := by
  unfold phase1RelV
  rw [if_neg hg1, if_neg hg2]
  dsimp only
  by_cases h1 : st.1 = State.DNE
  · rw [if_pos h1]
    have hst : task.status = Status.Invalid := by
      have h := hfix
      unfold t1Status at h
      rw [if_pos h1] at h
      exact h.symm
    have him := himp (by rw [h1]; decide)
    unfold vSetStatus vSetImportance
    dsimp only
    rw [if_pos hst]
    dsimp only
    rw [if_pos him]
    rfl
  rw [if_neg h1]
  by_cases h2 : st.1 = State.pending ∧ pendingEligible task.status
  · exfalso
    have h := hfix
    unfold t1Status at h
    rw [if_neg h1, if_pos h2] at h
    have h22 := h2.2
    rw [← h] at h22
    exact absurd h22 (by decide)
  rw [if_neg h2]
  by_cases h3 : st.1 = State.released
  · rw [if_pos h3]
    have hst : task.status = Status.FixReleased := by
      have h := hfix
      unfold t1Status at h
      rw [if_neg h1, if_neg h2, if_pos h3] at h
      exact h.symm
    have him := himp (by rw [h3]; decide)
    unfold vSetStatus vSetImportance
    dsimp only
    rw [if_pos hst]
    dsimp only
    rw [if_pos him]
    rfl
  rw [if_neg h3]
  by_cases h4 : (st.1 = State.notAffected ∨ st.1 = State.ignored) ∧
      task.status = Status.New
  · exfalso
    have h := hfix
    unfold t1Status at h
    rw [if_neg h1, if_neg h2, if_neg h3, if_pos h4] at h
    have h42 := h4.2
    rw [← h] at h42
    exact absurd h42 (by decide)
  rw [if_neg h4]
  by_cases h5 : st.1 = State.deferred
  · rw [if_pos h5]
  · rw [if_neg h5]
    have him := himp h5
    unfold vSetImportance
    dsimp only
    rw [if_pos him]
    rfl

/-- The phase-2 transformer is a no-op at a pull fixpoint. -/
theorem phase2RelV_noop (cfg : Config) (opt : Opt) (src rel : String)
    (st : State × String) (task : Task)
    (hg : ¬(develMap cfg rel = "" ∨ develMap cfg rel = "upstream" ∨
      develMap cfg rel ∈ cfg.eolReleases))
    (hfix : st.1 = State.deferred ∨ pullState task.status st.1 = st.1) :
    phase2RelV cfg opt src rel (some st, some task) =
      ((some st, some task), false) := by
  unfold phase2RelV
  rw [if_neg hg]
  dsimp only
  by_cases h1 : st.1 = State.deferred
  · rw [if_pos h1]
  rw [if_neg h1]
  have hp : pullState task.status st.1 = st.1 := by
    rcases hfix with h | h
    · exact absurd h h1
    · exact h
  by_cases h2 : task.status = Status.Confirmed ∨ task.status = Status.Triaged ∨
      task.status = Status.InProgress
  · rw [if_pos h2]
    have hx : st.1 = State.needed := by
      have h := hp
      unfold pullState at h
      rw [if_pos h2] at h
      exact h.symm
    unfold vSetState
    dsimp only
    rw [if_pos hx]
  rw [if_neg h2]
  by_cases h3 : task.status = Status.New ∧ st.1 ≠ State.needed
  · rw [if_pos h3]
    have hx : st.1 = State.needsTriage := by
      have h := hp
      unfold pullState at h
      rw [if_neg h2, if_pos h3] at h
      exact h.symm
    unfold vSetState
    dsimp only
    rw [if_pos hx]
  rw [if_neg h3]
  by_cases h4 : task.status = Status.Invalid ∧
      ¬(st.1 = State.DNE ∨ st.1 = State.ignored)
  · rw [if_pos h4]
    have hx : st.1 = State.notAffected := by
      have h := hp
      unfold pullState at h
      rw [if_neg h2, if_neg h3, if_pos h4] at h
      exact h.symm
    unfold vSetState
    dsimp only
    rw [if_pos hx]
  · rw [if_neg h4]

/-- The phase-3 transformer is a no-op when a needs-triage state sits over New. -/
theorem phase3RelV_noop (cfg : Config) (opt : Opt) (src rel : String)
    (st : State × String) (task : Task)
    (hg : ¬(develMap cfg rel = "" ∨ develMap cfg rel = "upstream" ∨
      develMap cfg rel ∈ cfg.eolReleases))
    (hfix : st.1 = State.needsTriage → task.status = Status.New) :
    phase3RelV cfg opt src rel (some st, some task) =
      ((some st, some task), false) := by
  unfold phase3RelV
  rw [if_neg hg]
  dsimp only
  by_cases h : st.1 = State.needsTriage
  · rw [if_pos h]
    unfold vSetStatus
    dsimp only
    rw [if_pos (hfix h)]
  · rw [if_neg h]

/-- cellOK for a fully processed cell at a complete fixpoint. -/
theorem cellOK_full (cfg : Config) (opt : Opt) (data : Record) (src rel : String)
    (st : State × String) (task : Task)
    (hg1 : ¬(develMap cfg rel = "" ∨ develMap cfg rel = "upstream" ∨
      develMap cfg rel ∈ cfg.eolReleases))
    (hg2 : ¬(develMap cfg rel = "product" ∨ develMap cfg rel = "snap"))
    (hfix : t1Status st.1 task.status = task.status)
    (himp : st.1 ≠ State.deferred →
      task.importance = priority_to_importance (contextual_priority data src rel))
    (hfix2 : st.1 = State.deferred ∨ pullState task.status st.1 = st.1)
    (hfix3 : st.1 = State.needsTriage → task.status = Status.New) :
    cellOK cfg opt data src rel (some st, some task) :=
  ⟨phase1RelV_noop cfg opt data src rel st task hg1 hg2 hfix himp,
    phase2RelV_noop cfg opt src rel st task hg1 hfix2,
    phase3RelV_noop cfg opt src rel st task hg1 hfix3⟩

/-- cellOK for a product/snap cell at a pull fixpoint. -/
theorem cellOK_prodsnap (cfg : Config) (opt : Opt) (data : Record) (src rel : String)
    (st : State × String) (task : Task)
    (hg1 : ¬(develMap cfg rel = "" ∨ develMap cfg rel = "upstream" ∨
      develMap cfg rel ∈ cfg.eolReleases))
    (hg2 : develMap cfg rel = "product" ∨ develMap cfg rel = "snap")
    (hfix2 : st.1 = State.deferred ∨ pullState task.status st.1 = st.1)
    (hfix3 : st.1 = State.needsTriage → task.status = Status.New) :
    cellOK cfg opt data src rel (some st, some task) :=
  ⟨phase1RelV_skip2 cfg opt data src rel _ hg1 hg2,
    phase2RelV_noop cfg opt src rel st task hg1 hfix2,
    phase3RelV_noop cfg opt src rel st task hg1 hfix3⟩


/-! ## View evolution across the phases -/

theorem alookup_isSome_congr {α β : Type} (l1 : List (String × α))
    (l2 : List (String × β)) (k : String) (h : l1.map Prod.fst = l2.map Prod.fst) :
    (alookup l1 k).isSome = (alookup l2 k).isSome := by
  by_cases hm : k ∈ l1.map Prod.fst
  · rw [(alookup_isSome_iff l1 k).mpr hm, (alookup_isSome_iff l2 k).mpr (h ▸ hm)]
  · have h1 : ¬(alookup l1 k).isSome = true := fun hc => hm ((alookup_isSome_iff l1 k).mp hc)
    have h2 : ¬(alookup l2 k).isSome = true := fun hc => hm (h ▸ (alookup_isSome_iff l2 k).mp hc)
    rw [Bool.not_eq_true] at h1 h2
    rw [h1, h2]

/-- The outer task binding survives the EOL sweep. -/
theorem eolSweep_binding (w : World) (src : String) :
    (alookup (eolSweep w).1.bug.tasks src).isSome = (alookup w.bug.tasks src).isSome :=
  alookup_isSome_congr _ _ src (eolSweep_props w).2.2.2.2.2.2.2

/-- The state component of a view is untouched by the phase-1 transformer. -/
theorem phase1RelV_stateComp (cfg : Config) (opt : Opt) (data : Record)
    (src rel : String) (v : CellView) :
    ((phase1RelV cfg opt data src rel v).1).1 = v.1 := by
  obtain ⟨v1, v2⟩ := v
  unfold phase1RelV
  dsimp only
  split
  · rfl
  split
  · rfl
  cases v1 with
  | none => rfl
  | some st =>
    cases v2 with
    | none => rfl
    | some task =>
      dsimp only
      by_cases h1 : st.1 = State.DNE
      · rw [if_pos h1]
      rw [if_neg h1]
      by_cases h2 : st.1 = State.pending ∧ pendingEligible task.status
      · rw [if_pos h2]
      rw [if_neg h2]
      by_cases h3 : st.1 = State.released
      · rw [if_pos h3]
      rw [if_neg h3]
      by_cases h4 : (st.1 = State.notAffected ∨ st.1 = State.ignored) ∧
          task.status = Status.New
      · rw [if_pos h4]
      rw [if_neg h4]
      by_cases h5 : st.1 = State.deferred
      · rw [if_pos h5]
      · rw [if_neg h5]

/-- The task component of a view is untouched by the phase-2 transformer. -/
theorem phase2RelV_taskComp (cfg : Config) (opt : Opt) (src rel : String)
    (v : CellView) : ((phase2RelV cfg opt src rel v).1).2 = v.2 := by
  obtain ⟨v1, v2⟩ := v
  unfold phase2RelV
  dsimp only
  split
  · rfl
  cases v1 with
  | none => rfl
  | some st =>
    cases v2 with
    | none => rfl
    | some task =>
      dsimp only
      by_cases h1 : st.1 = State.deferred
      · rw [if_pos h1]
      rw [if_neg h1]
      by_cases h2 : task.status = Status.Confirmed ∨ task.status = Status.Triaged ∨
          task.status = Status.InProgress
      · rw [if_pos h2]
      rw [if_neg h2]
      by_cases h3 : task.status = Status.New ∧ st.1 ≠ State.needed
      · rw [if_pos h3]
      rw [if_neg h3]
      by_cases h4 : task.status = Status.Invalid ∧
          ¬(st.1 = State.DNE ∨ st.1 = State.ignored)
      · rw [if_pos h4]
      · rw [if_neg h4]

/-- The state component of a view is untouched by the phase-3 transformer. -/
theorem phase3RelV_stateComp (cfg : Config) (opt : Opt) (src rel : String)
    (v : CellView) : ((phase3RelV cfg opt src rel v).1).1 = v.1 := by
  obtain ⟨v1, v2⟩ := v
  unfold phase3RelV
  dsimp only
  split
  · rfl
  cases v1 with
  | none => rfl
  | some st =>
    cases v2 with
    | none => rfl
    | some task =>
      dsimp only
      by_cases h1 : st.1 = State.needsTriage
      · rw [if_pos h1]
      · rw [if_neg h1]

/-- Phase 1 acts on a non-EOL cell exactly as its view transformer. -/
theorem phase1_view_evolution (w : World) (hwf : WF w) (src rel : String)
    (st0 : State × String) (hker : src ∈ w.cfg.kernelSrcs)
    (hbind : (alookup w.bug.tasks src).isSome = true)
    (hS : getState w src rel = some st0)
    (hgeol : develMap w.cfg rel ∉ w.cfg.eolReleases) :
    view w.cfg (sync_to_bug_phase1 w).1 src rel =
      (phase1RelV w.cfg w.opt w.data src rel (view w.cfg w src rel)).1 := by
  have hsw := eolSweep_props w
  have hS1 : getState (eolSweep w).1 src rel = some st0 := by
    rw [getState_congr hsw.2.2.1 src rel]; exact hS
  have hwf1 : WF (eolSweep w).1 := eolSweep_WF w hwf
  have hfacts := cell_facts hwf1 hS1
  have hbind1 : (alookup (eolSweep w).1.bug.tasks src).isSome = true := by
    rw [eolSweep_binding]; exact hbind
  have htgt := pkgLoopGo_target phase1Rel
    (phase1RelV (eolSweep w).1.cfg (eolSweep w).1.opt (eolSweep w).1.data) (eolSweep w).1
    (fun w2 s r => phase1Rel_same w2 s r)
    (fun w2 s r s2 r2 hc hcf => phase1Rel_frame (eolSweep w).1.cfg w2 s r s2 r2 hc hcf)
    (fun w2 hw s r => phase1Rel_cell (eolSweep w).1 w2 hw s r)
    src rel (by rw [hsw.1]; exact hker) hbind1 hfacts.2.2.1 hfacts.2.2.2.1
    (fun r2 h2 hne => hfacts.2.2.2.2 r2 h2 hne)
    ((eolSweep w).1.data.pkgs.map Prod.fst) (eolSweep w).1 (eolSweep w).2
    (SameC.refl (eolSweep w).1) hfacts.1 hfacts.2.1
  have hres : (sync_to_bug_phase1 w).1 =
      (pkgLoopGo phase1Rel ((eolSweep w).1.data.pkgs.map Prod.fst) (eolSweep w).1
        (eolSweep w).2).1 := rfl
  have hview1 : view w.cfg (eolSweep w).1 src rel = view w.cfg w src rel := by
    unfold view
    rw [getState_congr hsw.2.2.1 src rel, eolSweep_frame_rel w src _ hgeol]
  rw [hsw.1, hsw.2.1, hsw.2.2.1, hview1] at htgt
  rw [hsw.2.2.1] at hres
  rw [hres]
  exact htgt.1

/-- Phase 2 acts on a cell exactly as its view transformer. -/
theorem phase2_view_evolution (w : World) (hwf : WF w) (src rel : String)
    (st0 : State × String) (hker : src ∈ w.cfg.kernelSrcs)
    (hbind : (alookup w.bug.tasks src).isSome = true)
    (hS : getState w src rel = some st0) :
    view w.cfg (sync_from_bug_phase2 w).1 src rel =
      (phase2RelV w.cfg w.opt src rel (view w.cfg w src rel)).1 := by
  have hfacts := cell_facts hwf hS
  have htgt := pkgLoopGo_target phase2Rel (phase2RelV w.cfg w.opt) w
    (fun w2 s r => phase2Rel_same w2 s r)
    (fun w2 s r s2 r2 hc hcf => phase2Rel_frame w.cfg w2 s r s2 r2 hc hcf)
    (fun w2 hw s r => phase2Rel_cell w w2 hw s r)
    src rel hker hbind hfacts.2.2.1 hfacts.2.2.2.1
    (fun r2 h2 hne => hfacts.2.2.2.2 r2 h2 hne)
    (w.data.pkgs.map Prod.fst) w false (SameC.refl w) hfacts.1 hfacts.2.1
  rw [phase2_world]
  exact htgt.1

/-- Phase 3 acts on a cell exactly as its view transformer. -/
theorem phase3_view_evolution (w : World) (hwf : WF w) (src rel : String)
    (st0 : State × String) (hker : src ∈ w.cfg.kernelSrcs)
    (hbind : (alookup w.bug.tasks src).isSome = true)
    (hS : getState w src rel = some st0) :
    view w.cfg (sync_to_bug_phase3 w).1 src rel =
      (phase3RelV w.cfg w.opt src rel (view w.cfg w src rel)).1 := by
  have hfacts := cell_facts hwf hS
  have htgt := pkgLoopGo_target phase3Rel (phase3RelV w.cfg w.opt) w
    (fun w2 s r => phase3Rel_same w2 s r)
    (fun w2 s r s2 r2 hc hcf => phase3Rel_frame w.cfg w2 s r s2 r2 hc hcf)
    (fun w2 hw s r => phase3Rel_cell w w2 hw s r)
    src rel hker hbind hfacts.2.2.1 hfacts.2.2.2.1
    (fun r2 h2 hne => hfacts.2.2.2.2 r2 h2 hne)
    (w.data.pkgs.map Prod.fst) w false (SameC.refl w) hfacts.1 hfacts.2.1
  have hworld : (sync_to_bug_phase3 w).1 =
      (set_bug_description (pkgLoopGo phase3Rel (w.data.pkgs.map Prod.fst) w false).1
        (genDescription
          (pkgLoopGo phase3Rel (w.data.pkgs.map Prod.fst) w false).1.cfg
          (pkgLoopGo phase3Rel (w.data.pkgs.map Prod.fst) w false).1.data
          (pkgLoopGo phase3Rel (w.data.pkgs.map Prod.fst) w false).1.bug.tasks
          ((pkgLoopGo phase3Rel (w.data.pkgs.map Prod.fst) w false).1.data.pkgs.map
            Prod.fst))).1 := rfl
  rw [hworld]
  have hv : view w.cfg (set_bug_description
      (pkgLoopGo phase3Rel (w.data.pkgs.map Prod.fst) w false).1
      (genDescription
        (pkgLoopGo phase3Rel (w.data.pkgs.map Prod.fst) w false).1.cfg
        (pkgLoopGo phase3Rel (w.data.pkgs.map Prod.fst) w false).1.data
        (pkgLoopGo phase3Rel (w.data.pkgs.map Prod.fst) w false).1.bug.tasks
        ((pkgLoopGo phase3Rel (w.data.pkgs.map Prod.fst) w false).1.data.pkgs.map
          Prod.fst))).1 src rel =
      view w.cfg (pkgLoopGo phase3Rel (w.data.pkgs.map Prod.fst) w false).1 src rel := by
    unfold view
    rw [getState_set_bug_description, getTask_set_bug_description]
  rw [hv]
  exact htgt.1


/-! ## Preservation lemmas for a full run -/

theorem SameC.symm {w₀ w : World} (h : SameC w₀ w) : SameC w w₀ :=
  ⟨h.cfg.symm, h.opt.symm, h.title.symm, h.tags.symm, h.desc.symm, h.noms.symm,
    h.tshape.symm, h.pshape.symm, h.candidate.symm, h.ddesc.symm, h.dudesc.symm,
    h.dbugs.symm, h.patches.symm, h.dprio.symm, h.drel.symm, h.dsrc.symm⟩

/-- Task presence transfers along loop-constant preservation. -/
theorem getTask_isSome_of_SameC {w₀ w : World} (h : SameC w₀ w) (s r : String) :
    (getTask w s r).isSome = (getTask w₀ s r).isSome := by
  cases h0 : getTask w₀ s r with
  | none => rw [getTask_none_of_SameC h s r h0]
  | some tk =>
    cases h1 : getTask w s r with
    | some tk2 => rfl
    | none =>
      rw [getTask_none_of_SameC h.symm s r h1] at h0
      cases h0

/-- A record entry absent before a loop-constant-preserving step is absent after. -/
theorem getState_none_of_SameC {w₀ w : World} (h : SameC w₀ w) (s r : String)
    (hn : getState w₀ s r = none) : getState w s r = none := by
  unfold getState at hn ⊢
  have hsh : alookup (pkgShape w) s = alookup (pkgShape w₀) s := by rw [h.pshape]
  unfold pkgShape at hsh
  rw [alookup_map_shape, alookup_map_shape] at hsh
  cases hm : alookup w.data.pkgs s with
  | none => rfl
  | some m =>
    cases hm0 : alookup w₀.data.pkgs s with
    | none => rw [hm, hm0] at hsh; simp at hsh
    | some m0 =>
      rw [hm, hm0] at hsh
      simp at hsh
      rw [hm0] at hn
      show alookup m r = none
      have hn2 : alookup m0 r = none := hn
      rw [alookup_none_iff] at hn2 ⊢
      rw [hsh]
      exact hn2

theorem phase1Rel_data (w : World) (s r : String) : (phase1Rel w s r).1.data = w.data := by
  unfold phase1Rel
  dsimp only
  split
  · rfl
  split
  · rfl
  split
  · split
    · rw [data_set_task_importance, data_set_task_status_iff_exists]
    split
    · rw [data_set_task_importance, data_set_task_status]
    split
    · rw [data_set_task_importance, data_set_task_status]
    split
    · rw [data_set_task_importance, data_set_task_status]
    split
    · rfl
    · rw [data_set_task_importance]
  · rfl
  · rfl

theorem phase3Rel_data (w : World) (s r : String) : (phase3Rel w s r).1.data = w.data := by
  unfold phase3Rel
  dsimp only
  split
  · rfl
  split
  · split
    · rw [data_set_task_status]
    · rfl
  · rfl
  · rfl

theorem relLoopGo_data (cellF : World → String → String → World × Bool)
    (hcell : ∀ w s r, (cellF w s r).1.data = w.data) (src : String) :
    ∀ (rels : List String) (w : World) (t : Bool),
      (relLoopGo cellF src rels w t).1.data = w.data := by
  intro rels
  induction rels with
  | nil => intro w t; rfl
  | cons rel rest ih =>
    intro w t
    simp only [relLoopGo]
    rw [ih, hcell]

theorem pkgLoopGo_data (cellF : World → String → String → World × Bool)
    (hcell : ∀ w s r, (cellF w s r).1.data = w.data) :
    ∀ (srcs : List String) (w : World) (t : Bool),
      (pkgLoopGo cellF srcs w t).1.data = w.data := by
  intro srcs
  induction srcs with
  | nil => intro w t; rfl
  | cons src rest ih =>
    intro w t
    simp only [pkgLoopGo]
    by_cases h1 : src ∈ w.cfg.kernelSrcs
    · rw [if_pos h1]
      by_cases h2 : (alookup w.bug.tasks src).isSome = true
      · rw [if_pos h2, ih, relLoopGo_data cellF hcell]
      · rw [if_neg h2, ih]
    · rw [if_neg h1, ih]

theorem data_set_bug_description (w : World) (d : String) :
    (set_bug_description w d).1.data = w.data := by
  unfold set_bug_description
  dsimp only
  split
  · rfl
  split
  · rfl
  split
  · split
    · rfl
    · rfl
  · rfl

theorem sync_to_bug_phase1_data (w : World) : (sync_to_bug_phase1 w).1.data = w.data := by
  show (pkgLoopGo phase1Rel _ (eolSweep w).1 (eolSweep w).2).1.data = w.data
  rw [pkgLoopGo_data phase1Rel phase1Rel_data]
  exact (eolSweep_props w).2.2.1

theorem sync_to_bug_phase3_data (w : World) : (sync_to_bug_phase3 w).1.data = w.data := by
  show (set_bug_description (pkgLoopGo phase3Rel _ w false).1 _).1.data = w.data
  rw [data_set_bug_description]
  exact pkgLoopGo_data phase3Rel phase3Rel_data _ w false

/-- The task map survives set_bug_description. -/
theorem tasks_set_bug_description (w : World) (d : String) :
    (set_bug_description w d).1.bug.tasks = w.bug.tasks := by
  unfold set_bug_description
  dsimp only
  split
  · rfl
  split
  · rfl
  split
  · split
    · rfl
    · rfl
  · rfl

theorem tags_set_bug_description (w : World) (d : String) :
    (set_bug_description w d).1.bug.tags = w.bug.tags := by
  unfold set_bug_description
  dsimp only
  split
  · rfl
  split
  · rfl
  split
  · split
    · rfl
    · rfl
  · rfl


theorem pkgs_set_uct_state_ne (w : World) (s r : String) (x : State) (s0 : String)
    (hne : s ≠ s0) :
    alookup (set_uct_state w s r x).1.data.pkgs s0 = alookup w.data.pkgs s0 := by
  cases hm : getState w s r with
  | none => rw [set_uct_state_of_none x hm]
  | some cur =>
    rw [set_uct_state_of_some x hm]
    by_cases h1 : cur.1 = x
    · rw [if_pos h1]
    · rw [if_neg h1]
      by_cases h2 : w.opt.update = true
      · rw [if_pos h2]
        show alookup (amodify w.data.pkgs s _) s0 = _
        rw [alookup_amodify, if_neg hne]
      · rw [if_neg h2]

theorem phase2Rel_pkgs_ne (w : World) (s r : String) (s0 : String) (hne : s ≠ s0) :
    alookup (phase2Rel w s r).1.data.pkgs s0 = alookup w.data.pkgs s0 := by
  unfold phase2Rel
  dsimp only
  split
  · rfl
  split
  · split
    · rfl
    split
    · rw [pkgs_set_uct_state_ne w s r _ s0 hne]
    split
    · rw [pkgs_set_uct_state_ne w s r _ s0 hne]
    split
    · rw [pkgs_set_uct_state_ne w s r _ s0 hne]
    · rfl
  · rfl
  · rfl

theorem relLoopGo_pkgs_ne (s s0 : String) (hne : s ≠ s0) :
    ∀ (rels : List String) (w : World) (t : Bool),
      alookup (relLoopGo phase2Rel s rels w t).1.data.pkgs s0 =
        alookup w.data.pkgs s0 := by
  intro rels
  induction rels with
  | nil => intro w t; rfl
  | cons rel rest ih =>
    intro w t
    simp only [relLoopGo]
    rw [ih, phase2Rel_pkgs_ne w s rel s0 hne]

/-- The phase-2 loop never touches the record entry of a source it does not process:
    a source outside the kernel set or without a task binding. -/
theorem phase2Loop_pkgs_skip (w₀ : World) (s0 : String)
    (hskip : s0 ∉ w₀.cfg.kernelSrcs ∨ (alookup w₀.bug.tasks s0).isSome = false) :
    ∀ (srcs : List String) (w : World) (t : Bool), SameC w₀ w →
      alookup (pkgLoopGo phase2Rel srcs w t).1.data.pkgs s0 =
        alookup w.data.pkgs s0 := by
  intro srcs
  induction srcs with
  | nil => intro w t hw; rfl
  | cons src rest ih =>
    intro w t hw
    simp only [pkgLoopGo]
    by_cases h1 : src ∈ w.cfg.kernelSrcs
    · rw [if_pos h1]
      by_cases h2 : (alookup w.bug.tasks src).isSome = true
      · rw [if_pos h2]
        have hne : src ≠ s0 := by
          intro he
          subst he
          rcases hskip with h | h
          · rw [hw.cfg] at h1
            exact h h1
          · rw [taskPresent_of_SameC hw src] at h2
            rw [h2] at h
            cases h
        have hsame2 : SameC w₀ (relLoopGo phase2Rel src
            (((alookup w.data.pkgs src).getD []).map Prod.fst) w t).1 :=
          hw.comp (relLoopGo_same phase2Rel (fun w2 s r => phase2Rel_same w2 s r)
            src _ w t)
        rw [ih _ _ hsame2, relLoopGo_pkgs_ne src s0 hne]
      · rw [if_neg h2]
        exact ih w t hw
    · rw [if_neg h1]
      exact ih w t hw


theorem uct_src_all_congr (cfg : Config) (src : String) {d1 d2 : Record}
    (h : alookup d1.pkgs src = alookup d2.pkgs src) :
    uct_src_all_nominations_DNE cfg src d1 = uct_src_all_nominations_DNE cfg src d2 := by
  unfold uct_src_all_nominations_DNE
  rw [h]

theorem cfg_set_bug_description (w : World) (d : String) :
    (set_bug_description w d).1.cfg = w.cfg := by
  unfold set_bug_description
  dsimp only
  split
  · rfl
  split
  · rfl
  split
  · split
    · rfl
    · rfl
  · rfl

theorem opt_set_bug_description (w : World) (d : String) :
    (set_bug_description w d).1.opt = w.opt := by
  unfold set_bug_description
  dsimp only
  split
  · rfl
  split
  · rfl
  split
  · split
    · rfl
    · rfl
  · rfl

/-- Convergence depends only on the configuration, options, record and bug fields. -/
theorem Converged_congr {w w2 : World} (hc : w2.cfg = w.cfg) (ho : w2.opt = w.opt)
    (hd : w2.data = w.data) (ht : w2.bug.tasks = w.bug.tasks)
    (h : Converged w) : Converged w2 := by
  unfold Converged
  rw [hc, ho, hd]
  intro src hsrc hker hbind rel hrel
  have hv : view w.cfg w2 src rel = view w.cfg w src rel := by
    unfold view
    rw [getState_congr hd, getTask_congr ht]
  rw [hv]
  rw [ht] at hbind
  exact h src hsrc hker hbind rel hrel

/-- The second description write is a gated no-op: after a first write in live mode
    the description carries either a refused original text or the value just written,
    and the guards are stable. -/
theorem set_bug_description_second (w1 w2 : World) (d : String)
    (hupd : w1.opt.update = true)
    (hdesc : w2.bug.description = (set_bug_description w1 d).1.bug.description)
    (htags : w2.bug.tags = w1.bug.tags) :
    set_bug_description w2 d = (w2, false) := by
  by_cases hA : w1.bug.description ≠ "Placeholder" ∧ sTrim d = "Description needed"
  · have hd2 : w2.bug.description = w1.bug.description := by
      rw [hdesc]
      unfold set_bug_description
      dsimp only
      rw [if_pos hA]
    unfold set_bug_description
    dsimp only
    rw [if_pos (show w2.bug.description ≠ "Placeholder" ∧ sTrim d = "Description needed"
      from ⟨by rw [hd2]; exact hA.1, hA.2⟩)]
  by_cases hB : UCT_DESC_IGNORE_TAG ∈ w1.bug.tags
  · unfold set_bug_description
    dsimp only
    by_cases hA2 : w2.bug.description ≠ "Placeholder" ∧ sTrim d = "Description needed"
    · rw [if_pos hA2]
    · rw [if_neg hA2,
        if_pos (show UCT_DESC_IGNORE_TAG ∈ w2.bug.tags by rw [htags]; exact hB)]
  have hd2 : w2.bug.description = sTrim d := by
    rw [hdesc]
    unfold set_bug_description
    dsimp only
    rw [if_neg hA, if_neg hB]
    by_cases hC : w1.bug.description ≠ sTrim d
    · rw [if_pos hC, if_neg (show ¬(!w1.opt.update) = true by rw [hupd]; decide)]
      rfl
    · rw [if_neg hC]
      exact not_not.mp hC
  unfold set_bug_description
  dsimp only
  by_cases hA2 : w2.bug.description ≠ "Placeholder" ∧ sTrim d = "Description needed"
  · rw [if_pos hA2]
  rw [if_neg hA2]
  rw [if_neg (show ¬UCT_DESC_IGNORE_TAG ∈ w2.bug.tags by rw [htags]; exact hB)]
  rw [if_neg (show ¬w2.bug.description ≠ sTrim d from fun hc => hc hd2)]


theorem srcPatchPairs_congr {d1 d2 : Record} (src : String)
    (h : d1.patches = d2.patches) : srcPatchPairs d1 src = srcPatchPairs d2 src := by
  unfold srcPatchPairs
  rw [h]

/-- The regenerated description depends only on the patch lines, the two description
    fields, the kernel source list and which sources carry a task binding. -/
theorem genDescription_congr (cfg : Config) {d1 d2 : Record}
    {tasks1 tasks2 : List (String × List (String × Task))} (srcs : List String)
    (hpat : d1.patches = d2.patches)
    (hdesc : d1.description = d2.description)
    (hudesc : d1.ubuntuDescription = d2.ubuntuDescription)
    (htask : ∀ s ∈ srcs, (alookup tasks1 s).isSome = (alookup tasks2 s).isSome) :
    genDescription cfg d1 tasks1 srcs = genDescription cfg d2 tasks2 srcs := by
  have hstep : ∀ (acc : List (String × String)) (a : String),
      (alookup tasks1 a).isSome = (alookup tasks2 a).isSome →
      (if a ∈ cfg.kernelSrcs then
        if (alookup tasks1 a).isSome then acc ++ srcPatchPairs d1 a else acc
      else acc) =
      (if a ∈ cfg.kernelSrcs then
        if (alookup tasks2 a).isSome then acc ++ srcPatchPairs d2 a else acc
      else acc) := by
    intro acc a ha
    by_cases h1 : a ∈ cfg.kernelSrcs
    · rw [if_pos h1, if_pos h1, ha, srcPatchPairs_congr a hpat]
    · rw [if_neg h1, if_neg h1]
  have hfold : ∀ (l : List String) (acc : List (String × String)),
      (∀ s ∈ l, (alookup tasks1 s).isSome = (alookup tasks2 s).isSome) →
      l.foldl (fun acc src => if src ∈ cfg.kernelSrcs then
          if (alookup tasks1 src).isSome then acc ++ srcPatchPairs d1 src else acc
        else acc) acc =
      l.foldl (fun acc src => if src ∈ cfg.kernelSrcs then
          if (alookup tasks2 src).isSome then acc ++ srcPatchPairs d2 src else acc
        else acc) acc := by
    intro l
    induction l with
    | nil => intro acc h; rfl
    | cons a t ih =>
      intro acc h
      simp only [List.foldl_cons]
      rw [hstep acc a (h a (List.mem_cons_self a t))]
      exact ih _ (fun s hs => h s (List.mem_cons_of_mem a hs))
  unfold genDescription
  rw [hdesc, hudesc, hfold srcs [] htask]


/-! ## Relations between a run start and its end world -/

theorem WF_congr {w w2 : World} (hc : w2.cfg = w.cfg) (hd : w2.data = w.data)
    (ht : w2.bug.tasks = w.bug.tasks) (h : WF w) : WF w2 := by
  unfold WF pkgShape taskShape
  rw [hc, hd, ht]
  exact h

theorem phase3_loop_SameC (w : World) : SameC w (pkgLoop phase3Rel w false).1 :=
  pkgLoopGo_same phase3Rel (fun w2 s r => phase3Rel_same w2 s r) _ w false

theorem sync_to_bug_phase3_world (w : World) :
    (sync_to_bug_phase3 w).1 =
      (set_bug_description (pkgLoop phase3Rel w false).1
        (genDescription (pkgLoop phase3Rel w false).1.cfg
          (pkgLoop phase3Rel w false).1.data
          (pkgLoop phase3Rel w false).1.bug.tasks
          ((pkgLoop phase3Rel w false).1.data.pkgs.map Prod.fst))).1 := rfl

theorem WF_phase3 (w : World) (hwf : WF w) : WF (sync_to_bug_phase3 w).1 := by
  rw [sync_to_bug_phase3_world]
  exact WF_congr (cfg_set_bug_description _ _)
    (data_set_bug_description _ _) (tasks_set_bug_description _ _)
    (WF_of_SameC (phase3_loop_SameC w) hwf)

theorem sync_to_bug_phase3_props (w : World) :
    (sync_to_bug_phase3 w).1.cfg = w.cfg ∧ (sync_to_bug_phase3 w).1.opt = w.opt ∧
    (sync_to_bug_phase3 w).1.bug.tags = w.bug.tags ∧
    (sync_to_bug_phase3 w).1.bug.tasks = (pkgLoop phase3Rel w false).1.bug.tasks := by
  rw [sync_to_bug_phase3_world]
  exact ⟨(cfg_set_bug_description _ _).trans (phase3_loop_SameC w).cfg,
    (opt_set_bug_description _ _).trans (phase3_loop_SameC w).opt,
    (tags_set_bug_description _ _).trans (phase3_loop_SameC w).tags,
    tasks_set_bug_description _ _⟩

theorem runE_cfg (g : World) :
    (sync_to_bug_phase3 (sync_from_bug_phase2 (sync_to_bug_phase1 g).1).1).1.cfg =
      g.cfg := by
  rw [(sync_to_bug_phase3_props _).1, (phase2_SameC _).cfg,
    (sync_to_bug_phase1_props g).1]

theorem runE_opt (g : World) :
    (sync_to_bug_phase3 (sync_from_bug_phase2 (sync_to_bug_phase1 g).1).1).1.opt =
      g.opt := by
  rw [(sync_to_bug_phase3_props _).2.1, (phase2_SameC _).opt,
    (sync_to_bug_phase1_props g).2.1]

theorem runE_tags (g : World) :
    (sync_to_bug_phase3 (sync_from_bug_phase2 (sync_to_bug_phase1 g).1).1).1.bug.tags =
      g.bug.tags := by
  rw [(sync_to_bug_phase3_props _).2.2.1, (phase2_SameC _).tags,
    (sync_to_bug_phase1_props g).2.2.2]

theorem runE_WF (g : World) (hwf : WF g) :
    WF (sync_to_bug_phase3 (sync_from_bug_phase2 (sync_to_bug_phase1 g).1).1).1 :=
  WF_phase3 _ (WF_phase2 _ (WF_phase1 g hwf))

theorem runE_binding (g : World) (src : String) :
    (alookup (sync_to_bug_phase3 (sync_from_bug_phase2
        (sync_to_bug_phase1 g).1).1).1.bug.tasks src).isSome =
      (alookup g.bug.tasks src).isSome := by
  rw [show (alookup (sync_to_bug_phase3 (sync_from_bug_phase2
        (sync_to_bug_phase1 g).1).1).1.bug.tasks src) =
      (alookup (pkgLoop phase3Rel (sync_from_bug_phase2
        (sync_to_bug_phase1 g).1).1 false).1.bug.tasks src) from by
    rw [(sync_to_bug_phase3_props _).2.2.2]]
  rw [taskPresent_of_SameC (phase3_loop_SameC _) src,
    taskPresent_of_SameC (phase2_SameC _) src,
    taskPresent_of_SameC (phase1_SameC g) src, eolSweep_binding g src]

theorem runE_data_meta (g : World) :
    (sync_to_bug_phase3 (sync_from_bug_phase2
      (sync_to_bug_phase1 g).1).1).1.data.patches = g.data.patches ∧
    (sync_to_bug_phase3 (sync_from_bug_phase2
      (sync_to_bug_phase1 g).1).1).1.data.description = g.data.description ∧
    (sync_to_bug_phase3 (sync_from_bug_phase2
      (sync_to_bug_phase1 g).1).1).1.data.ubuntuDescription =
        g.data.ubuntuDescription ∧
    (sync_to_bug_phase3 (sync_from_bug_phase2
      (sync_to_bug_phase1 g).1).1).1.data.bugsField = g.data.bugsField := by
  have h3 : (sync_to_bug_phase3 (sync_from_bug_phase2 (sync_to_bug_phase1 g).1).1).1.data =
      (sync_from_bug_phase2 (sync_to_bug_phase1 g).1).1.data :=
    sync_to_bug_phase3_data _
  have h1 : (sync_to_bug_phase1 g).1.data = g.data := sync_to_bug_phase1_data g
  have hs2 := phase2_SameC (sync_to_bug_phase1 g).1
  rw [h3]
  refine ⟨?_, ?_, ?_, ?_⟩
  · rw [hs2.patches, h1]
  · rw [hs2.ddesc, h1]
  · rw [hs2.dudesc, h1]
  · rw [hs2.dbugs, h1]

theorem runE_pkgsKeys (g : World) :
    (sync_to_bug_phase3 (sync_from_bug_phase2
      (sync_to_bug_phase1 g).1).1).1.data.pkgs.map Prod.fst =
      g.data.pkgs.map Prod.fst := by
  rw [sync_to_bug_phase3_data _]
  rw [pkgsKeys_of_SameC (phase2_SameC _), sync_to_bug_phase1_data g]

theorem runE_pkgRels (g : World) (src : String) :
    ((alookup (sync_to_bug_phase3 (sync_from_bug_phase2
      (sync_to_bug_phase1 g).1).1).1.data.pkgs src).getD []).map Prod.fst =
      ((alookup g.data.pkgs src).getD []).map Prod.fst := by
  rw [show (alookup (sync_to_bug_phase3 (sync_from_bug_phase2
      (sync_to_bug_phase1 g).1).1).1.data.pkgs src) =
    (alookup (sync_from_bug_phase2 (sync_to_bug_phase1 g).1).1.data.pkgs src) from by
      rw [sync_to_bug_phase3_data _]]
  rw [pkgRels_of_SameC (phase2_SameC _) src, sync_to_bug_phase1_data g]

theorem runE_task_nonEol (g : World) (src R : String) (hR : R ∉ g.cfg.eolReleases) :
    (getTask (sync_to_bug_phase3 (sync_from_bug_phase2
        (sync_to_bug_phase1 g).1).1).1 src R).isSome =
      (getTask g src R).isSome := by
  rw [getTask_congr (sync_to_bug_phase3_props (sync_from_bug_phase2
    (sync_to_bug_phase1 g).1).1).2.2.2 src R]
  rw [getTask_isSome_of_SameC (phase3_loop_SameC _) src R,
    getTask_isSome_of_SameC (phase2_SameC _) src R,
    getTask_isSome_of_SameC (phase1_SameC g) src R,
    eolSweep_frame_rel g src R hR]

theorem runE_task_eol_none (g : World) (hwf : WF g) (hu : g.opt.update = true)
    (ha : g.opt.allowEolTasks = false) (src R : String)
    (hk : src ∈ g.cfg.kernelSrcs) (hR : R ∈ g.cfg.eolReleases) :
    getTask (sync_to_bug_phase3 (sync_from_bug_phase2
      (sync_to_bug_phase1 g).1).1).1 src R = none := by
  have h0 : getTask (eolSweep g).1 src R = none :=
    eolSweep_deletes g hwf hu ha src R hk hR
  have h1 := getTask_none_of_SameC (phase1_SameC g) src R h0
  have h2 := getTask_none_of_SameC (phase2_SameC _) src R h1
  have h3 := getTask_none_of_SameC (phase3_loop_SameC _) src R h2
  rw [getTask_congr (sync_to_bug_phase3_props (sync_from_bug_phase2
    (sync_to_bug_phase1 g).1).1).2.2.2 src R]
  exact h3

theorem runE_state_none (g : World) (src r : String)
    (h : getState g src r = none) :
    getState (sync_to_bug_phase3 (sync_from_bug_phase2
      (sync_to_bug_phase1 g).1).1).1 src r = none := by
  have h1 : getState (sync_to_bug_phase1 g).1 src r = none := by
    rw [getState_congr (sync_to_bug_phase1_data g)]
    exact h
  have h2 := getState_none_of_SameC (phase2_SameC _) src r h1
  rw [getState_congr (sync_to_bug_phase3_data _)]
  exact h2

theorem runE_pkgs_entry (g : World) (src : String)
    (hskip : (alookup g.bug.tasks src).isSome = false) :
    alookup (sync_to_bug_phase3 (sync_from_bug_phase2
      (sync_to_bug_phase1 g).1).1).1.data.pkgs src = alookup g.data.pkgs src := by
  have hbindA : (alookup (sync_to_bug_phase1 g).1.bug.tasks src).isSome = false := by
    rw [taskPresent_of_SameC (phase1_SameC g) src, eolSweep_binding g src]
    exact hskip
  have h2 : alookup (sync_from_bug_phase2 (sync_to_bug_phase1 g).1).1.data.pkgs src =
      alookup (sync_to_bug_phase1 g).1.data.pkgs src := by
    rw [phase2_world]
    exact phase2Loop_pkgs_skip (sync_to_bug_phase1 g).1 src (Or.inr hbindA) _ _ false
      (SameC.refl _)
  rw [show alookup (sync_to_bug_phase3 (sync_from_bug_phase2
      (sync_to_bug_phase1 g).1).1).1.data.pkgs src =
    alookup (sync_from_bug_phase2 (sync_to_bug_phase1 g).1).1.data.pkgs src from by
      rw [sync_to_bug_phase3_data _]]
  rw [h2, sync_to_bug_phase1_data g]


theorem runE_ctx (g : World) (src rel : String) :
    contextual_priority (sync_to_bug_phase3 (sync_from_bug_phase2
      (sync_to_bug_phase1 g).1).1).1.data src rel =
    contextual_priority g.data src rel := by
  unfold contextual_priority
  rw [sync_to_bug_phase3_data, (phase2_SameC _).drel, (phase2_SameC _).dsrc,
    (phase2_SameC _).dprio, sync_to_bug_phase1_data g]

theorem getState_isSome_of_mem (w : World) (src rel : String)
    (hsrc : src ∈ w.data.pkgs.map Prod.fst)
    (hrel : rel ∈ ((alookup w.data.pkgs src).getD []).map Prod.fst) :
    (getState w src rel).isSome = true := by
  unfold getState
  have hs := (alookup_isSome_iff w.data.pkgs src).mpr hsrc
  cases hm : alookup w.data.pkgs src with
  | none => rw [hm] at hs; cases hs
  | some m =>
    rw [hm] at hrel
    show (alookup m rel).isSome = true
    exact (alookup_isSome_iff m rel).mpr (by simpa using hrel)

theorem vSetState_some (u : Bool) (st : State × String) (x : State) :
    ∃ y, (vSetState u (some st) x).1 = some y := by
  unfold vSetState
  dsimp only
  by_cases h : st.1 = x
  · rw [if_pos h]
    exact ⟨st, rfl⟩
  · rw [if_neg h]
    by_cases hu : u = true
    · rw [if_pos hu]
      exact ⟨(x, st.2), rfl⟩
    · rw [if_neg hu]
      exact ⟨st, rfl⟩

theorem phase2RelV_stateSome (cfg : Config) (opt : Opt) (src rel : String)
    (v : CellView) (st : State × String) (h : v.1 = some st) :
    ∃ st2, ((phase2RelV cfg opt src rel v).1).1 = some st2 := by
  obtain ⟨v1, v2⟩ := v
  dsimp only at h
  subst h
  cases v2 with
  | none => rw [phase2RelV_taskNone]; exact ⟨st, rfl⟩
  | some tk =>
    by_cases hg : develMap cfg rel = "" ∨ develMap cfg rel = "upstream" ∨
        develMap cfg rel ∈ cfg.eolReleases
    · rw [phase2RelV_skip cfg opt src rel _ hg]
      exact ⟨st, rfl⟩
    · unfold phase2RelV
      rw [if_neg hg]
      dsimp only
      by_cases h1 : st.1 = State.deferred
      · rw [if_pos h1]
        exact ⟨st, rfl⟩
      rw [if_neg h1]
      by_cases h2 : tk.status = Status.Confirmed ∨ tk.status = Status.Triaged ∨
          tk.status = Status.InProgress
      · rw [if_pos h2]
        obtain ⟨y, hy⟩ := vSetState_some opt.update st State.needed
        exact ⟨y, hy⟩
      rw [if_neg h2]
      by_cases h3 : tk.status = Status.New ∧ st.1 ≠ State.needed
      · rw [if_pos h3]
        obtain ⟨y, hy⟩ := vSetState_some opt.update st State.needsTriage
        exact ⟨y, hy⟩
      rw [if_neg h3]
      by_cases h4 : tk.status = Status.Invalid ∧
          ¬(st.1 = State.DNE ∨ st.1 = State.ignored)
      · rw [if_pos h4]
        obtain ⟨y, hy⟩ := vSetState_some opt.update st State.notAffected
        exact ⟨y, hy⟩
      · rw [if_neg h4]
        exact ⟨st, rfl⟩

theorem binding_phase1 (g : World) (src : String) :
    (alookup (sync_to_bug_phase1 g).1.bug.tasks src).isSome =
      (alookup g.bug.tasks src).isSome := by
  rw [taskPresent_of_SameC (phase1_SameC g) src, eolSweep_binding g src]

/-- One full run acts on a non-EOL cell exactly as the composite of the three view
    transformers. -/
theorem runE_view (g : World) (hwf : WF g) (src rel : String) (st0 : State × String)
    (hker : src ∈ g.cfg.kernelSrcs)
    (hbind : (alookup g.bug.tasks src).isSome = true)
    (hS : getState g src rel = some st0)
    (hgeol : develMap g.cfg rel ∉ g.cfg.eolReleases) :
    view g.cfg (sync_to_bug_phase3 (sync_from_bug_phase2
        (sync_to_bug_phase1 g).1).1).1 src rel =
      (phase3RelV g.cfg g.opt src rel
        ((phase2RelV g.cfg g.opt src rel
          ((phase1RelV g.cfg g.opt g.data src rel (view g.cfg g src rel)).1)).1)).1 := by
  have props1 := sync_to_bug_phase1_props g
  have hv1 := phase1_view_evolution g hwf src rel st0 hker hbind hS hgeol
  have hwfA := WF_phase1 g hwf
  have hkerA : src ∈ (sync_to_bug_phase1 g).1.cfg.kernelSrcs := by
    rw [props1.1]; exact hker
  have hbindA : (alookup (sync_to_bug_phase1 g).1.bug.tasks src).isSome = true := by
    rw [binding_phase1 g src]; exact hbind
  have hSA : getState (sync_to_bug_phase1 g).1 src rel = some st0 := by
    have h := congrArg Prod.fst hv1
    rw [phase1RelV_stateComp] at h
    have h2 : getState (sync_to_bug_phase1 g).1 src rel =
        (view g.cfg g src rel).1 := h
    rw [h2]
    exact hS
  have hv2raw := phase2_view_evolution (sync_to_bug_phase1 g).1 hwfA src rel st0
    hkerA hbindA hSA
  rw [props1.1, props1.2.1, hv1] at hv2raw
  have hs2 := phase2_SameC (sync_to_bug_phase1 g).1
  have hwfB := WF_phase2 _ hwfA
  have hkerB : src ∈ (sync_from_bug_phase2
      (sync_to_bug_phase1 g).1).1.cfg.kernelSrcs := by
    rw [hs2.cfg]; exact hkerA
  have hbindB : (alookup (sync_from_bug_phase2
      (sync_to_bug_phase1 g).1).1.bug.tasks src).isSome = true := by
    rw [taskPresent_of_SameC hs2 src]; exact hbindA
  have hv0S : ((phase1RelV g.cfg g.opt g.data src rel (view g.cfg g src rel)).1).1 =
      some st0 := by
    rw [phase1RelV_stateComp]
    exact hS
  obtain ⟨st2, hst2⟩ := phase2RelV_stateSome g.cfg g.opt src rel
    ((phase1RelV g.cfg g.opt g.data src rel (view g.cfg g src rel)).1) st0 hv0S
  have hSB : getState (sync_from_bug_phase2 (sync_to_bug_phase1 g).1).1 src rel =
      some st2 := by
    have h := congrArg Prod.fst hv2raw
    rw [hst2] at h
    exact h
  have hv3raw := phase3_view_evolution (sync_from_bug_phase2
    (sync_to_bug_phase1 g).1).1 hwfB src rel st2 hkerB hbindB hSB
  have hcfgB : (sync_from_bug_phase2 (sync_to_bug_phase1 g).1).1.cfg = g.cfg :=
    hs2.cfg.trans props1.1
  have hoptB : (sync_from_bug_phase2 (sync_to_bug_phase1 g).1).1.opt = g.opt :=
    hs2.opt.trans props1.2.1
  rw [hcfgB, hoptB, hv2raw] at hv3raw
  exact hv3raw


theorem t3Status_deferred : ∀ st : Status, t3Status State.deferred st = st := by decide

/-- After one full live run every iterated cell is a fixpoint of all three phase
    bodies. -/
theorem run1_Converged (g : World) (hwf : WF g) (hupd : g.opt.update = true) :
    Converged (sync_to_bug_phase3 (sync_from_bug_phase2
      (sync_to_bug_phase1 g).1).1).1 := by
  intro src hsrcE hkerE hbindE rel hrelE
  have hcfgE := runE_cfg g
  have hoptE := runE_opt g
  rw [hcfgE, hoptE]
  have hker : src ∈ g.cfg.kernelSrcs := by rw [hcfgE] at hkerE; exact hkerE
  have hsrc : src ∈ g.data.pkgs.map Prod.fst := by
    rw [runE_pkgsKeys g] at hsrcE; exact hsrcE
  have hbind : (alookup g.bug.tasks src).isSome = true := by
    rw [runE_binding g src] at hbindE; exact hbindE
  have hrel : rel ∈ ((alookup g.data.pkgs src).getD []).map Prod.fst := by
    rw [runE_pkgRels g src] at hrelE; exact hrelE
  by_cases hg1 : develMap g.cfg rel = "" ∨ develMap g.cfg rel = "upstream" ∨
      develMap g.cfg rel ∈ g.cfg.eolReleases
  · exact cellOK_skip1 _ _ _ _ _ _ hg1
  have hgeol : develMap g.cfg rel ∉ g.cfg.eolReleases :=
    fun hc => hg1 (Or.inr (Or.inr hc))
  obtain ⟨st0, hS⟩ := Option.isSome_iff_exists.mp
    (getState_isSome_of_mem g src rel hsrc hrel)
  have hvE := runE_view g hwf src rel st0 hker hbind hS hgeol
  rw [hvE]
  have hv0 : view g.cfg g src rel = (some st0, getTask g src (develMap g.cfg rel)) := by
    unfold view
    rw [hS]
  cases hT0 : getTask g src (develMap g.cfg rel) with
  | none =>
    rw [hT0] at hv0
    rw [hv0, phase1RelV_taskNone g.cfg g.opt g.data src rel st0]
    dsimp only
    rw [phase2RelV_taskNone g.cfg g.opt src rel st0]
    dsimp only
    rw [phase3RelV_taskNone g.cfg g.opt src rel st0]
    dsimp only
    exact cellOK_taskNone _ _ _ _ _ st0
  | some tk0 =>
    rw [hT0] at hv0
    rw [hv0]
    by_cases hg2 : develMap g.cfg rel = "product" ∨ develMap g.cfg rel = "snap"
    · rw [phase1RelV_skip2 g.cfg g.opt g.data src rel _ hg1 hg2]
      dsimp only
      rw [phase2RelV_eval_full g.cfg g.opt src rel st0 tk0 hupd hg1]
      by_cases hdef : st0.1 = State.deferred
      · rw [if_pos hdef]
        rw [phase3RelV_eval_full g.cfg g.opt src rel (st0.1, st0.2) tk0 hupd hg1]
        refine cellOK_prodsnap g.cfg g.opt _ src rel (st0.1, st0.2) _ hg1 hg2 ?_ ?_
        · left
          exact hdef
        · intro h
          exact absurd (hdef.symm.trans h) (by decide)
      · rw [if_neg hdef]
        rw [phase3RelV_eval_full g.cfg g.opt src rel
          (pullState tk0.status st0.1, st0.2) tk0 hupd hg1]
        refine cellOK_prodsnap g.cfg g.opt _ src rel
          (pullState tk0.status st0.1, st0.2) _ hg1 hg2 ?_ ?_
        · right
          exact (prodsnap_cycle_fixpoint st0.1 tk0.status).1
        · exact (prodsnap_cycle_fixpoint st0.1 tk0.status).2
    · rw [phase1RelV_eval_full g.cfg g.opt g.data src rel st0 tk0 hupd hg1 hg2]
      by_cases hdef : st0.1 = State.deferred
      · rw [if_pos hdef]
        rw [phase2RelV_eval_full g.cfg g.opt src rel st0
          { status := t1Status st0.1 tk0.status, importance := tk0.importance }
          hupd hg1]
        rw [if_pos hdef]
        rw [phase3RelV_eval_full g.cfg g.opt src rel (st0.1, st0.2)
          { status := t1Status st0.1 tk0.status, importance := tk0.importance }
          hupd hg1]
        refine cellOK_full g.cfg g.opt _ src rel (st0.1, st0.2) _ hg1 hg2 ?_ ?_ ?_ ?_
        · show t1Status st0.1 (t3Status st0.1 (t1Status st0.1 tk0.status)) =
            t3Status st0.1 (t1Status st0.1 tk0.status)
          rw [hdef, t1Status_deferred, t3Status_deferred, t1Status_deferred]
        · intro hne
          exact absurd hdef hne
        · left
          exact hdef
        · intro h
          exact absurd (hdef.symm.trans h) (by decide)
      · rw [if_neg hdef]
        rw [phase2RelV_eval_full g.cfg g.opt src rel st0
          { status := t1Status st0.1 tk0.status,
            importance := priority_to_importance (contextual_priority g.data src rel) }
          hupd hg1]
        rw [if_neg hdef]
        rw [phase3RelV_eval_full g.cfg g.opt src rel
          (pullState (t1Status st0.1 tk0.status) st0.1, st0.2)
          { status := t1Status st0.1 tk0.status,
            importance := priority_to_importance (contextual_priority g.data src rel) }
          hupd hg1]
        refine cellOK_full g.cfg g.opt _ src rel _ _ hg1 hg2 ?_ ?_ ?_ ?_
        · exact (full_cycle_fixpoint st0.1 tk0.status).1
        · intro hne
          show priority_to_importance (contextual_priority g.data src rel) =
            priority_to_importance (contextual_priority (sync_to_bug_phase3
              (sync_from_bug_phase2 (sync_to_bug_phase1 g).1).1).1.data src rel)
          rw [runE_ctx g src rel]
        · exact Or.inr (full_cycle_fixpoint st0.1 tk0.status).2.1
        · exact (full_cycle_fixpoint st0.1 tk0.status).2.2

/-- A provisioned world stays provisioned across one full live run. -/
theorem run1_Provisioned (g : World) (hwf : WF g)
    (hnodev : "devel" ∉ g.cfg.releases) (hprov : Provisioned g) :
    Provisioned (sync_to_bug_phase3 (sync_from_bug_phase2
      (sync_to_bug_phase1 g).1).1).1 := by
  intro src hsrcE
  have hcfgE := runE_cfg g
  have hoptE := runE_opt g
  have hker : src ∈ g.cfg.kernelSrcs := by rw [hcfgE] at hsrcE; exact hsrcE
  obtain ⟨hp1, hp2⟩ := hprov src hker
  constructor
  · by_cases hb : (alookup g.bug.tasks src).isSome = true
    · left
      rw [runE_binding g src]
      exact hb
    · have hbf : (alookup g.bug.tasks src).isSome = false := by
        cases h : (alookup g.bug.tasks src).isSome
        · rfl
        · exact absurd h hb
      rcases hp1 with h | h | h
      · exact absurd h hb
      · right; left
        rw [hcfgE, uct_src_all_congr g.cfg src (runE_pkgs_entry g src hbf)]
        exact h
      · right; right
        rw [hoptE]
        exact h
  · intro rel hrelE hne
    rw [hcfgE] at hrelE hne ⊢
    by_cases ht : (getTask g src rel).isSome = true
    · left
      rw [runE_task_nonEol g src rel hne]
      exact ht
    · rcases hp2 rel hrelE hne with h | h | h
      · exact absurd h ht
      · right; left
        have hdev : develMap g.cfg (if rel = g.cfg.develRelease then "devel" else rel) =
            rel := by
          by_cases hR : rel = g.cfg.develRelease
          · rw [if_pos hR]
            unfold develMap
            rw [if_pos rfl]
            exact hR.symm
          · rw [if_neg hR]
            unfold develMap
            rw [if_neg (show ¬rel = "devel" from fun hc => hnodev (hc ▸ hrelE))]
        have hTd : getTask g src (develMap g.cfg
            (if rel = g.cfg.develRelease then "devel" else rel)) = none := by
          rw [hdev]
          cases h2 : getTask g src rel with
          | none => rfl
          | some tk => exact absurd (by rw [h2]; rfl) ht
        by_cases hb : (alookup g.bug.tasks src).isSome = true
        · cases hSd : getState g src (if rel = g.cfg.develRelease then "devel" else rel) with
          | none =>
            rw [runE_state_none g src _ hSd]
            rfl
          | some std =>
            have hvE := runE_view g hwf src
              (if rel = g.cfg.develRelease then "devel" else rel) std hker hb hSd
              (by rw [hdev]; exact hne)
            have hv0 : view g.cfg g src
                (if rel = g.cfg.develRelease then "devel" else rel) = (some std, none) := by
              unfold view
              rw [hSd, hTd]
            rw [hv0, phase1RelV_taskNone g.cfg g.opt g.data src _ std] at hvE
            dsimp only at hvE
            rw [phase2RelV_taskNone g.cfg g.opt src _ std] at hvE
            dsimp only at hvE
            rw [phase3RelV_taskNone g.cfg g.opt src _ std] at hvE
            dsimp only at hvE
            unfold view at hvE
            have hSE := congrArg Prod.fst hvE
            dsimp only at hSE
            rw [hSE]
            rw [hSd] at h
            exact h
        · have hbf : (alookup g.bug.tasks src).isSome = false := by
            cases h2 : (alookup g.bug.tasks src).isSome
            · rfl
            · exact absurd h2 hb
          have hentry := runE_pkgs_entry g src hbf
          have hstate : getState (sync_to_bug_phase3 (sync_from_bug_phase2
              (sync_to_bug_phase1 g).1).1).1 src
              (if rel = g.cfg.develRelease then "devel" else rel) =
              getState g src (if rel = g.cfg.develRelease then "devel" else rel) := by
            unfold getState
            rw [hentry]
          rw [hstate]
          exact h
      · right; right
        rw [hoptE]
        exact h




/-- Well-formedness only reads the configuration, the task map and the record. -/
theorem WF_fields {w g : World} (hc : g.cfg = w.cfg) (hb : g.bug = w.bug)
    (hd : g.data = w.data) (h : WF w) : WF g := by
  unfold WF pkgShape taskShape
  rw [hc, hb, hd]
  exact h

/-- The description after set_bug_description is the old one or the trimmed argument. -/
theorem desc_set_bug_description (w : World) (d : String) :
    (set_bug_description w d).1.bug.description = w.bug.description ∨
    (set_bug_description w d).1.bug.description = sTrim d := by
  unfold set_bug_description
  dsimp only
  split
  · exact Or.inl rfl
  split
  · exact Or.inl rfl
  split
  · split
    · exact Or.inl rfl
    · exact Or.inr rfl
  · exact Or.inl rfl

/-- A no-op description write is insensitive to an extra log entry. -/
theorem set_bug_description_log (w : World) (e : Event) (d : String)
    (h : set_bug_description w d = (w, false)) :
    set_bug_description (logEvent w e) d = (logEvent w e, false) := by
  unfold set_bug_description logEvent at h ⊢
  dsimp only at h ⊢
  by_cases hA : w.bug.description ≠ "Placeholder" ∧ sTrim d = "Description needed"
  · rw [if_pos hA]
  · rw [if_neg hA] at h ⊢
    by_cases hB : UCT_DESC_IGNORE_TAG ∈ w.bug.tags
    · rw [if_pos hB]
    · rw [if_neg hB] at h ⊢
      by_cases hC : w.bug.description ≠ sTrim d
      · rw [if_pos hC] at h
        exfalso
        by_cases hU : (!w.opt.update) = true
        · rw [if_pos hU] at h
          have h2 := congrArg Prod.snd h
          dsimp only at h2
          exact Bool.noConfusion h2
        · rw [if_neg hU] at h
          have h2 := congrArg Prod.snd h
          dsimp only at h2
          exact Bool.noConfusion h2
      · rw [if_neg hC]

/-- At a converged world the phase-1 package loop is an identity. -/
theorem Converged_noop1 (u : World) (hconv : Converged u) :
    pkgLoop phase1Rel u false = (u, false) := by
  unfold pkgLoop
  apply pkgLoopGo_noop phase1Rel (u.data.pkgs.map Prod.fst) u false
  intro s hs hk hb r hr
  have hc := (hconv s hs hk hb r hr).1
  have hcell := phase1Rel_cell u u (SameC.refl u) s r
  have ht : (phase1Rel u s r).2 = false := by rw [hcell.2.1, hc]
  have hw : (phase1Rel u s r).1 = u := hcell.2.2 (by rw [hc])
  exact Prod.ext hw ht

/-- At a converged world the phase-2 package loop is an identity. -/
theorem Converged_noop2 (u : World) (hconv : Converged u) :
    pkgLoop phase2Rel u false = (u, false) := by
  unfold pkgLoop
  apply pkgLoopGo_noop phase2Rel (u.data.pkgs.map Prod.fst) u false
  intro s hs hk hb r hr
  have hc := (hconv s hs hk hb r hr).2.1
  have hcell := phase2Rel_cell u u (SameC.refl u) s r
  have ht : (phase2Rel u s r).2 = false := by rw [hcell.2.1, hc]
  have hw : (phase2Rel u s r).1 = u := hcell.2.2 (by rw [hc])
  exact Prod.ext hw ht

/-- At a converged world the phase-3 package loop is an identity. -/
theorem Converged_noop3 (u : World) (hconv : Converged u) :
    pkgLoop phase3Rel u false = (u, false) := by
  unfold pkgLoop
  apply pkgLoopGo_noop phase3Rel (u.data.pkgs.map Prod.fst) u false
  intro s hs hk hb r hr
  have hc := (hconv s hs hk hb r hr).2.2
  have hcell := phase3Rel_cell u u (SameC.refl u) s r
  have ht : (phase3Rel u s r).2 = false := by rw [hcell.2.1, hc]
  have hw : (phase3Rel u s r).1 = u := hcell.2.2 (by rw [hc])
  exact Prod.ext hw ht

/-- Phase 1 is an identity at a converged world whose EOL sweep has nothing to do. -/
theorem phase1_noop (u : World) (hconv : Converged u)
    (heol : ∀ src ∈ u.bug.tasks.map Prod.fst, src ∈ u.cfg.kernelSrcs →
      ∀ R ∈ u.cfg.eolReleases, (getTask u src R).isSome = true →
      u.opt.allowEolTasks = true) :
    sync_to_bug_phase1 u = (u, false) := by
  unfold sync_to_bug_phase1
  dsimp only
  rw [eolSweep_noop u heol]
  dsimp only
  exact Converged_noop1 u hconv

/-- With no directive lines in the loop-final description, phase 2 returns the loop
    result and its touched flag. -/
theorem sync_from_bug_phase2_clean (v : World)
    (hnd : ∀ l ∈ sSplitOnChar v.bug.description '\n',
      (sStartsWith (sTrim l) "Add-Break-Fix:" ||
        sStartsWith (sTrim l) "Del-Break-Fix:") = false) :
    sync_from_bug_phase2 v =
      ((pkgLoop phase2Rel v false).1, some (pkgLoop phase2Rel v false).2) := by
  have hs : SameC v (pkgLoop phase2Rel v false).1 :=
    pkgLoopGo_same phase2Rel (fun w2 s r => phase2Rel_same w2 s r) _ _ _
  unfold sync_from_bug_phase2
  dsimp only
  apply scanBreakFix_no_directives
  intro l hl
  apply hnd
  rwa [hs.desc] at hl

/-- Phase 2 is an identity at a converged world with a directive-free description. -/
theorem phase2_noop (u : World) (hconv : Converged u)
    (hnd : ∀ l ∈ sSplitOnChar u.bug.description '\n',
      (sStartsWith (sTrim l) "Add-Break-Fix:" ||
        sStartsWith (sTrim l) "Del-Break-Fix:") = false) :
    sync_from_bug_phase2 u = (u, some false) := by
  rw [sync_from_bug_phase2_clean u hnd, Converged_noop2 u hconv]

/-- Phase 3 is an identity at a converged world whose description write is a no-op. -/
theorem phase3_noop (u : World) (hconv : Converged u)
    (hdescr : set_bug_description u (genDescription u.cfg u.data u.bug.tasks
      (u.data.pkgs.map Prod.fst)) = (u, false)) :
    sync_to_bug_phase3 u = (u, false) := by
  unfold sync_to_bug_phase3 _update_description_from_uct
  dsimp only
  rw [Converged_noop3 u hconv]
  dsimp only
  rw [hdescr]
  rfl

/-- A second run from a converged, provisioned world with a stable description
    returns touched = false. -/
theorem sync_kernel_bug_second (u : World) (bf : String)
    (hconv : Converged u) (hprov : Provisioned u)
    (heol : ∀ src ∈ u.bug.tasks.map Prod.fst, src ∈ u.cfg.kernelSrcs →
      ∀ R ∈ u.cfg.eolReleases, (getTask u src R).isSome = true →
      u.opt.allowEolTasks = true)
    (hplc : u.bug.description ≠ "Placeholder")
    (hnd : ∀ l ∈ sSplitOnChar u.bug.description '\n',
      (sStartsWith (sTrim l) "Add-Break-Fix:" ||
        sStartsWith (sTrim l) "Del-Break-Fix:") = false)
    (hdescr : set_bug_description u (genDescription u.cfg u.data u.bug.tasks
      (u.data.pkgs.map Prod.fst)) = (u, false)) :
    (sync_kernel_bug u bf).2 = some false := by
  unfold sync_kernel_bug
  dsimp only
  by_cases hg : bf ≠ sTrim u.data.bugsField
  · rw [if_pos hg]
    by_cases hu : u.opt.update = true
    · rw [if_pos hu]
      have hT : (logEvent u (Event.UpdateMultilineField "Bugs" bf)).bug.tasks =
          u.bug.tasks := rfl
      have hprov2 : Provisioned (logEvent u (Event.UpdateMultilineField "Bugs" bf)) :=
        Provisioned_congr rfl hT rfl rfl hprov
      have hconv2 : Converged (logEvent u (Event.UpdateMultilineField "Bugs" bf)) :=
        Converged_congr rfl rfl rfl hT hconv
      have heol2 : ∀ src ∈ (logEvent u
            (Event.UpdateMultilineField "Bugs" bf)).bug.tasks.map Prod.fst,
          src ∈ (logEvent u (Event.UpdateMultilineField "Bugs" bf)).cfg.kernelSrcs →
          ∀ R ∈ (logEvent u (Event.UpdateMultilineField "Bugs" bf)).cfg.eolReleases,
          (getTask (logEvent u
            (Event.UpdateMultilineField "Bugs" bf)) src R).isSome = true →
          (logEvent u (Event.UpdateMultilineField "Bugs" bf)).opt.allowEolTasks =
            true := by
        intro src hs hk R hR hTk
        exact heol src hs hk R hR (by rwa [getTask_congr hT src R] at hTk)
      rw [refresh_task_packages_noop _ hprov2]
      dsimp only
      rw [if_neg (show ¬(logEvent u
        (Event.UpdateMultilineField "Bugs" bf)).bug.description = "Placeholder"
        from hplc)]
      rw [phase1_noop _ hconv2 heol2]
      dsimp only
      rw [phase2_noop _ hconv2 hnd]
      dsimp only
      rw [phase3_noop _ hconv2 (set_bug_description_log u
        (Event.UpdateMultilineField "Bugs" bf) _ hdescr)]
      rfl
    · rw [if_neg hu]
      rw [refresh_task_packages_noop u hprov]
      dsimp only
      rw [if_neg hplc]
      rw [phase1_noop u hconv heol]
      dsimp only
      rw [phase2_noop u hconv hnd]
      dsimp only
      rw [phase3_noop u hconv hdescr]
      rfl
  · rw [if_neg hg]
    rw [refresh_task_packages_noop u hprov]
    dsimp only
    rw [if_neg hplc]
    rw [phase1_noop u hconv heol]
    dsimp only
    rw [phase2_noop u hconv hnd]
    dsimp only
    rw [phase3_noop u hconv hdescr]
    rfl

/-- The first run: with the provisioner a no-op, a non-placeholder description and no
    directive lines, sync_kernel_bug returns the three-phase world over a gate world
    that differs from the input only by log entries. -/
theorem sync_kernel_bug_run1 (u : World) (bf : String)
    (hprov : Provisioned u)
    (hplc : u.bug.description ≠ "Placeholder")
    (hnd : ∀ l ∈ sSplitOnChar u.bug.description '\n',
      (sStartsWith (sTrim l) "Add-Break-Fix:" ||
        sStartsWith (sTrim l) "Del-Break-Fix:") = false) :
    ∃ g : World, g.cfg = u.cfg ∧ g.opt = u.opt ∧ g.bug = u.bug ∧ g.data = u.data ∧
      ∃ t1, sync_kernel_bug u bf =
        ((sync_to_bug_phase3 (sync_from_bug_phase2
          (sync_to_bug_phase1 g).1).1).1, some t1) := by
  unfold sync_kernel_bug
  dsimp only
  by_cases hg : bf ≠ sTrim u.data.bugsField
  · rw [if_pos hg]
    by_cases hu : u.opt.update = true
    · rw [if_pos hu]
      refine ⟨logEvent u (Event.UpdateMultilineField "Bugs" bf),
        rfl, rfl, rfl, rfl, ?_⟩
      have hT : (logEvent u (Event.UpdateMultilineField "Bugs" bf)).bug.tasks =
          u.bug.tasks := rfl
      rw [refresh_task_packages_noop _ (Provisioned_congr rfl hT rfl rfl hprov)]
      dsimp only
      rw [if_neg (show ¬(logEvent u
        (Event.UpdateMultilineField "Bugs" bf)).bug.description = "Placeholder"
        from hplc)]
      rw [sync_from_bug_phase2_clean _ (by
        intro l hl
        apply hnd
        rwa [(sync_to_bug_phase1_props _).2.2.1] at hl)]
      dsimp only
      rw [← phase2_world]
      exact ⟨_, rfl⟩
    · rw [if_neg hu]
      refine ⟨u, rfl, rfl, rfl, rfl, ?_⟩
      rw [refresh_task_packages_noop u hprov]
      dsimp only
      rw [if_neg hplc]
      rw [sync_from_bug_phase2_clean _ (by
        intro l hl
        apply hnd
        rwa [(sync_to_bug_phase1_props _).2.2.1] at hl)]
      dsimp only
      rw [← phase2_world]
      exact ⟨_, rfl⟩
  · rw [if_neg hg]
    refine ⟨u, rfl, rfl, rfl, rfl, ?_⟩
    rw [refresh_task_packages_noop u hprov]
    dsimp only
    rw [if_neg hplc]
    rw [sync_from_bug_phase2_clean _ (by
      intro l hl
      apply hnd
      rwa [(sync_to_bug_phase1_props _).2.2.1] at hl)]
    dsimp only
    rw [← phase2_world]
    exact ⟨_, rfl⟩

/-- The description regenerated at the end of the phase-3 loop equals the one
    regenerated from the starting world: its inputs (patch lines, record description
    fields, task bindings, package keys) all survive the run. -/
theorem runE_gen (g : World) :
    genDescription
      (pkgLoop phase3Rel (sync_from_bug_phase2
        (sync_to_bug_phase1 g).1).1 false).1.cfg
      (pkgLoop phase3Rel (sync_from_bug_phase2
        (sync_to_bug_phase1 g).1).1 false).1.data
      (pkgLoop phase3Rel (sync_from_bug_phase2
        (sync_to_bug_phase1 g).1).1 false).1.bug.tasks
      ((pkgLoop phase3Rel (sync_from_bug_phase2
        (sync_to_bug_phase1 g).1).1 false).1.data.pkgs.map Prod.fst) =
    genDescription g.cfg g.data g.bug.tasks (g.data.pkgs.map Prod.fst) := by
  have hs3 : SameC (sync_from_bug_phase2 (sync_to_bug_phase1 g).1).1
      (pkgLoop phase3Rel (sync_from_bug_phase2
        (sync_to_bug_phase1 g).1).1 false).1 :=
    phase3_loop_SameC _
  have hs2 : SameC (sync_to_bug_phase1 g).1
      (sync_from_bug_phase2 (sync_to_bug_phase1 g).1).1 :=
    phase2_SameC _
  have hdata31 : (pkgLoop phase3Rel (sync_from_bug_phase2
      (sync_to_bug_phase1 g).1).1 false).1.data =
      (sync_from_bug_phase2 (sync_to_bug_phase1 g).1).1.data :=
    pkgLoopGo_data phase3Rel phase3Rel_data _ _ false
  have hcfg31 : (pkgLoop phase3Rel (sync_from_bug_phase2
      (sync_to_bug_phase1 g).1).1 false).1.cfg = g.cfg :=
    hs3.cfg.trans (hs2.cfg.trans (sync_to_bug_phase1_props g).1)
  have hkeys : (pkgLoop phase3Rel (sync_from_bug_phase2
      (sync_to_bug_phase1 g).1).1 false).1.data.pkgs.map Prod.fst =
      g.data.pkgs.map Prod.fst := by
    rw [hdata31, pkgsKeys_of_SameC hs2, sync_to_bug_phase1_data g]
  rw [hcfg31, hkeys]
  refine genDescription_congr g.cfg (g.data.pkgs.map Prod.fst) ?_ ?_ ?_ ?_
  · rw [hdata31, hs2.patches, sync_to_bug_phase1_data g]
  · rw [hdata31, hs2.ddesc, sync_to_bug_phase1_data g]
  · rw [hdata31, hs2.dudesc, sync_to_bug_phase1_data g]
  · intro s _
    rw [taskPresent_of_SameC hs3 s, taskPresent_of_SameC hs2 s,
      taskPresent_of_SameC (phase1_SameC g) s, eolSweep_binding g s]

/-- The description regenerated at the end of the whole run equals the one
    regenerated from the starting world. -/
theorem runE_gen_top (g : World) :
    genDescription
      (sync_to_bug_phase3 (sync_from_bug_phase2 (sync_to_bug_phase1 g).1).1).1.cfg
      (sync_to_bug_phase3 (sync_from_bug_phase2 (sync_to_bug_phase1 g).1).1).1.data
      (sync_to_bug_phase3 (sync_from_bug_phase2
        (sync_to_bug_phase1 g).1).1).1.bug.tasks
      ((sync_to_bug_phase3 (sync_from_bug_phase2
        (sync_to_bug_phase1 g).1).1).1.data.pkgs.map Prod.fst) =
    genDescription g.cfg g.data g.bug.tasks (g.data.pkgs.map Prod.fst) := by
  rw [runE_cfg g, runE_pkgsKeys g]
  exact genDescription_congr g.cfg (g.data.pkgs.map Prod.fst)
    (runE_data_meta g).1 (runE_data_meta g).2.1 (runE_data_meta g).2.2.1
    (fun s _ => runE_binding g s)

/-- After one run the description is the original one or the trimmed regenerated
    text. -/
theorem runE_desc (g : World) :
    (sync_to_bug_phase3 (sync_from_bug_phase2
        (sync_to_bug_phase1 g).1).1).1.bug.description = g.bug.description ∨
    (sync_to_bug_phase3 (sync_from_bug_phase2
        (sync_to_bug_phase1 g).1).1).1.bug.description =
      sTrim (genDescription g.cfg g.data g.bug.tasks (g.data.pkgs.map Prod.fst)) := by
  rw [sync_to_bug_phase3_world]
  rcases desc_set_bug_description
      (pkgLoop phase3Rel (sync_from_bug_phase2
        (sync_to_bug_phase1 g).1).1 false).1
      (genDescription
        (pkgLoop phase3Rel (sync_from_bug_phase2
          (sync_to_bug_phase1 g).1).1 false).1.cfg
        (pkgLoop phase3Rel (sync_from_bug_phase2
          (sync_to_bug_phase1 g).1).1 false).1.data
        (pkgLoop phase3Rel (sync_from_bug_phase2
          (sync_to_bug_phase1 g).1).1 false).1.bug.tasks
        ((pkgLoop phase3Rel (sync_from_bug_phase2
          (sync_to_bug_phase1 g).1).1 false).1.data.pkgs.map Prod.fst))
      with h | h
  · left
    rw [h, (phase3_loop_SameC _).desc, (phase2_SameC _).desc,
      (sync_to_bug_phase1_props g).2.2.1]
  · right
    rw [h, runE_gen g]

/-- The end-of-run description write of a second run is a gated no-op. -/
theorem runE_descr_noop (g : World) (hupd : g.opt.update = true) :
    set_bug_description
      (sync_to_bug_phase3 (sync_from_bug_phase2 (sync_to_bug_phase1 g).1).1).1
      (genDescription g.cfg g.data g.bug.tasks (g.data.pkgs.map Prod.fst)) =
    ((sync_to_bug_phase3 (sync_from_bug_phase2 (sync_to_bug_phase1 g).1).1).1,
      false) := by
  have hupd31 : (pkgLoop phase3Rel (sync_from_bug_phase2
      (sync_to_bug_phase1 g).1).1 false).1.opt.update = true := by
    rw [(phase3_loop_SameC _).opt, (phase2_SameC _).opt,
      (sync_to_bug_phase1_props g).2.1]
    exact hupd
  have hdesc : (sync_to_bug_phase3 (sync_from_bug_phase2
      (sync_to_bug_phase1 g).1).1).1.bug.description =
      (set_bug_description
        (pkgLoop phase3Rel (sync_from_bug_phase2
          (sync_to_bug_phase1 g).1).1 false).1
        (genDescription
          (pkgLoop phase3Rel (sync_from_bug_phase2
            (sync_to_bug_phase1 g).1).1 false).1.cfg
          (pkgLoop phase3Rel (sync_from_bug_phase2
            (sync_to_bug_phase1 g).1).1 false).1.data
          (pkgLoop phase3Rel (sync_from_bug_phase2
            (sync_to_bug_phase1 g).1).1 false).1.bug.tasks
          ((pkgLoop phase3Rel (sync_from_bug_phase2
            (sync_to_bug_phase1 g).1).1 false).1.data.pkgs.map
              Prod.fst))).1.bug.description := by
    rw [sync_to_bug_phase3_world]
  have htags : (sync_to_bug_phase3 (sync_from_bug_phase2
      (sync_to_bug_phase1 g).1).1).1.bug.tags =
      (pkgLoop phase3Rel (sync_from_bug_phase2
        (sync_to_bug_phase1 g).1).1 false).1.bug.tags := by
    rw [(sync_to_bug_phase3_props _).2.2.1, (phase3_loop_SameC _).tags]
  have h2 := set_bug_description_second
    (pkgLoop phase3Rel (sync_from_bug_phase2 (sync_to_bug_phase1 g).1).1 false).1
    (sync_to_bug_phase3 (sync_from_bug_phase2 (sync_to_bug_phase1 g).1).1).1
    (genDescription
      (pkgLoop phase3Rel (sync_from_bug_phase2
        (sync_to_bug_phase1 g).1).1 false).1.cfg
      (pkgLoop phase3Rel (sync_from_bug_phase2
        (sync_to_bug_phase1 g).1).1 false).1.data
      (pkgLoop phase3Rel (sync_from_bug_phase2
        (sync_to_bug_phase1 g).1).1 false).1.bug.tasks
      ((pkgLoop phase3Rel (sync_from_bug_phase2
        (sync_to_bug_phase1 g).1).1 false).1.data.pkgs.map Prod.fst))
    hupd31 hdesc htags
  rw [← runE_gen g]
  exact h2

/-- After one live run no kernel-source task sits on an EOL release unless the
    allow-eol-tasks flag is set. -/
theorem runE_eol_ok (g : World) (hwf : WF g) (hupd : g.opt.update = true) :
    ∀ src ∈ (sync_to_bug_phase3 (sync_from_bug_phase2
        (sync_to_bug_phase1 g).1).1).1.bug.tasks.map Prod.fst,
      src ∈ (sync_to_bug_phase3 (sync_from_bug_phase2
        (sync_to_bug_phase1 g).1).1).1.cfg.kernelSrcs →
      ∀ R ∈ (sync_to_bug_phase3 (sync_from_bug_phase2
        (sync_to_bug_phase1 g).1).1).1.cfg.eolReleases,
      (getTask (sync_to_bug_phase3 (sync_from_bug_phase2
        (sync_to_bug_phase1 g).1).1).1 src R).isSome = true →
      (sync_to_bug_phase3 (sync_from_bug_phase2
        (sync_to_bug_phase1 g).1).1).1.opt.allowEolTasks = true := by
  intro src hs hk R hR hT
  rw [runE_opt g]
  by_cases ha : g.opt.allowEolTasks = true
  · exact ha
  · exfalso
    have ha2 : g.opt.allowEolTasks = false := by
      cases hx : g.opt.allowEolTasks
      · rfl
      · exact absurd hx ha
    have hnone := runE_task_eol_none g hwf hupd ha2 src R
      (by rw [runE_cfg g] at hk; exact hk) (by rw [runE_cfg g] at hR; exact hR)
    rw [hnone] at hT
    exact Bool.noConfusion hT

/-- Claim C1 (amended): idempotence holds on the reconciler's convergence domain, not
    for every Bug/Record pair.  For a well-formed, fully provisioned world in live
    mode whose configured release list does not literally contain "devel", whose bug
    description is not the "Placeholder" sentinel, whose regenerated description does
    not trim to "Placeholder", and whose current and regenerated descriptions contain
    no Add-Break-Fix:/Del-Break-Fix: directive line, running sync_kernel_bug twice
    with the same Bugs field and no intervening external change returns
    touched = false on the second run.  The original universal claim fails: a
    description holding a directive line makes every run abort in the phase-2 scan
    (del_uct_sha/add_uct_sha are called with two arguments against three parameters,
    a TypeError), as the note in the claim itself anticipates. -/
theorem C1_idempotence_amended (w : World) (bf : String)
    (hwf : WF w) (hupd : w.opt.update = true)
    (hprov : Provisioned w)
    (hnodev : "devel" ∉ w.cfg.releases)
    (hplc : w.bug.description ≠ "Placeholder")
    (hgen : sTrim (genDescription w.cfg w.data w.bug.tasks
      (w.data.pkgs.map Prod.fst)) ≠ "Placeholder")
    (hnodir1 : ∀ l ∈ sSplitOnChar w.bug.description '\n',
      (sStartsWith (sTrim l) "Add-Break-Fix:" ||
        sStartsWith (sTrim l) "Del-Break-Fix:") = false)
    (hnodir2 : ∀ l ∈ sSplitOnChar (sTrim (genDescription w.cfg w.data w.bug.tasks
      (w.data.pkgs.map Prod.fst))) '\n',
      (sStartsWith (sTrim l) "Add-Break-Fix:" ||
        sStartsWith (sTrim l) "Del-Break-Fix:") = false) :
    runTwice w bf = some false := by
  obtain ⟨g, hcfg, hopt, hbug, hdata, t1, h1⟩ :=
    sync_kernel_bug_run1 w bf hprov hplc hnodir1
  have hwfg : WF g := WF_fields hcfg hbug hdata hwf
  have hupdg : g.opt.update = true := by rw [hopt]; exact hupd
  have hgeng : genDescription g.cfg g.data g.bug.tasks (g.data.pkgs.map Prod.fst) =
      genDescription w.cfg w.data w.bug.tasks (w.data.pkgs.map Prod.fst) := by
    rw [hcfg, hdata, hbug]
  have hconvE := run1_Converged g hwfg hupdg
  have hprovE := run1_Provisioned g hwfg (by rw [hcfg]; exact hnodev)
    (Provisioned_congr hcfg (by rw [hbug]) hdata hopt hprov)
  have heolE := runE_eol_ok g hwfg hupdg
  have hdescE := runE_desc g
  rw [hgeng, hbug] at hdescE
  have hplcE : (sync_to_bug_phase3 (sync_from_bug_phase2
      (sync_to_bug_phase1 g).1).1).1.bug.description ≠ "Placeholder" := by
    rcases hdescE with h | h
    · rw [h]; exact hplc
    · rw [h]; exact hgen
  have hndE : ∀ l ∈ sSplitOnChar (sync_to_bug_phase3 (sync_from_bug_phase2
      (sync_to_bug_phase1 g).1).1).1.bug.description '\n',
      (sStartsWith (sTrim l) "Add-Break-Fix:" ||
        sStartsWith (sTrim l) "Del-Break-Fix:") = false := by
    rcases hdescE with h | h
    · rw [h]; exact hnodir1
    · rw [h]; exact hnodir2
  have hdescrE : set_bug_description (sync_to_bug_phase3 (sync_from_bug_phase2
      (sync_to_bug_phase1 g).1).1).1
      (genDescription
        (sync_to_bug_phase3 (sync_from_bug_phase2 (sync_to_bug_phase1 g).1).1).1.cfg
        (sync_to_bug_phase3 (sync_from_bug_phase2 (sync_to_bug_phase1 g).1).1).1.data
        (sync_to_bug_phase3 (sync_from_bug_phase2
          (sync_to_bug_phase1 g).1).1).1.bug.tasks
        ((sync_to_bug_phase3 (sync_from_bug_phase2
          (sync_to_bug_phase1 g).1).1).1.data.pkgs.map Prod.fst)) =
      ((sync_to_bug_phase3 (sync_from_bug_phase2 (sync_to_bug_phase1 g).1).1).1,
        false) := by
    rw [runE_gen_top g, hgeng, ← hgeng]
    exact runE_descr_noop g hupdg
  have h2 := sync_kernel_bug_second
    (sync_to_bug_phase3 (sync_from_bug_phase2 (sync_to_bug_phase1 g).1).1).1 bf
    hconvE hprovE heolE hplcE hndE hdescrE
  unfold runTwice
  rw [h1]
  dsimp only
  rcases hsk : sync_kernel_bug (sync_to_bug_phase3 (sync_from_bug_phase2
    (sync_to_bug_phase1 g).1).1).1 bf with ⟨w2, r2⟩
  rw [hsk] at h2
  dsimp only at h2
  subst h2
  rfl

/-- Claim C1 counterexample: the original universal idempotence claim fails.  On the
    concrete world whose bug description is the single directive line
    "Add-Break-Fix: deadbeef", in live mode with no intervening external change, both
    runs abort in the phase-2 description scan (the TypeError of the two-argument
    del_uct_sha/add_uct_sha calls), so running twice never returns touched = false. -/
theorem C1_idempotence_counterexample : runTwice cWdirective "" ≠ some false := by
  decide

/-- Closed instance of the amended C1 theorem: a concrete provisioned live-mode world
    with a pending record state and a New task converges after one run. -/
theorem C1_idempotence_amended_witness :
    WF (cW State.pending Status.New) ∧
    (cW State.pending Status.New).opt.update = true ∧
    Provisioned (cW State.pending Status.New) ∧
    "devel" ∉ (cW State.pending Status.New).cfg.releases ∧
    (cW State.pending Status.New).bug.description ≠ "Placeholder" ∧
    runTwice (cW State.pending Status.New) "" = some false :=
  ⟨by decide, rfl, by decide, by decide, by decide,
    C1_idempotence_amended (cW State.pending Status.New) "" (by decide) rfl
      (by decide) (by decide) (by decide) (by decide) (by decide) (by decide)⟩

end SyncBugsKernel
